import Mathlib

/-! MaxScale MariaDB protocol: user account data and the handshake packet parser.

A shallow embedding of `server/modules/protocol/MariaDB/user_data.cc`, of the
`UserEntry` structure of `include/maxscale/protocol/mariadb/authenticator.hh` and of
`server/modules/protocol/MariaDB/packet_parser.cc`.

Conventions of the embedding:

* `std::string` is `String`; one `Char` stands for one C++ `char`.
* `std::set<std::string>` is a `List String` read as a set; the only place where the
  iteration order of the set is observable by the program is `*open_set.begin()`, which
  is the least element of the set.
* `std::map<std::string, T>` is an association list searched with `List.lookup`.
* A `const UserEntry*` result is `Option UserEntry` (`nullptr` is `none`).
* Log output (`MXB_INFO`, `MXB_ERROR`) is not part of the state.
* Library and helper routines whose code is outside the translated files
  (`Host::is_valid_ipv4`, `Host::is_valid_ipv6`, `sql_strlike`, `mxb::reverse_name_lookup`,
  `inet_pton`) are the fields of `HostEnv`; `UserEntry::host_pattern_is_more_specific`
  is a comparator argument.
-/

namespace MaxScale

/-! ## Data model -/

/-- The `mariadb::UserEntry` structure of authenticator.hh. -/
structure UserEntry where
  username : String := ""
  host_pattern : String := ""
  plugin : String := ""
  password : String := ""
  auth_string : String := ""
  ssl : Bool := false
  global_db_priv : Bool := false
  proxy_grant : Bool := false
  is_role : Bool := false
  default_role : String := ""
deriving DecidableEq, Repr

/-- The type `UserDatabase::StringSet`. -/
abbrev StringSet := List String

/-- The type `UserDatabase::StringSetMap`. -/
abbrev StringSetMap := List (String × StringSet)

/-- The type `UserDatabase::EntryList`, a vector of entries. -/
abbrev EntryList := List UserEntry

/-- The members of `UserDatabase`: `m_users`, `m_database_grants`, `m_roles_mapping`. -/
structure UserDatabase where
  m_users : List (String × EntryList) := []
  m_database_grants : StringSetMap := []
  m_roles_mapping : StringSetMap := []
deriving DecidableEq, Repr

/-- The fields of `mariadb::UserSearchSettings` read by `MariaDBUserCache::find_user` and
written by `MySQLProtocolModule::parse_authenticator_opts`. -/
structure UserSearchSettings where
  allow_root_user : Bool
  allow_anon_user : Bool
  match_host_pattern : Bool
  case_sensitive_db : Bool
  allow_service_user : Bool
deriving DecidableEq, Repr

/-- The enum `UserDatabase::AddrType`. -/
inductive AddrType where
  | UNKNOWN
  | IPV4
  | MAPPED
  | IPV6
deriving DecidableEq, Repr

/-- The enum `UserDatabase::PatternType`. -/
inductive PatternType where
  | UNKNOWN
  | ADDRESS
  | MASK
  | HOSTNAME
deriving DecidableEq, Repr

/-- The enum `UserDatabase::HostPatternMode`. -/
inductive HostPatternMode where
  | SKIP
  | MATCH
deriving DecidableEq, Repr

/-- Routines called by user_data.cc whose code lives outside it.
`sql_strlike pattern str esc` returns 0 on a match; `reverse_name_lookup addr` is
`some name` when the lookup succeeds; `inet_pton ip` is the value stored in `s_addr` when
the conversion succeeds, and `uninit_s_addr ip` is whatever the uninitialised `sockaddr_in`
holds when it does not (the return value of `inet_pton` is not checked by the caller). -/
structure HostEnv where
  is_valid_ipv4 : String → Bool
  is_valid_ipv6 : String → Bool
  sql_strlike : String → String → Char → Int
  reverse_name_lookup : String → Option String
  inet_pton : String → Option Nat
  uninit_s_addr : String → Nat

/-! ## std::string and container helpers -/

/-- The constant `ipv4min_len` (the length of 1.1.1.1). -/
def ipv4min_len : Nat := 7

/-- The call `hay.find(needle)` of std::string: index of the first occurrence. -/
def str_find : List Char → List Char → Option Nat
  | [], needle => if needle.isEmpty then some 0 else none
  | c :: cs, needle =>
    if needle.isPrefixOf (c :: cs) then some 0
    else (str_find cs needle).map (· + 1)

/-- The call `s.find(c)` of std::string for a single character. -/
def str_find_char : List Char → Char → Option Nat
  | [], _ => none
  | x :: xs, c => if x = c then some 0 else (str_find_char xs c).map (· + 1)

/-- The expression `s.find_last_of(c) + 1`: one past the last occurrence of `c`, and 0
when there is none (`npos + 1` wraps around to 0). -/
def after_last_of : List Char → Char → Nat
  | [], _ => 0
  | x :: xs, c =>
    match after_last_of xs c with
    | 0 => if x = c then 1 else 0
    | n + 1 => n + 2

/-- The call `s.substr(pos)`. -/
def substr_from (s : String) (pos : Nat) : String := String.mk (s.data.drop pos)

/-- The call `s.substr(0, len)`. -/
def substr_to (s : String) (len : Nat) : String := String.mk (s.data.take len)

/-- The comparison loop of `operator<` on std::string: lexicographic on the character
codes, a proper initial part being smaller. -/
def str_lt_chars : List Char → List Char → Bool
  | _, [] => false
  | [], _ :: _ => true
  | a :: as, b :: bs =>
    if a.toNat < b.toNat then true
    else if a.toNat = b.toNat then str_lt_chars as bs
    else false

/-- The comparison `a < b` of two std::string values. -/
def str_lt (a b : String) : Bool := str_lt_chars a.data b.data

/-- The element `*s.begin()` of a non-empty std::set: its least element. -/
def set_begin : StringSet → Option String
  | [] => none
  | x :: xs => some (xs.foldl (fun m y => if str_lt y m then y else m) x)

/-- The test `s.count(x) > 0` on a std::set. -/
def set_contains (s : StringSet) (x : String) : Bool := decide (x ∈ s)

/-- The call `s.insert(x)` on a std::set. -/
def set_insert (s : StringSet) (x : String) : StringSet := if x ∈ s then s else x :: s

/-- The call `s.erase(x)` on a std::set. -/
def set_erase (s : StringSet) (x : String) : StringSet := s.filter (fun y => decide (y ≠ x))

/-- The C function `tolower` in the C locale. -/
def tolower (c : Char) : Char :=
  if 65 ≤ c.toNat ∧ c.toNat ≤ 90 then Char.ofNat (c.toNat + 32) else c

/-- The characters of `s.c_str()` read as a C string: everything before the first NUL. -/
def c_str (s : String) : List Char := s.data.takeWhile (fun c => decide (c.toNat ≠ 0))

/-- Comparison loop of `strcasecmp` over two C strings given without their terminators;
the end of a list is the terminating NUL. -/
def strcasecmp_chars : List Char → List Char → Int
  | [], [] => 0
  | [], b :: _ => 0 - ((tolower b).toNat : Int)
  | a :: _, [] => ((tolower a).toNat : Int)
  | a :: as, b :: bs =>
    if tolower a = tolower b then strcasecmp_chars as bs
    else ((tolower a).toNat : Int) - ((tolower b).toNat : Int)

/-- The call `strcasecmp(a.c_str(), b.c_str())`. -/
def strcasecmp (a b : String) : Int := strcasecmp_chars (c_str a) (c_str b)

/-- The C function `isxdigit` in the C locale. -/
def isxdigit (c : Char) : Bool :=
  (48 ≤ c.toNat && c.toNat ≤ 57) || (97 ≤ c.toNat && c.toNat ≤ 102)
    || (65 ≤ c.toNat && c.toNat ≤ 70)

/-- The C function `isalnum` in the C locale. -/
def isalnum (c : Char) : Bool :=
  (48 ≤ c.toNat && c.toNat ≤ 57) || (97 ≤ c.toNat && c.toNat ≤ 122)
    || (65 ≤ c.toNat && c.toNat ≤ 90)

/-! ## Host pattern matching (user_data.cc) -/

/-- The method `UserDatabase::parse_address_type`. -/
def parse_address_type (env : HostEnv) (addr : String) : AddrType :=
  if env.is_valid_ipv4 addr then AddrType.IPV4
  else
    let mapping_pfx : String := ":ffff:"
    let rval : AddrType :=
      match str_find addr.data mapping_pfx.data with
      | some pfx_loc =>
        let ipv4part_loc := pfx_loc + mapping_pfx.length
        if addr.length ≥ ipv4part_loc + ipv4min_len then
          if env.is_valid_ipv4 (substr_from addr ipv4part_loc) then AddrType.MAPPED
          else AddrType.UNKNOWN
        else AddrType.UNKNOWN
      | none => AddrType.UNKNOWN
    if rval = AddrType.UNKNOWN ∧ env.is_valid_ipv6 addr = true then AddrType.IPV6 else rval

/-- The lambda `is_wc` of `parse_pattern_type`. -/
def is_wc (c : Char) : Bool := c = '%' || c = '_'

/-- The lambda `is_ipchar` of `parse_pattern_type`. -/
def is_ipchar (c : Char) : Bool := isxdigit c || c = ':' || c = '.'

/-- The lambda `is_hostnamechar` of `parse_pattern_type`. -/
def is_hostnamechar (c : Char) : Bool := isalnum c || c = '_' || c = '.' || c = '-'

/-- The lambda `classify_char` of `parse_pattern_type`, acting on the pair
`(maybe_address, maybe_hostname)`. -/
def classify_char (c : Char) (flags : Bool × Bool) : Bool × Bool :=
  if is_wc c then flags
  else
    (if !is_ipchar c then false else flags.1, if !is_hostnamechar c then false else flags.2)

/-- The character loop of `parse_pattern_type`; arguments after the remaining characters
are `maybe_address`, `maybe_hostname` and `escaped`; the result is the final pair
`(maybe_address, maybe_hostname)`. -/
def pattern_scan : List Char → Bool → Bool → Bool → Bool × Bool
  | [], maybe_address, maybe_hostname, _ => (maybe_address, maybe_hostname)
  | c :: cs, maybe_address, maybe_hostname, escaped =>
    let st : Bool × Bool × Bool :=
      if escaped then
        if c = '%' then (false, false, false)
        else
          ((classify_char c (maybe_address, maybe_hostname)).1,
            (classify_char c (maybe_address, maybe_hostname)).2, false)
      else if c = '\\' then (maybe_address, maybe_hostname, true)
      else
        ((classify_char c (maybe_address, maybe_hostname)).1,
          (classify_char c (maybe_address, maybe_hostname)).2, escaped)
    if !st.1 && !st.2.1 then (st.1, st.2.1)
    else pattern_scan cs st.1 st.2.1 st.2.2

/-- The method `UserDatabase::parse_pattern_type`. -/
def parse_pattern_type (env : HostEnv) (host_pattern : String) : PatternType :=
  let patterntype : PatternType :=
    if env.is_valid_ipv4 host_pattern || env.is_valid_ipv6 host_pattern then PatternType.ADDRESS
    else if host_pattern.data.all is_wc then PatternType.ADDRESS
    else
      match str_find_char host_pattern.data '/' with
      | some div_loc =>
        if div_loc ≥ ipv4min_len ∧ host_pattern.length > div_loc + ipv4min_len then
          let base_ip := substr_to host_pattern div_loc
          let netmask := substr_from host_pattern (div_loc + 1)
          if env.is_valid_ipv4 base_ip && env.is_valid_ipv4 netmask then PatternType.MASK
          else PatternType.UNKNOWN
        else PatternType.UNKNOWN
      | none => PatternType.UNKNOWN
  if patterntype = PatternType.UNKNOWN then
    let flags := pattern_scan host_pattern.data true true false
    if flags.1 then PatternType.ADDRESS
    else if flags.2 then PatternType.HOSTNAME
    else PatternType.UNKNOWN
  else patterntype

/-- The lambda `like` of `address_matches_host_pattern`. -/
def like (env : HostEnv) (pattern str : String) : Bool :=
  env.sql_strlike pattern str '\\' == 0

/-- The lambda `ip_to_integer` of `address_matches_host_pattern`; the result is a
`uint32_t`. -/
def ip_to_integer (env : HostEnv) (ip : String) : Nat :=
  match env.inet_pton ip with
  | some s_addr => s_addr % 4294967296
  | none => env.uninit_s_addr ip % 4294967296

/-- The method `UserDatabase::address_matches_host_pattern`. -/
def address_matches_host_pattern (env : HostEnv) (addr host_pattern : String) : Bool :=
  let addrtype := parse_address_type env addr
  if addrtype = AddrType.UNKNOWN then false
  else
    let patterntype := parse_pattern_type env host_pattern
    match patterntype with
    | PatternType.UNKNOWN => false
    | PatternType.ADDRESS =>
      if like env host_pattern addr then true
      else if addrtype = AddrType.MAPPED then
        let ipv4_part := after_last_of addr.data ':'
        like env host_pattern (substr_from addr ipv4_part)
      else false
    | PatternType.MASK =>
      let effective_addr : String :=
        if addrtype = AddrType.IPV4 then addr
        else if addrtype = AddrType.MAPPED then substr_from addr (after_last_of addr.data ':')
        else ""
      if effective_addr ≠ "" then
        let parts : String × String :=
          match str_find_char host_pattern.data '/' with
          | some div_loc => (substr_to host_pattern div_loc, substr_from host_pattern (div_loc + 1))
          | none => (host_pattern, host_pattern)
        let address := ip_to_integer env effective_addr
        let base_ip := ip_to_integer env parts.1
        let mask := ip_to_integer env parts.2
        decide (Nat.land address mask = base_ip)
      else false
    | PatternType.HOSTNAME =>
      match env.reverse_name_lookup addr with
      | some resolved_addr => like env host_pattern resolved_addr
      | none => false

/-! ## The user database (user_data.cc) -/

/-- The result of `std::upper_bound(begin, end, val, comp)` as an index: the furthest
position such that `comp val x` is false for every `x` before it. -/
def upper_bound {α : Type} (comp : α → α → Bool) (val : α) : List α → Nat
  | [] => 0
  | x :: xs => if comp val x then 0 else upper_bound comp val xs + 1

/-- The result of `std::lower_bound(begin, end, val, comp)` as an index: the furthest
position such that `comp x val` is true for every `x` before it. -/
def lower_bound {α : Type} (comp : α → α → Bool) (val : α) : List α → Nat
  | [] => 0
  | x :: xs => if comp x val then lower_bound comp val xs + 1 else 0

/-- The call `v.insert(v.begin() + i, x)` on a vector. -/
def vector_insert {α : Type} (v : List α) (i : Nat) (x : α) : List α :=
  v.take i ++ x :: v.drop i

/-- The access `m[k]` on a std::map followed by an update `f` of the referenced value;
a missing key is first given the default value `dflt`. -/
def map_modify {β : Type} (k : String) (f : β → β) (dflt : β) :
    List (String × β) → List (String × β)
  | [] => [(k, f dflt)]
  | (k1, v) :: rest =>
    if k1 = k then (k1, f v) :: rest else (k1, v) :: map_modify k f dflt rest

/-- The method `UserDatabase::add_entry`; `more_specific` is
`UserEntry::host_pattern_is_more_specific`. -/
def add_entry (more_specific : UserEntry → UserEntry → Bool) (db : UserDatabase)
    (username : String) (entry : UserEntry) : UserDatabase :=
  { db with
    m_users :=
      map_modify username
        (fun entrylist => vector_insert entrylist (upper_bound more_specific entry entrylist) entry)
        [] db.m_users }

/-- The loop over the entry list in `UserDatabase::find_entry(username, host, mode)`. -/
def find_entry_loop (env : HostEnv) (host : String) (mode : HostPatternMode) :
    EntryList → Option UserEntry
  | [] => none
  | entry :: rest =>
    if !entry.is_role
        && (mode = HostPatternMode.SKIP
          || address_matches_host_pattern env host entry.host_pattern) then
      some entry
    else find_entry_loop env host mode rest

/-- The method `UserDatabase::find_entry(username, host, mode)`. -/
def find_entry_mode (env : HostEnv) (db : UserDatabase) (username host : String)
    (mode : HostPatternMode) : Option UserEntry :=
  match db.m_users.lookup username with
  | some entrylist => find_entry_loop env host mode entrylist
  | none => none

/-- The method `UserDatabase::find_entry(username, host)`. -/
def find_entry (env : HostEnv) (db : UserDatabase) (username host : String) :
    Option UserEntry :=
  find_entry_mode env db username host HostPatternMode.MATCH

/-- The method `UserDatabase::find_entry(username)`. -/
def find_entry_user (env : HostEnv) (db : UserDatabase) (username : String) :
    Option UserEntry :=
  find_entry_mode env db username "" HostPatternMode.SKIP

/-- The method `UserDatabase::user_can_access_db`. -/
def user_can_access_db (udb : UserDatabase) (user host_pattern db : String)
    (case_sensitive_db : Bool) : Bool :=
  let key := user ++ "@" ++ host_pattern
  match udb.m_database_grants.lookup key with
  | some allowed_dbs =>
    if !case_sensitive_db then
      allowed_dbs.any (fun allowed_db => decide (strcasecmp allowed_db db = 0))
    else set_contains allowed_dbs db
  | none => false

/-- The method `UserDatabase::user_can_access_role`. -/
def user_can_access_role (udb : UserDatabase) (user host_pattern target_role : String) : Bool :=
  let key := user ++ "@" ++ host_pattern
  match udb.m_roles_mapping.lookup key with
  | some roles => set_contains roles target_role
  | none => false

/-- The lambda `role_has_global_priv` of `role_can_access_db`. -/
def role_has_global_priv (udb : UserDatabase) (role : String) : Bool :=
  match udb.m_users.lookup role with
  | some entrylist =>
    match entrylist with
    | [] => false
    | entry :: _ => entry.is_role && entry.global_db_priv
  | none => false

/-- The lambda `find_linked_roles` of `role_can_access_db`. -/
def find_linked_roles (udb : UserDatabase) (role : String) : List String :=
  let key := role ++ "@"
  match udb.m_roles_mapping.lookup key with
  | some roles_set => roles_set
  | none => []

/-- The local variables of the loop of `role_can_access_db`. -/
structure RoleSearch where
  open_set : StringSet
  closed_set : StringSet
  privilege_found : Bool
deriving DecidableEq, Repr

/-- The inner loop of `role_can_access_db` that adds the linked roles to the open set. -/
def add_linked_roles (closed_set : StringSet) (linked_roles : List String)
    (open_set : StringSet) : StringSet :=
  linked_roles.foldl
    (fun o linked_role =>
      if !set_contains o linked_role && !set_contains closed_set linked_role then
        set_insert o linked_role
      else o)
    open_set

/-- One pass through the body of the while loop of `role_can_access_db`, for the role
`current_role` taken from the front of the open set. -/
def role_loop_body (udb : UserDatabase) (db : String) (case_sensitive_db : Bool)
    (current_role : String) (s : RoleSearch) : RoleSearch :=
  let s1 : RoleSearch :=
    if role_has_global_priv udb current_role then { s with privilege_found := true }
    else if user_can_access_db udb current_role "" db case_sensitive_db then
      { s with privilege_found := true }
    else
      { s with
        open_set :=
          add_linked_roles s.closed_set (find_linked_roles udb current_role) s.open_set }
  { s1 with
    open_set := set_erase s1.open_set current_role
    closed_set := set_insert s1.closed_set current_role }

/-- The while loop of `role_can_access_db`, run for at most `fuel` passes; `none` when
the passes are used up before the loop condition becomes false. -/
def role_loop (udb : UserDatabase) (db : String) (case_sensitive_db : Bool) :
    Nat → RoleSearch → Option RoleSearch
  | fuel, s =>
    match s.privilege_found, set_begin s.open_set, fuel with
    | false, some current_role, fuel1 + 1 =>
      role_loop udb db case_sensitive_db fuel1
        (role_loop_body udb db case_sensitive_db current_role s)
    | false, some _, 0 => none
    | _, _, _ => some s

/-- The state of `role_can_access_db` before the while loop. -/
def role_search_init (role : String) : RoleSearch :=
  { open_set := set_insert [] role, closed_set := [], privilege_found := false }

/-- A number of passes that the while loop of `role_can_access_db` never exceeds: every
pass closes a role, and a role is either the starting one or listed in the role map. -/
def role_fuel (udb : UserDatabase) : Nat :=
  (udb.m_roles_mapping.map (fun kv => kv.2.length)).sum + 2

/-- The method `UserDatabase::role_can_access_db`. -/
def role_can_access_db (udb : UserDatabase) (role db : String) (case_sensitive_db : Bool) :
    Bool :=
  match role_loop udb db case_sensitive_db (role_fuel udb) (role_search_init role) with
  | some s => s.privilege_found
  | none => false

/-- The roles taken from the open set by the first `fuel` passes of the while loop of
`role_can_access_db`, in the order of the passes. -/
def role_expansions (udb : UserDatabase) (db : String) (case_sensitive_db : Bool) :
    Nat → RoleSearch → List String
  | fuel, s =>
    match s.privilege_found, set_begin s.open_set, fuel with
    | false, some current_role, fuel1 + 1 =>
      current_role ::
        role_expansions udb db case_sensitive_db fuel1
          (role_loop_body udb db case_sensitive_db current_role s)
    | _, _, _ => []

/-- The method `UserDatabase::check_database_access`. -/
def check_database_access (udb : UserDatabase) (entry : UserEntry) (db : String)
    (case_sensitive_db : Bool) : Bool :=
  let user := entry.username
  let host := entry.host_pattern
  let def_role := entry.default_role
  entry.global_db_priv || decide (db = "")
    || user_can_access_db udb user host db case_sensitive_db
    || (!decide (def_role = "") && user_can_access_role udb user host def_role
      && role_can_access_db udb def_role db case_sensitive_db)

/-! ## The per-worker cache (user_data.cc) -/

/-- The method `MariaDBUserCache::find_user`, on the cache's copy `m_userdb`. -/
def find_user (env : HostEnv) (m_userdb : UserDatabase) (user host requested_db : String)
    (sett : UserSearchSettings) : Option UserEntry :=
  if !sett.allow_root_user && decide (user = "root") then none
  else
    let found : Option UserEntry :=
      if sett.match_host_pattern then find_entry env m_userdb user host
      else find_entry_user env m_userdb user
    match found with
    | some found_entry =>
      if check_database_access m_userdb found_entry requested_db sett.case_sensitive_db then
        some found_entry
      else none
    | none =>
      if sett.allow_anon_user then
        let found_anon : Option UserEntry :=
          if sett.match_host_pattern then find_entry env m_userdb "" host
          else find_entry_user env m_userdb ""
        match found_anon with
        | some anon_entry => if anon_entry.proxy_grant then some anon_entry else none
        | none => none
      else none

/-! ## Reference instances of the routines outside user_data.cc -/

/-- The pieces of a character sequence between occurrences of `sep`. -/
def split_on (sep : Char) : List Char → List (List Char)
  | [] => [[]]
  | c :: cs =>
    if c = sep then [] :: split_on sep cs
    else
      match split_on sep cs with
      | g :: gs => (c :: g) :: gs
      | [] => [[c]]

/-- Modelled from the spec: one component of an IPv4 literal (the code of `inet_pton` is
outside the repository), one to three decimal digits with a value of at most 255. -/
def spec_octet (g : List Char) : Option Nat :=
  if 1 ≤ g.length ∧ g.length ≤ 3 ∧ g.all (fun c => decide (48 ≤ c.toNat ∧ c.toNat ≤ 57)) then
    let v := g.foldl (fun n c => 10 * n + (c.toNat - 48)) 0
    if v ≤ 255 then some v else none
  else none

/-- Modelled from the spec: `inet_pton(AF_INET, ip)` (library code outside the repository),
the network-byte-order 32-bit integer of a dotted-quad IPv4 literal. -/
def spec_inet_pton (ip : String) : Option Nat :=
  match (split_on '.' ip.data).map spec_octet with
  | [some a, some b, some c, some d] => some (a * 16777216 + b * 65536 + c * 256 + d)
  | _ => none

/-- Modelled from the spec: `Host::is_valid_ipv4` (maxbase/host.hh, not among the
translated files), true when the text parses as an IPv4 literal. -/
def spec_is_valid_ipv4 (ip : String) : Bool := (spec_inet_pton ip).isSome

/-- Modelled from the spec: `Host::is_valid_ipv6` (maxbase/host.hh, not among the
translated files): three to eight groups separated by colons, each of at most four hex
digits, the last one possibly an IPv4 literal, fewer than eight only with an empty group. -/
def spec_is_valid_ipv6 (ip : String) : Bool :=
  let groups := split_on ':' ip.data
  let hexgroup : List Char → Bool := fun g => decide (g.length ≤ 4) && g.all isxdigit
  decide (3 ≤ groups.length ∧ groups.length ≤ 8)
    && groups.dropLast.all hexgroup
    && (match groups.getLast? with
      | some g => hexgroup g || spec_is_valid_ipv4 (String.mk g)
      | none => false)
    && (decide (groups.length = 8) || groups.any (fun g => g.isEmpty))

/-- True when `f` holds of some suffix of the character sequence. -/
def any_suffix (f : List Char → Bool) : List Char → Bool
  | [] => f []
  | c :: cs => f (c :: cs) || any_suffix f cs

/-- Modelled from the spec: SQL LIKE matching (sqlite_strlike.hh is not among the
translated files): `%` is any run, `_` is any one character, `esc` takes the next pattern
character literally. -/
def spec_like (esc : Char) : List Char → List Char → Bool
  | [], s => s.isEmpty
  | p :: ps, s =>
    if p = '%' then any_suffix (fun t => spec_like esc ps t) s
    else if p = '_' then
      match s with
      | [] => false
      | _ :: t => spec_like esc ps t
    else if p = esc then
      match ps, s with
      | q :: qs, c :: t => decide (q = c) && spec_like esc qs t
      | _, _ => false
    else
      match s with
      | [] => false
      | c :: t => decide (p = c) && spec_like esc ps t

/-- Modelled from the spec: `sql_strlike` (sqlite_strlike.hh is not among the translated
files), 0 when the string matches the pattern. -/
def spec_sql_strlike (pattern str : String) (esc : Char) : Int :=
  if spec_like esc pattern.data str.data then 0 else 1

/-- Modelled from the spec: an environment in which IPv4 literals, IPv6 literals and LIKE
are as the specification describes them and no reverse name lookup succeeds. -/
def spec_env : HostEnv :=
  { is_valid_ipv4 := spec_is_valid_ipv4
    is_valid_ipv6 := spec_is_valid_ipv6
    sql_strlike := spec_sql_strlike
    reverse_name_lookup := fun _ => none
    inet_pton := spec_inet_pton
    uninit_s_addr := fun _ => 0 }

/-- Modelled from the spec: the specificity class of a host pattern, for
`UserEntry::host_pattern_is_more_specific` (declared in authenticator.hh, defined outside
the translated files): empty, literal IP, base/mask pair, hostname literal, wildcard
pattern, from the most to the least specific. -/
def spec_pattern_rank (host_pattern : String) : Nat :=
  if host_pattern = "" then 0
  else if host_pattern.data.any is_wc then 4
  else if spec_is_valid_ipv4 host_pattern || spec_is_valid_ipv6 host_pattern then 1
  else if parse_pattern_type spec_env host_pattern = PatternType.MASK then 2
  else 3

/-- The number of wildcard characters of a host pattern. -/
def spec_wildcard_count (host_pattern : String) : Nat :=
  (host_pattern.data.filter is_wc).length

/-- Modelled from the spec: `UserEntry::host_pattern_is_more_specific` (declared in
authenticator.hh, defined outside the translated files): literal IPs beat CIDR masks beat
hostname literals beat wildcard patterns, among wildcards fewer wildcard characters is
more specific, ties resolve lexicographically, and the empty pattern sorts before all
others. -/
def host_pattern_is_more_specific (lhs rhs : UserEntry) : Bool :=
  let l := lhs.host_pattern
  let r := rhs.host_pattern
  if spec_pattern_rank l ≠ spec_pattern_rank r then
    decide (spec_pattern_rank l < spec_pattern_rank r)
  else if spec_wildcard_count l ≠ spec_wildcard_count r then
    decide (spec_wildcard_count l < spec_wildcard_count r)
  else str_lt l r

/-! ## Notions used to state the properties -/

/-- The test applied by `find_entry` to each entry of the list. -/
def entry_accepts (env : HostEnv) (host : String) (mode : HostPatternMode) (e : UserEntry) :
    Prop :=
  e.is_role = false
    ∧ (mode = HostPatternMode.SKIP ∨ address_matches_host_pattern env host e.host_pattern = true)

/-- The requirements of C++ on a comparison object (`Compare`): a strict weak order. -/
structure StrictWeakOrder {α : Type} (comp : α → α → Bool) : Prop where
  irrefl : ∀ a, comp a a = false
  trans : ∀ a b c, comp a b = true → comp b c = true → comp a c = true
  incomp_trans : ∀ a b c, comp a b = false → comp b a = false → comp b c = false →
    comp c b = false → comp a c = false ∧ comp c a = false

/-- A database whose user map was filled by calls of `add_entry` alone, starting from an
empty user map. -/
inductive BuiltByAddEntry (more_specific : UserEntry → UserEntry → Bool) :
    UserDatabase → Prop
  | empty (grants roles : StringSetMap) :
    BuiltByAddEntry more_specific
      { m_users := [], m_database_grants := grants, m_roles_mapping := roles }
  | add (db : UserDatabase) (username : String) (entry : UserEntry) :
    BuiltByAddEntry more_specific db →
    BuiltByAddEntry more_specific (add_entry more_specific db username entry)

/-- An entry list ordered from the most to the least specific: no entry is strictly more
specific than one that precedes it. -/
def EntriesSorted (more_specific : UserEntry → UserEntry → Bool) (l : EntryList) : Prop :=
  l.Pairwise (fun a b => more_specific b a = false)

/-- The scenario entry ("bob", "10.0.0.5"). -/
def bob_literal : UserEntry := { username := "bob", host_pattern := "10.0.0.5" }

/-- The scenario entry ("bob", "%"). -/
def bob_wildcard : UserEntry := { username := "bob", host_pattern := "%" }

/-- The scenario database with the literal entry added first. -/
def bob_db_literal_first : UserDatabase :=
  add_entry host_pattern_is_more_specific
    (add_entry host_pattern_is_more_specific {} "bob" bob_literal) "bob" bob_wildcard

/-- The scenario database with the wildcard entry added first. -/
def bob_db_wildcard_first : UserDatabase :=
  add_entry host_pattern_is_more_specific
    (add_entry host_pattern_is_more_specific {} "bob" bob_wildcard) "bob" bob_literal

/-- An entry that is a role and carries a wildcard host pattern. -/
def role_with_host : UserEntry := { username := "r1", host_pattern := "%", is_role := true }

/-- A database made by one `add_entry` call with `role_with_host`. -/
def role_with_host_db : UserDatabase :=
  add_entry host_pattern_is_more_specific {} "r1" role_with_host

/-- A set of schema names contains `db`: exactly when `case_sensitive_db`, and otherwise
as C strings compared without regard to ASCII case. -/
def grant_set_contains (allowed_dbs : StringSet) (db : String) (case_sensitive_db : Bool) :
    Prop :=
  if case_sensitive_db = true then db ∈ allowed_dbs
  else ∃ a ∈ allowed_dbs, (c_str a).map tolower = (c_str db).map tolower

/-- The edge relation of the role graph: `r2` is in `roles_mapping[r1 + "@"]`. -/
def role_edge (udb : UserDatabase) (r1 r2 : String) : Prop :=
  ∃ s, udb.m_roles_mapping.lookup (r1 ++ "@") = some s ∧ r2 ∈ s

/-- The role `r` grants `db`: the first entry of `users[r]` is a role with the global
privilege, or `db_grants[r + "@"]` contains `db`, compared per `case_sensitive_db`. -/
def role_grants (udb : UserDatabase) (r db : String) (case_sensitive_db : Bool) : Prop :=
  (∃ e rest, udb.m_users.lookup r = some (e :: rest) ∧ e.is_role = true
      ∧ e.global_db_priv = true)
    ∨ ∃ s, udb.m_database_grants.lookup (r ++ "@") = some s
        ∧ grant_set_contains s db case_sensitive_db

/-- The role names that can enter the open or closed set: the starting role and the
members of the sets of the role map. -/
def role_universe (udb : UserDatabase) (role : String) : List String :=
  role :: (udb.m_roles_mapping.map (fun kv => kv.2)).flatten

/-- The invariant of the while loop of `role_can_access_db` between passes, as long as
no privilege has been found. -/
structure RoleInv (udb : UserDatabase) (role db : String) (case_sensitive_db : Bool)
    (s : RoleSearch) : Prop where
  reach : ∀ x, x ∈ s.open_set ∨ x ∈ s.closed_set →
    Relation.ReflTransGen (role_edge udb) role x
  closed_no_grant : ∀ x ∈ s.closed_set, ¬ role_grants udb x db case_sensitive_db
  closed_succ : ∀ x ∈ s.closed_set, ∀ y, role_edge udb x y →
    y ∈ s.open_set ∨ y ∈ s.closed_set
  start : role ∈ s.open_set ∨ role ∈ s.closed_set
  disjoint : ∀ x ∈ s.open_set, x ∉ s.closed_set
  univ : ∀ x, x ∈ s.open_set ∨ x ∈ s.closed_set → x ∈ role_universe udb role

/-- The number of role names that are not yet in the closed set; it bounds the number of
passes that the loop of `role_can_access_db` can still make. -/
def role_measure (udb : UserDatabase) (role : String) (s : RoleSearch) : Nat :=
  ((role_universe udb role).toFinset \ s.closed_set.toFinset).card

/-- The scenario entry dave@% with default role r1. -/
def dave : UserEntry := { username := "dave", host_pattern := "%", default_role := "r1" }

/-- The scenario database: roles r1 and r2, dave mapped to r1, r1 mapped to r2, and r2
granted the schema sales. -/
def dave_db : UserDatabase :=
  { m_users :=
      [("dave", [dave]), ("r1", [{ username := "r1", is_role := true }]),
        ("r2", [{ username := "r2", is_role := true }])]
    m_database_grants := [("r2@", ["sales"])]
    m_roles_mapping := [("dave@%", ["r1"]), ("r1@", ["r2"])] }

/-- An entry dave@% whose default role is the empty string. -/
def dave_no_default_role : UserEntry :=
  { username := "dave", host_pattern := "%", default_role := "" }

/-- A database whose role map lists the empty role name for dave@% and maps the empty
role name to r2, which is granted the schema sales. -/
def empty_role_db : UserDatabase :=
  { m_users := [("dave", [dave_no_default_role]), ("r2", [{ username := "r2", is_role := true }])]
    m_database_grants := [("r2@", ["sales"])]
    m_roles_mapping := [("dave@%", [""]), ("@", ["r2"])] }

/-- The anonymous scenario entry with a proxy grant. -/
def anon_proxy : UserEntry := { username := "", host_pattern := "%", proxy_grant := true }

/-- The anonymous scenario entry without a proxy grant. -/
def anon_no_proxy : UserEntry := { username := "", host_pattern := "%", proxy_grant := false }

/-- The scenario database `users[""] = [("", "%", proxy_grant = true)]`. -/
def anon_proxy_db : UserDatabase := { m_users := [("", [anon_proxy])] }

/-- The scenario database `users[""] = [("", "%", proxy_grant = false)]`. -/
def anon_no_proxy_db : UserDatabase := { m_users := [("", [anon_no_proxy])] }

/-- An entry root@% with the global privilege. -/
def root_entry : UserEntry := { username := "root", host_pattern := "%", global_db_priv := true }

/-- A database with a matching root entry and an anonymous entry with a proxy grant. -/
def root_db : UserDatabase := { m_users := [("", [anon_proxy]), ("root", [root_entry])] }

/-- An entry carol@% without any privilege. -/
def carol : UserEntry := { username := "carol", host_pattern := "%" }

/-- A database with carol@% and an anonymous entry with a proxy grant. -/
def carol_db : UserDatabase := { m_users := [("", [anon_proxy]), ("carol", [carol])] }

/-- Search settings that forbid root and allow the anonymous user. -/
def sett_anon : UserSearchSettings :=
  { allow_root_user := false, allow_anon_user := true, match_host_pattern := true,
    case_sensitive_db := true, allow_service_user := false }

/-- Search settings that forbid root and the anonymous user. -/
def sett_no_anon : UserSearchSettings :=
  { allow_root_user := false, allow_anon_user := false, match_host_pattern := true,
    case_sensitive_db := true, allow_service_user := false }

/-- The lookup of a user name done by `find_user`: with or without the host, as
`match_host_pattern` says. -/
def lookup_entry (env : HostEnv) (udb : UserDatabase) (user host : String)
    (sett : UserSearchSettings) : Option UserEntry :=
  if sett.match_host_pattern then find_entry env udb user host else find_entry_user env udb user

/-- Every entry is filed under its own username, as `read_users_mariadb` and
`read_users_clustrix` do when they call `add_entry(username, new_entry)`. -/
def FiledByUsername (udb : UserDatabase) : Prop :=
  ∀ u l, udb.m_users.lookup u = some l → ∀ e ∈ l, e.username = u

/-! ## The packet parser (packet_parser.cc)

A buffer is a `ByteVec`; a routine that changes its `ByteVec&` argument returns the new
buffer next to its result. A result of `none` stands for an access outside the buffer
(a read or a copy past its end, an erase of more bytes than it holds), which the C++
code leaves undefined. Buffers hold one network packet, so their sizes and the lengths
passed to `pop_front` fit the `int` parameter of that routine. -/

/-- The type `packet_parser::ByteVec`. -/
abbrev ByteVec := List UInt8

/-- Constants and routines used by packet_parser.cc and declared outside it: the
capability bits of mysql.hh and `mxq::leint_bytes`, `mxq::leint_value` of maxsql; the two
routines are given the bytes from the pointer onwards. -/
structure WireEnv where
  GW_MYSQL_CAPABILITIES_CLIENT_MYSQL : Nat
  GW_MYSQL_CAPABILITIES_CONNECT_WITH_DB : Nat
  GW_MYSQL_CAPABILITIES_SECURE_CONNECTION : Nat
  GW_MYSQL_CAPABILITIES_PLUGIN_AUTH : Nat
  GW_MYSQL_CAPABILITIES_CONNECT_ATTRS : Nat
  GW_MYSQL_CAPABILITIES_AUTH_LENENC_DATA : Nat
  leint_bytes : ByteVec → Nat
  leint_value : ByteVec → Nat

/-- The fields of `MYSQL_session::ClientInfo` (protocol_classes.hh) written by
`parse_client_capabilities`; a default-constructed value has them zero. -/
structure ClientInfo where
  m_client_capabilities : Nat := 0
  m_extra_capabilities : Nat := 0
  m_charset : Nat := 0
deriving DecidableEq, Repr

/-- The structure `packet_parser::AuthParseResult`. -/
structure AuthParseResult where
  success : Bool := false
  auth_token : ByteVec := []
  old_protocol : Bool := false
deriving DecidableEq, Repr

/-- The structure `packet_parser::AttrParseResult`. -/
structure AttrParseResult where
  success : Bool := false
  attr_data : ByteVec := []
deriving DecidableEq, Repr

/-- The structure `packet_parser::ClientResponseResult`; the strings are byte strings. -/
structure ClientResponseResult where
  success : Bool := false
  username : ByteVec := []
  db : ByteVec := []
  plugin : ByteVec := []
  token_res : AuthParseResult := {}
  attr_res : AttrParseResult := {}
deriving DecidableEq, Repr

/-- The size of the number range of `uint64_t` and of `size_t`. -/
def uint64_size : Nat := 18446744073709551616

/-- The function `pop_front(data, len)`: erase the first `len` bytes. -/
def pop_front (data : ByteVec) (len : Nat) : Option ByteVec :=
  if len ≤ data.length then some (data.drop len) else none

/-- The construction of a std::string from `(const char*)data.data()`: the bytes before
the first zero byte; the read runs past the buffer when it holds no zero byte. -/
def read_stringz (data : ByteVec) : Option ByteVec :=
  if (0 : UInt8) ∈ data then some (data.takeWhile (fun b => decide (b ≠ 0))) else none

/-- The call `v.assign(ptr + off, ptr + off + n)` for `ptr = data.data()`: a copy of `n`
bytes starting `off` bytes into the buffer. -/
def read_range (data : ByteVec) (off n : Nat) : Option ByteVec :=
  if off + n ≤ data.length then some ((data.drop off).take n) else none

/-- Modelled from the spec: the macro `gw_mysql_get_byte4` of mysql.hh (not among the
translated files), the 4-byte little-endian integer at the pointer. -/
def gw_mysql_get_byte4 (ptr : ByteVec) : Option Nat :=
  match ptr with
  | b0 :: b1 :: b2 :: b3 :: _ =>
    some (b0.toNat + b1.toNat * 256 + b2.toNat * 65536 + b3.toNat * 16777216)
  | _ => none

/-- The function `parse_client_capabilities`; `old_info` is `none` for a null pointer. -/
def parse_client_capabilities (env : WireEnv) (data : ByteVec) (old_info : Option ClientInfo) :
    Option (ClientInfo × ByteVec) :=
  let rval : ClientInfo :=
    match old_info with
    | some info => info
    | none => {}
  match gw_mysql_get_byte4 data with
  | none => none
  | some caps =>
    let rval1 : ClientInfo :=
      { rval with m_client_capabilities := rval.m_client_capabilities ||| caps }
    match data[8]? with
    | none => none
    | some charset =>
      let rval2 : ClientInfo := { rval1 with m_charset := charset.toNat }
      let rval3 : Option ClientInfo :=
        if rval2.m_client_capabilities &&& env.GW_MYSQL_CAPABILITIES_CLIENT_MYSQL = 0 then
          match gw_mysql_get_byte4 (data.drop 28) with
          | some extra =>
            some { rval2 with m_extra_capabilities := rval2.m_extra_capabilities ||| extra }
          | none => none
        else some rval2
      match rval3 with
      | none => none
      | some info =>
        match pop_front data 32 with
        | some rest => some (info, rest)
        | none => none

/-- The first part of `parse_auth_token` for a non-empty buffer: the values of `error`,
`auth_token_len_bytes`, `auth_token_len` and `old_protocol` before the test `!error`. -/
def auth_token_header (env : WireEnv) (data : ByteVec) (client_caps : Nat) :
    Bool × Nat × Nat × Bool :=
  let len_remaining := data.length
  if client_caps &&& env.GW_MYSQL_CAPABILITIES_AUTH_LENENC_DATA ≠ 0 then
    let auth_token_len_bytes := env.leint_bytes data % uint64_size
    if auth_token_len_bytes ≤ len_remaining then
      (false, auth_token_len_bytes, env.leint_value data % uint64_size, false)
    else (true, auth_token_len_bytes, 0, false)
  else if client_caps &&& env.GW_MYSQL_CAPABILITIES_SECURE_CONNECTION ≠ 0 then
    match data with
    | b :: _ => (false, 1, b.toNat, false)
    | [] => (false, 1, 0, false)
  else (true, 0, 0, true)

/-- The function `parse_auth_token`. -/
def parse_auth_token (env : WireEnv) (data : ByteVec) (client_caps : Nat) :
    Option (AuthParseResult × ByteVec) :=
  if data = [] then some ({}, data)
  else
    let len_remaining := data.length
    let hdr := auth_token_header env data client_caps
    let error := hdr.1
    let auth_token_len_bytes := hdr.2.1
    let auth_token_len := hdr.2.2.1
    let old_protocol := hdr.2.2.2
    if !error then
      let total_len := (auth_token_len_bytes + auth_token_len) % uint64_size
      if total_len ≤ len_remaining then
        let token : Option ByteVec :=
          if auth_token_len > 0 then read_range data auth_token_len_bytes auth_token_len
          else some []
        match token with
        | none => none
        | some auth_token =>
          match pop_front data total_len with
          | some rest =>
            some ({ success := true, auth_token := auth_token, old_protocol := old_protocol },
              rest)
          | none => none
      else some ({ success := false, auth_token := [], old_protocol := old_protocol }, data)
    else some ({ success := false, auth_token := [], old_protocol := old_protocol }, data)

/-- The function `parse_attributes`. -/
def parse_attributes (env : WireEnv) (data : ByteVec) (client_caps : Nat) :
    Option (AttrParseResult × ByteVec) :=
  if data = [] then some ({}, data)
  else
    let len_remaining := data.length
    if client_caps &&& env.GW_MYSQL_CAPABILITIES_CONNECT_ATTRS ≠ 0 then
      if len_remaining > 0 then
        let leint_len := env.leint_bytes data % uint64_size
        if leint_len ≤ len_remaining then
          let attr_len := env.leint_value data % uint64_size
          let total_attr_len := (leint_len + attr_len) % uint64_size
          if total_attr_len ≤ len_remaining then
            match read_range data 0 total_attr_len with
            | none => none
            | some attr_data =>
              match pop_front data total_attr_len with
              | some rest => some ({ success := true, attr_data := attr_data }, rest)
              | none => none
          else some ({}, data)
        else some ({}, data)
      else some ({}, data)
    else some ({ success := true, attr_data := [] }, data)

/-- The lambda `read_stringz_if_cap` of `parse_client_response`; the result is the pair
`(success, string)` and the buffer. -/
def read_stringz_if_cap (data : ByteVec) (client_caps required_capability : Nat) :
    Option ((Bool × ByteVec) × ByteVec) :=
  if client_caps &&& required_capability ≠ 0 then
    if data ≠ [] then
      match read_stringz data with
      | none => none
      | some str =>
        match pop_front data (str.length + 1) with
        | some rest => some ((true, str), rest)
        | none => none
    else some ((false, []), data)
  else some ((true, []), data)

/-- The function `parse_client_response`. -/
def parse_client_response (env : WireEnv) (data : ByteVec) (client_caps : Nat) :
    Option (ClientResponseResult × ByteVec) :=
  match read_stringz data with
  | none => none
  | some username =>
    match pop_front data (username.length + 1) with
    | none => none
    | some data1 =>
      match parse_auth_token env data1 client_caps with
      | none => none
      | some (token_res, data2) =>
        if token_res.success then
          match read_stringz_if_cap data2 client_caps
              env.GW_MYSQL_CAPABILITIES_CONNECT_WITH_DB with
          | none => none
          | some (db_res, data3) =>
            match read_stringz_if_cap data3 client_caps
                env.GW_MYSQL_CAPABILITIES_PLUGIN_AUTH with
            | none => none
            | some (plugin_res, data4) =>
              if db_res.1 && plugin_res.1 then
                match parse_attributes env data4 client_caps with
                | none => none
                | some (attr_res, data5) =>
                  some ({ success := attr_res.success, username := username, db := db_res.2,
                          plugin := plugin_res.2, token_res := token_res,
                          attr_res := attr_res }, data5)
              else
                some ({ success := false, username := username, token_res := token_res },
                  data4)
        else some ({ success := false, username := username, token_res := token_res }, data2)

/-- The little-endian integer made of the given bytes. -/
def le_value (bytes : ByteVec) : Nat :=
  bytes.foldr (fun b acc => b.toNat + 256 * acc) 0

/-- Modelled from the spec: `mxq::leint_bytes` (maxsql, not among the translated files),
the width of a length-encoded integer: 1 byte below 251, 3 bytes after 0xfc, 4 bytes after
0xfd, 9 bytes after 0xfe; the first bytes 0xfb and 0xff, of which the specification says
nothing, are taken as one byte. -/
def spec_leint_bytes (ptr : ByteVec) : Nat :=
  match ptr with
  | [] => 1
  | b :: _ =>
    if b.toNat < 251 then 1
    else if b.toNat = 252 then 3
    else if b.toNat = 253 then 4
    else if b.toNat = 254 then 9
    else 1

/-- Modelled from the spec: `mxq::leint_value` (maxsql, not among the translated files),
the value of a length-encoded integer: the first byte itself below 251, the little-endian
u16 after 0xfc, u24 after 0xfd, u64 after 0xfe; the first bytes 0xfb and 0xff, of which
the specification says nothing, give 0. -/
def spec_leint_value (ptr : ByteVec) : Nat :=
  match ptr with
  | [] => 0
  | b :: rest =>
    if b.toNat < 251 then b.toNat
    else if b.toNat = 252 then le_value (rest.take 2)
    else if b.toNat = 253 then le_value (rest.take 3)
    else if b.toNat = 254 then le_value (rest.take 8)
    else 0

/-- Modelled from the spec: the length-encoded integers of the specification together
with the capability bits of the MySQL client/server protocol that the specification names
(CLIENT_MYSQL bit 0, CONNECT_WITH_DB bit 3, SECURE_CONNECTION bit 15, PLUGIN_AUTH bit 19,
CONNECT_ATTRS bit 20, AUTH_LENENC_DATA bit 21). -/
def spec_wire : WireEnv :=
  { GW_MYSQL_CAPABILITIES_CLIENT_MYSQL := 1
    GW_MYSQL_CAPABILITIES_CONNECT_WITH_DB := 8
    GW_MYSQL_CAPABILITIES_SECURE_CONNECTION := 32768
    GW_MYSQL_CAPABILITIES_PLUGIN_AUTH := 524288
    GW_MYSQL_CAPABILITIES_CONNECT_ATTRS := 1048576
    GW_MYSQL_CAPABILITIES_AUTH_LENENC_DATA := 2097152
    leint_bytes := spec_leint_bytes
    leint_value := spec_leint_value }

/-- Search settings with host pattern matching switched off. -/
def sett_no_host : UserSearchSettings :=
  { allow_root_user := false, allow_anon_user := false, match_host_pattern := false,
    case_sensitive_db := true, allow_service_user := false }

/-- The capability word of a stored `ClientInfo`, and 0 for a null pointer. -/
def old_capabilities (old_info : Option ClientInfo) : Nat :=
  match old_info with
  | some info => info.m_client_capabilities
  | none => 0

/-- The scenario username "fred" as bytes. -/
def fred_bytes : ByteVec := [102, 114, 101, 100]

/-- The scenario schema name "prod" as bytes. -/
def prod_bytes : ByteVec := [112, 114, 111, 100]

/-- A token of 20 bytes. -/
def token20 : ByteVec := List.replicate 20 7

/-- The scenario capabilities CLIENT_PROTOCOL_41, SECURE_CONNECTION and CONNECT_WITH_DB
(bits 9, 15 and 3). -/
def scenario_caps : Nat := 512 + 32768 + 8

/-- A buffer of 36 bytes: the capability word 0x0000a208, a maximum packet size, the
charset 33, the filler and four more bytes. -/
def caps_packet : ByteVec :=
  [8, 162, 0, 0, 0, 0, 0, 1, 33] ++ List.replicate 23 0 ++ [1, 2, 3, 4]

/-- A length-encoded header 0xfe followed by the 64-bit value 2^64 - 1. -/
def wrap_header : ByteVec := [254, 255, 255, 255, 255, 255, 255, 255, 255]

/-- The header `wrap_header` followed by two bytes. -/
def wrap_attrs : ByteVec := wrap_header ++ [1, 2]

/-- A handshake response after the capability block: the username "a", its terminator,
`wrap_header` in the place of the token and the zero byte added by the caller. -/
def wrap_response : ByteVec := [97, 0] ++ wrap_header ++ [0]

/-- A buffer that is empty or ends with a zero byte. -/
def ZeroTerminated (data : ByteVec) : Prop := data = [] ∨ data.getLast? = some 0

/-- The text of a base/netmask host pattern before its first `/`. -/
def mask_base (host_pattern : String) : String :=
  match str_find_char host_pattern.data '/' with
  | some div_loc => substr_to host_pattern div_loc
  | none => host_pattern

/-- The text of a base/netmask host pattern after its first `/`. -/
def mask_netmask (host_pattern : String) : String :=
  match str_find_char host_pattern.data '/' with
  | some div_loc => substr_from host_pattern (div_loc + 1)
  | none => host_pattern

/-- The text of an address after its last colon. -/
def after_last_colon (addr : String) : String :=
  substr_from addr (after_last_of addr.data ':')

/-- The characters of a host pattern as the scan of `parse_pattern_type` reads them: an
unescaped backslash escapes the character after it, and each character comes with the
flag that says whether it is escaped. The first argument says whether the first
character is escaped. -/
def pattern_chars_from : Bool → List Char → List (Bool × Char)
  | _, [] => []
  | true, d :: ds => (true, d) :: pattern_chars_from false ds
  | false, c :: cs =>
    if c = '\\' then pattern_chars_from true cs else (false, c) :: pattern_chars_from false cs

/-- The characters of a host pattern, each with its escape flag. -/
def pattern_chars (l : List Char) : List (Bool × Char) := pattern_chars_from false l

/-- The characters of a host pattern whose first character is escaped. -/
def pattern_chars_escaped (l : List Char) : List (Bool × Char) := pattern_chars_from true l

/-- A character that leaves the pattern a possible address: not an escaped `%`, and a
wildcard, a hex digit, a colon or a dot. -/
def address_char_ok (tok : Bool × Char) : Bool :=
  !(tok.1 && decide (tok.2 = '%')) && (is_wc tok.2 || is_ipchar tok.2)

/-- A character that leaves the pattern a possible hostname: not an escaped `%`, and a
wildcard, alphanumeric, a dot, a dash or an underscore. -/
def hostname_char_ok (tok : Bool × Char) : Bool :=
  !(tok.1 && decide (tok.2 = '%')) && (is_wc tok.2 || is_hostnamechar tok.2)

/-- The classification by characters as the specification words it: ADDRESS if every
character may stand in an address, otherwise HOSTNAME if every character may stand in a
hostname, otherwise UNKNOWN. -/
def scan_classification (host_pattern : String) : PatternType :=
  if (pattern_chars host_pattern.data).all address_char_ok then PatternType.ADDRESS
  else if (pattern_chars host_pattern.data).all hostname_char_ok then PatternType.HOSTNAME
  else PatternType.UNKNOWN

/-- The pattern is a base/netmask pair: it has a `/` at position 7 or later with more
than 7 characters after the position, and both sides are IPv4 literals. -/
def is_mask_pair (env : HostEnv) (host_pattern : String) : Bool :=
  match str_find_char host_pattern.data '/' with
  | some div_loc =>
    decide (div_loc ≥ ipv4min_len ∧ host_pattern.length > div_loc + ipv4min_len)
      && env.is_valid_ipv4 (substr_to host_pattern div_loc)
      && env.is_valid_ipv4 (substr_from host_pattern (div_loc + 1))
  | none => false

/-! ## Further methods of the user database (user_data.cc) -/

/-- The method `UserDatabase::add_proxy_grant`; `more_specific` is
`UserEntry::host_pattern_is_more_specific`. -/
def add_proxy_grant (more_specific : UserEntry → UserEntry → Bool) (db : UserDatabase)
    (user host : String) : UserDatabase :=
  match db.m_users.lookup user with
  | some entries =>
    let needle : UserEntry := { host_pattern := host }
    let entry_iter := lower_bound more_specific needle entries
    match entries[entry_iter]? with
    | some entry =>
      if entry.host_pattern = host then
        { db with
          m_users :=
            map_modify user (fun l => l.set entry_iter { entry with proxy_grant := true }) []
              db.m_users }
      else db
    | none => db
  | none => db

/-- Modelled from the spec: `UserEntry::operator==` (declared in authenticator.hh, defined
outside the translated files): equality is field-wise. -/
def user_entry_eq (lhs rhs : UserEntry) : Bool :=
  decide (lhs.username = rhs.username) && decide (lhs.host_pattern = rhs.host_pattern)
    && decide (lhs.plugin = rhs.plugin) && decide (lhs.password = rhs.password)
    && decide (lhs.auth_string = rhs.auth_string) && decide (lhs.ssl = rhs.ssl)
    && decide (lhs.global_db_priv = rhs.global_db_priv)
    && decide (lhs.proxy_grant = rhs.proxy_grant) && decide (lhs.is_role = rhs.is_role)
    && decide (lhs.default_role = rhs.default_role)

/-- The comparison `==` of two `EntryList` vectors: equal sizes and equal elements. -/
def entry_list_eq : EntryList → EntryList → Bool
  | [], [] => true
  | a :: as, b :: bs => user_entry_eq a b && entry_list_eq as bs
  | _, _ => false

/-- The comparison `==` of two std::set values: the same members. -/
def set_eq (a b : StringSet) : Bool :=
  a.all (fun x => set_contains b x) && b.all (fun x => set_contains a x)

/-- The comparison of the values found under one key in two maps: both absent, or both
present and equal. -/
def opt_eq {β : Type} (veq : β → β → Bool) : Option β → Option β → Bool
  | some a, some b => veq a b
  | none, none => true
  | _, _ => false

/-- The comparison `==` of two std::map values: the same keys with equal values. -/
def map_eq {β : Type} (veq : β → β → Bool) (m1 m2 : List (String × β)) : Bool :=
  (m1.map Prod.fst ++ m2.map Prod.fst).all (fun k => opt_eq veq (m1.lookup k) (m2.lookup k))

/-- The method `UserDatabase::equal_contents`. -/
def equal_contents (lhs rhs : UserDatabase) : Bool :=
  map_eq entry_list_eq lhs.m_users rhs.m_users
    && map_eq set_eq lhs.m_database_grants rhs.m_database_grants
    && map_eq set_eq lhs.m_roles_mapping rhs.m_roles_mapping

/-- Two optional sets of names are equal as sets: both absent, or both present with the
same members. -/
def same_set (a b : Option StringSet) : Prop :=
  match a, b with
  | some x, some y => ∀ s, s ∈ x ↔ s ∈ y
  | none, none => True
  | _, _ => False

/-- An entry with host pattern `%` and the plugin name "pam", equivalent in specificity to
the scenario entry ("bob", "%"). -/
def bob_wildcard_pam : UserEntry := { username := "bob", host_pattern := "%", plugin := "pam" }

/-- The scenario database after `add_proxy_grant("bob", "%")`. -/
def bob_db_with_proxy : UserDatabase :=
  add_proxy_grant host_pattern_is_more_specific bob_db_literal_first "bob" "%"

/-! ## Throttling of log messages (log.cc) -/

/-- The enumeration `message_suppression_t`. -/
inductive message_suppression_t where
  | MESSAGE_NOT_SUPPRESSED
  | MESSAGE_SUPPRESSED
  | MESSAGE_STILL_SUPPRESSED
deriving DecidableEq, Repr

/-- The structure `MXB_LOG_THROTTLING` (declared in maxbase/log.h, outside the translated
files; log.cc prints its three fields as unsigned long, initialises them with 10, 1000 and
10000 and adds two of them, so they are taken as unsigned 64-bit numbers). -/
structure MXB_LOG_THROTTLING where
  count : Nat
  window_ms : Nat
  suppress_ms : Nat
deriving DecidableEq, Repr

/-- The constant `DEFAULT_LOG_THROTTLING`. -/
def DEFAULT_LOG_THROTTLING : MXB_LOG_THROTTLING :=
  { count := 10, window_ms := 1000, suppress_ms := 10000 }

/-- The data members of the class `MessageRegistryStats` (the mutex is not modelled). -/
structure MessageRegistryStats where
  m_first_ms : Nat
  m_last_ms : Nat
  m_count : Nat
deriving DecidableEq, Repr

/-- The constructor of `MessageRegistryStats`; `clock` is the value that
`time_monotonic_ms()` returns at construction. -/
def new_stats (clock : Nat) : MessageRegistryStats :=
  { m_first_ms := clock, m_last_ms := 0, m_count := 0 }

/-- The difference `now_ms - m_first_ms` of two uint64_t values. -/
def elapsed_ms (now_ms first_ms : Nat) : Nat :=
  (now_ms + uint64_size - first_ms) % uint64_size

/-- The method `MessageRegistryStats::update_suppression`; `now_ms` is the value that
`time_monotonic_ms()` returns in the call. The result is the returned status and the
statistics after the call. -/
def update_suppression (t : MXB_LOG_THROTTLING) (now_ms : Nat) (s : MessageRegistryStats) :
    message_suppression_t × MessageRegistryStats :=
  let m_count := (s.m_count + 1) % uint64_size
  if m_count < t.count then
    (message_suppression_t.MESSAGE_NOT_SUPPRESSED,
      { m_first_ms := s.m_first_ms, m_last_ms := now_ms, m_count := m_count })
  else if m_count = t.count then
    if elapsed_ms now_ms s.m_first_ms < t.window_ms then
      (message_suppression_t.MESSAGE_SUPPRESSED,
        { m_first_ms := s.m_first_ms, m_last_ms := now_ms, m_count := m_count })
    else
      (message_suppression_t.MESSAGE_NOT_SUPPRESSED,
        { m_first_ms := now_ms, m_last_ms := now_ms, m_count := 1 })
  else if elapsed_ms now_ms s.m_first_ms < (t.window_ms + t.suppress_ms) % uint64_size then
    (message_suppression_t.MESSAGE_STILL_SUPPRESSED,
      { m_first_ms := s.m_first_ms, m_last_ms := now_ms, m_count := m_count })
  else
    (message_suppression_t.MESSAGE_NOT_SUPPRESSED,
      { m_first_ms := now_ms, m_last_ms := now_ms, m_count := 1 })

/-- The class `MessageRegistryKey`: the address held by the file name pointer and the line
number; `eq` compares both, the pointer by its value. -/
structure MessageRegistryKey where
  filename : Nat
  linenumber : Int
deriving DecidableEq, Repr

/-- The member `m_registry` of `MessageRegistry`: a map from keys to statistics. -/
abbrev Registry := List (MessageRegistryKey × MessageRegistryStats)

/-- The assignment of statistics to a key of the registry. -/
def registry_put (key : MessageRegistryKey) (stats : MessageRegistryStats) :
    Registry → Registry
  | [] => [(key, stats)]
  | (k, v) :: rest =>
    if k = key then (k, stats) :: rest else (k, v) :: registry_put key stats rest

/-- The method `MessageRegistry::get_stats`, that is `m_registry[key]`: the statistics
stored for the key, or statistics constructed at clock reading `clock` and stored when the
key is new. -/
def get_stats (registry : Registry) (key : MessageRegistryKey) (clock : Nat) :
    MessageRegistryStats × Registry :=
  match registry.lookup key with
  | some stats => (stats, registry)
  | none => (new_stats clock, registry_put key (new_stats clock) registry)

/-- The method `MessageRegistry::get_status` for the throttling parameters `t` in force;
`clock` is the reading of the clock when statistics are constructed for a new key and
`now_ms` the reading inside `update_suppression`. The result is the status and the registry
after the call. -/
def get_status (t : MXB_LOG_THROTTLING) (registry : Registry) (file : Nat) (line : Int)
    (clock now_ms : Nat) : message_suppression_t × Registry :=
  if t.count ≠ 0 ∧ t.window_ms ≠ 0 ∧ t.suppress_ms ≠ 0 then
    let key : MessageRegistryKey := { filename := file, linenumber := line }
    let got := get_stats registry key clock
    let updated := update_suppression t now_ms got.1
    (updated.1, registry_put key updated.2 got.2)
  else
    (message_suppression_t.MESSAGE_NOT_SUPPRESSED, registry)

/-- The function `mxb_log_set_throttling`: the parameters in force after the call, and
whether the notice "Log throttling has been disabled." is logged. -/
def mxb_log_set_throttling (throttling : MXB_LOG_THROTTLING) : MXB_LOG_THROTTLING × Bool :=
  (throttling,
    decide (throttling.count = 0) || decide (throttling.window_ms = 0)
      || decide (throttling.suppress_ms = 0))

/-- The test `status != MESSAGE_STILL_SUPPRESSED` of `mxb_log_message` under which the
message is formatted and handed to the logger. -/
def message_is_emitted (status : message_suppression_t) : Bool :=
  decide (status ≠ message_suppression_t.MESSAGE_STILL_SUPPRESSED)

/-- The test `status == MESSAGE_SUPPRESSED` of `mxb_log_message` under which the text
"(subsequent similar messages suppressed for N milliseconds)" is appended. -/
def message_has_suffix (status : message_suppression_t) : Bool :=
  decide (status = message_suppression_t.MESSAGE_SUPPRESSED)

/-- The statuses returned by successive calls of `update_suppression` on the statistics of
one site, at the given clock readings. -/
def update_suppression_calls (t : MXB_LOG_THROTTLING) :
    MessageRegistryStats → List Nat → List message_suppression_t
  | _, [] => []
  | s, now_ms :: rest =>
    (update_suppression t now_ms s).1
      :: update_suppression_calls t (update_suppression t now_ms s).2 rest

/-! ## Loading of the user accounts (user_data.cc) -/

/-- The enumeration `MariaDBUserManager::LoadResult`. -/
inductive LoadResult where
  | SUCCESS
  | QUERY_FAILED
  | INVALID_DATA
deriving DecidableEq, Repr

/-- The control flow of `MariaDBUserManager::load_users_mariadb`: the four arguments
`users_res`, `dbs_res`, `proxies_res`, `roles_res` tell whether the query returned a result,
`version_total` is the server version and `read_users` the value returned by
`read_users_mariadb`. -/
def load_users_mariadb (users_res dbs_res proxies_res roles_res : Bool) (version_total : Nat)
    (read_users : Bool) : LoadResult :=
  let role_support := decide (version_total ≥ 100005)
  let got_data :=
    if users_res && dbs_res && proxies_res then
      if role_support then roles_res else true
    else false
  if got_data then
    if read_users then LoadResult.SUCCESS else LoadResult.INVALID_DATA
  else LoadResult.QUERY_FAILED

/-- What `load_users` observes of one backend server: the flag `is_active`, the value of
`is_usable()`, whether `con.open` succeeds, the value returned by `load_users_mariadb` or
`load_users_clustrix` and the database these wrote to `temp_userdata`. -/
structure Backend where
  is_active : Bool
  is_usable : Bool
  open_ok : Bool
  load_result : LoadResult
  temp_userdata : UserDatabase
deriving DecidableEq, Repr

/-- The variables of `load_users` that change in its loop, with the servers on which
`con.open` was called, the number of loop iterations and the number of calls of
`sync_user_account_caches`. -/
structure LoadState where
  m_userdb : UserDatabase
  load_result : LoadResult
  found_valid_server : Bool
  contacted : List Backend
  iterations : Nat
  cache_syncs : Nat
deriving DecidableEq, Repr

/-- The body of the loop of `load_users` for the server `srv`. -/
def load_users_body (srv : Backend) (st : LoadState) : LoadState :=
  if srv.is_active && srv.is_usable then
    if srv.open_ok then
      match srv.load_result with
      | LoadResult.SUCCESS =>
        if equal_contents srv.temp_userdata st.m_userdb then
          { st with
            load_result := LoadResult.SUCCESS
            found_valid_server := true
            contacted := st.contacted ++ [srv]
            iterations := st.iterations + 1 }
        else
          { m_userdb := srv.temp_userdata
            load_result := LoadResult.SUCCESS
            found_valid_server := true
            contacted := st.contacted ++ [srv]
            iterations := st.iterations + 1
            cache_syncs := st.cache_syncs + 1 }
      | LoadResult.QUERY_FAILED =>
        { st with
          load_result := LoadResult.QUERY_FAILED
          found_valid_server := true
          contacted := st.contacted ++ [srv]
          iterations := st.iterations + 1 }
      | LoadResult.INVALID_DATA =>
        { st with
          load_result := LoadResult.INVALID_DATA
          found_valid_server := true
          contacted := st.contacted ++ [srv]
          iterations := st.iterations + 1 }
    else
      { st with
        found_valid_server := true
        contacted := st.contacted ++ [srv]
        iterations := st.iterations + 1 }
  else
    { st with iterations := st.iterations + 1 }

/-- The loop of `load_users` over the servers not yet examined: it goes on while servers
remain and `load_result` is `QUERY_FAILED`. -/
def load_users_loop : List Backend → LoadState → LoadState
  | [], st => st
  | srv :: rest, st =>
    if st.load_result = LoadResult.QUERY_FAILED then
      load_users_loop rest (load_users_body srv st)
    else st

/-- What a call of `load_users` leaves behind: the returned value, the published database
`m_userdb`, the servers on which `con.open` was called, the number of loop iterations, the
number of calls of `sync_user_account_caches` and whether the error "No valid servers from
which to query MariaDB user accounts found." was logged. -/
structure LoadUsersResult where
  rval : Bool
  m_userdb : UserDatabase
  contacted : List Backend
  iterations : Nat
  cache_syncs : Nat
  no_servers_error : Bool
deriving DecidableEq, Repr

/-- The method `MariaDBUserManager::load_users` for the published database `m_userdb`, the
flag `m_warn_no_servers` and the servers `backends`. -/
def load_users (m_userdb : UserDatabase) (m_warn_no_servers : Bool) (backends : List Backend) :
    LoadUsersResult :=
  let st :=
    load_users_loop backends
      { m_userdb := m_userdb
        load_result := LoadResult.QUERY_FAILED
        found_valid_server := false
        contacted := []
        iterations := 0
        cache_syncs := 0 }
  { rval := decide (st.load_result = LoadResult.SUCCESS)
    m_userdb := st.m_userdb
    contacted := st.contacted
    iterations := st.iterations
    cache_syncs := st.cache_syncs
    no_servers_error := !st.found_valid_server && m_warn_no_servers }

/-- A server that the loop of `load_users` passes over: not active and usable, or the
connection fails, or the load yields `QUERY_FAILED`. -/
def passed_over (srv : Backend) : Bool :=
  !(srv.is_active && srv.is_usable) || !srv.open_ok
    || decide (srv.load_result = LoadResult.QUERY_FAILED)

/-- A server that is active and usable, accepts the connection and yields `SUCCESS` or
`INVALID_DATA`. -/
def ends_iteration (srv : Backend) : Bool := !passed_over srv

/-- A server that is not active. -/
def srv_down : Backend :=
  { is_active := false, is_usable := true, open_ok := true, load_result := LoadResult.SUCCESS,
    temp_userdata := {} }

/-- An active and usable server that refuses the connection. -/
def srv_refuses : Backend :=
  { is_active := true, is_usable := true, open_ok := false, load_result := LoadResult.SUCCESS,
    temp_userdata := {} }

/-- An active and usable server on which a query fails. -/
def srv_query_fails : Backend :=
  { is_active := true, is_usable := true, open_ok := true,
    load_result := LoadResult.QUERY_FAILED, temp_userdata := {} }

/-- An active and usable server that delivers the two accounts of "bob". -/
def srv_good : Backend :=
  { is_active := true, is_usable := true, open_ok := true, load_result := LoadResult.SUCCESS,
    temp_userdata := bob_db_literal_first }

/-- An active and usable server that delivers invalid data. -/
def srv_invalid : Backend :=
  { is_active := true, is_usable := true, open_ok := true,
    load_result := LoadResult.INVALID_DATA, temp_userdata := {} }

/-- An active and usable server that delivers the accounts of "carol". -/
def srv_later : Backend :=
  { is_active := true, is_usable := true, open_ok := true, load_result := LoadResult.SUCCESS,
    temp_userdata := carol_db }

/-- A database in which "erin"@"%" is granted the schema "Sales". -/
def erin_db : UserDatabase := { m_database_grants := [("erin@%", ["Sales"])] }

/-- The scenario entry ("erin", "%"), without global privilege and without default role. -/
def erin : UserEntry := { username := "erin", host_pattern := "%" }

/-- Whether a call of `update_suppression` takes one of its two branches that reset
`m_first_ms` and `m_count`. -/
def update_resets (t : MXB_LOG_THROTTLING) (now_ms : Nat) (s : MessageRegistryStats) : Bool :=
  let m_count := (s.m_count + 1) % uint64_size
  if m_count < t.count then false
  else if m_count = t.count then !decide (elapsed_ms now_ms s.m_first_ms < t.window_ms)
  else !decide (elapsed_ms now_ms s.m_first_ms < (t.window_ms + t.suppress_ms) % uint64_size)

/-- The successive calls of `update_suppression` on the statistics of one site, at the
given clock readings: for each call the returned status and whether the call reset
`m_first_ms` and `m_count`. -/
def update_suppression_trace (t : MXB_LOG_THROTTLING) :
    MessageRegistryStats → List Nat → List (message_suppression_t × Bool)
  | _, [] => []
  | s, now_ms :: rest =>
    ((update_suppression t now_ms s).1, update_resets t now_ms s)
      :: update_suppression_trace t (update_suppression t now_ms s).2 rest

/-- Whether every `MESSAGE_STILL_SUPPRESSED` of a trace comes after a `MESSAGE_SUPPRESSED`
with no reset between the two; `noticed` tells whether such a `MESSAGE_SUPPRESSED` precedes
the trace. -/
def drops_noticed : Bool → List (message_suppression_t × Bool) → Bool
  | _, [] => true
  | noticed, (message_suppression_t.MESSAGE_STILL_SUPPRESSED, _) :: rest =>
    noticed && drops_noticed noticed rest
  | _, (message_suppression_t.MESSAGE_SUPPRESSED, _) :: rest => drops_noticed true rest
  | noticed, (message_suppression_t.MESSAGE_NOT_SUPPRESSED, reset) :: rest =>
    drops_noticed (if reset then false else noticed) rest

/-- Throttling after the first message: threshold 1, window 1000 ms, suppression
10000 ms. -/
def throttle_one : MXB_LOG_THROTTLING := { count := 1, window_ms := 1000, suppress_ms := 10000 }

/-- The members of `MariaDBUserManager` that a round of the updater thread reads and
writes, with the local counter `updates` of `updater_thread_function`. -/
structure UpdaterState where
  m_userdb : UserDatabase
  m_warn_no_servers : Bool
  updates : Nat
deriving DecidableEq, Repr

/-- The statement `if (m_keep_running && load_users()) { updates++; m_warn_no_servers = true; }`
of `updater_thread_function`, for a round in which `m_keep_running` is true and the servers
are as given: the state after it and whether `load_users` logged the error "No valid
servers from which to query MariaDB user accounts found.". -/
def updater_round (st : UpdaterState) (backends : List Backend) : UpdaterState × Bool :=
  let r := load_users st.m_userdb st.m_warn_no_servers backends
  if r.rval then
    ({ m_userdb := r.m_userdb, m_warn_no_servers := true, updates := st.updates + 1 },
      r.no_servers_error)
  else
    ({ m_userdb := r.m_userdb, m_warn_no_servers := st.m_warn_no_servers,
       updates := st.updates }, r.no_servers_error)

/-- Consecutive rounds of the updater thread: for each round whether the error "No valid
servers ..." was logged. -/
def updater_rounds : UpdaterState → List (List Backend) → List Bool
  | _, [] => []
  | st, backends :: rest =>
    (updater_round st backends).2 :: updater_rounds (updater_round st backends).1 rest

/-! ## Reading of the query results (user_data.cc) -/

/-- What the reading routines observe of a query result (`QResult`, a class of maxsql
outside the translated files): `get_col_index(name)`, negative when there is no such
column, and for each row that `next_row()` steps to, `get_string(col)` as a function of the
column index. -/
structure QResult where
  get_col_index : String → Int
  rows : List (Int → String)

/-- The lambda `get_bool_enum` of `read_users_mariadb`, for the current row. -/
def get_bool_enum (row : Int → String) (col_ind : Int) : Bool :=
  decide (row col_ind = "Y") || decide (row col_ind = "y")

/-- The value `has_required_fields` of `read_users_mariadb`. -/
def has_required_fields (users : QResult) : Bool :=
  decide (users.get_col_index "User" ≥ 0) && decide (users.get_col_index "Host" ≥ 0)
    && decide (users.get_col_index "Select_priv" ≥ 0)
    && decide (users.get_col_index "Insert_priv" ≥ 0)
    && decide (users.get_col_index "Update_priv" ≥ 0)
    && decide (users.get_col_index "Delete_priv" ≥ 0)
    && decide (users.get_col_index "ssl_type" ≥ 0) && decide (users.get_col_index "plugin" ≥ 0)
    && decide (users.get_col_index "Password" ≥ 0)
    && decide (users.get_col_index "authentication_string" ≥ 0)

/-- The entry `new_entry` that the loop of `read_users_mariadb` builds for a row. -/
def users_row_entry (users : QResult) (row : Int → String) : UserEntry :=
  { username := row (users.get_col_index "User")
    host_pattern := row (users.get_col_index "Host")
    global_db_priv :=
      get_bool_enum row (users.get_col_index "Select_priv")
        || get_bool_enum row (users.get_col_index "Insert_priv")
        || get_bool_enum row (users.get_col_index "Update_priv")
        || get_bool_enum row (users.get_col_index "Delete_priv")
    ssl := !decide (row (users.get_col_index "ssl_type") = "")
    plugin := row (users.get_col_index "plugin")
    password := row (users.get_col_index "Password")
    auth_string := row (users.get_col_index "authentication_string")
    is_role :=
      if users.get_col_index "is_role" ≥ 0 then
        get_bool_enum row (users.get_col_index "is_role")
      else false
    default_role :=
      if users.get_col_index "default_role" ≥ 0 then row (users.get_col_index "default_role")
      else "" }

/-- The loop of `read_users_mariadb` over the rows not yet read. -/
def read_users_rows (more_specific : UserEntry → UserEntry → Bool) (users : QResult) :
    List (Int → String) → UserDatabase → UserDatabase
  | [], output => output
  | row :: rest, output =>
    read_users_rows more_specific users rest
      (add_entry more_specific output (row (users.get_col_index "User"))
        (users_row_entry users row))

/-- The method `MariaDBUserManager::read_users_mariadb`: the returned value and the
database `output` after the call. -/
def read_users_mariadb (more_specific : UserEntry → UserEntry → Bool) (users : QResult)
    (output : UserDatabase) : Bool × UserDatabase :=
  if has_required_fields users then
    (true, read_users_rows more_specific users users.rows output)
  else (false, output)

/-- The loop of the lambda `map_builder` of `read_dbs_and_roles` over the rows not yet
read: `result[key].insert(grant)` for each row. -/
def map_builder_rows (ind_user ind_host ind_grant : Int) :
    List (Int → String) → StringSetMap → StringSetMap
  | [], result => result
  | row :: rest, result =>
    map_builder_rows ind_user ind_host ind_grant rest
      (map_modify (row ind_user ++ "@" ++ row ind_host)
        (fun s => set_insert s (row ind_grant)) [] result)

/-- The lambda `map_builder` of `read_dbs_and_roles`. -/
def map_builder (grant_col_name : String) (source : QResult) : StringSetMap :=
  let ind_user := source.get_col_index "user"
  let ind_host := source.get_col_index "host"
  let ind_grant := source.get_col_index grant_col_name
  if ind_user ≥ 0 ∧ ind_host ≥ 0 ∧ ind_grant ≥ 0 then
    map_builder_rows ind_user ind_host ind_grant source.rows []
  else []

/-- The method `UserDatabase::set_dbs_and_roles`. -/
def set_dbs_and_roles (udb : UserDatabase) (db_grants roles_mapping : StringSetMap) :
    UserDatabase :=
  { udb with m_database_grants := db_grants, m_roles_mapping := roles_mapping }

/-- The method `MariaDBUserManager::read_dbs_and_roles`; `roles` is `none` for a null
result. -/
def read_dbs_and_roles (dbs : QResult) (roles : Option QResult) (output : UserDatabase) :
    UserDatabase :=
  let new_db_grants := map_builder "db" dbs
  let new_roles_mapping : StringSetMap :=
    match roles with
    | some r => map_builder "role" r
    | none => []
  set_dbs_and_roles output new_db_grants new_roles_mapping

/-- The position of a column name in a list of column names, -1 when it is absent. -/
def column_index (columns : List String) (name : String) : Int :=
  if name ∈ columns then (columns.indexOf name : Int) else -1

/-- A query result given as a table: the column names and the rows; a missing cell reads as
the empty string. -/
def table_result (columns : List String) (rows : List (List String)) : QResult :=
  { get_col_index := column_index columns
    rows := rows.map (fun cells col => cells.getD col.toNat "") }

/-- The columns of the users query that `read_users_mariadb` requires. -/
def users_columns : List String :=
  ["User", "Host", "Select_priv", "Insert_priv", "Update_priv", "Delete_priv", "ssl_type",
    "plugin", "Password", "authentication_string"]

/-- A users result with the single account "bob"@"%" whose Select_priv is the lower-case
letter y. -/
def users_lower_y : QResult :=
  table_result users_columns [["bob", "%", "y", "N", "N", "N", "", "", "", ""]]

/-- A users result with an account that has Update_priv and requires X509, and an account
without global privileges. -/
def users_two_rows : QResult :=
  table_result users_columns
    [["ann", "%", "N", "N", "Y", "N", "X509", "", "", ""],
      ["bob", "%", "N", "N", "N", "N", "", "", "", ""]]

/-- A grants result with the single row ("a", "b@c", "x"). -/
def dbs_collision : QResult := table_result ["user", "host", "db"] [["a", "b@c", "x"]]

/-- A grants result with the rows ("erin", "%", "Sales") and ("frank", "%", "Hr"). -/
def dbs_two_rows : QResult :=
  table_result ["user", "host", "db"] [["erin", "%", "Sales"], ["frank", "%", "Hr"]]

/-! ## Authenticator options (protocol_module.cc) -/

/-- The routines and constants that `parse_authenticator_opts` uses and that are defined
outside the translated files: `mxb::strtok(str, delim)`, `mxb::trim` (as a function from
the text to the trimmed text), `config_truth_value` and the capability bit
`AuthenticatorModule::CAP_ANON_USER`. -/
structure OptsEnv where
  strtok : String → String → List String
  trim : String → String
  config_truth_value : String → Int
  CAP_ANON_USER : Nat

/-- The option names that `parse_authenticator_opts` knows. -/
def authenticator_option_names : List String :=
  ["cache_dir", "inject_service_user", "skip_authentication", "lower_case_table_names"]

/-- The body of the loop of `parse_authenticator_opts` for the item `opt`, acting on the
pair of the local variable `error` and the member `m_user_search_settings`. -/
def parse_authenticator_opt (env : OptsEnv) (opt : String)
    (st : Bool × UserSearchSettings) : Bool × UserSearchSettings :=
  match str_find_char opt.data '=' with
  | some equals_pos =>
    if equals_pos > 0 ∧ opt.length > equals_pos + 1 then
      let opt_name := env.trim (substr_to opt equals_pos)
      let opt_value := env.trim (substr_from opt (equals_pos + 1))
      let val := env.config_truth_value opt_value
      if opt_name = "cache_dir" then st
      else if opt_name = "inject_service_user" then
        (st.1, { st.2 with allow_service_user := decide (val ≠ 0) })
      else if opt_name = "skip_authentication" then
        (st.1, { st.2 with match_host_pattern := decide (val = 0) })
      else if opt_name = "lower_case_table_names" then
        (st.1, { st.2 with case_sensitive_db := decide (val = 0) })
      else (true, st.2)
    else (true, st.2)
  | none => (true, st.2)

/-- The loop of `parse_authenticator_opts` over the items not yet read. -/
def parse_authenticator_opt_list (env : OptsEnv) :
    List String → Bool × UserSearchSettings → Bool × UserSearchSettings
  | [], st => st
  | opt :: rest, st =>
    parse_authenticator_opt_list env rest (parse_authenticator_opt env opt st)

/-- The method `MySQLProtocolModule::parse_authenticator_opts`; `m_authenticators` holds
the value of `capabilities()` of each authenticator module. The result is the returned
value and `m_user_search_settings` after the call. -/
def parse_authenticator_opts (env : OptsEnv) (m_authenticators : List Nat)
    (m_user_search_settings : UserSearchSettings) (opts : String) :
    Bool × UserSearchSettings :=
  let sett : UserSearchSettings :=
    if m_authenticators.any (fun caps => decide (caps &&& env.CAP_ANON_USER ≠ 0)) then
      { m_user_search_settings with allow_anon_user := true }
    else m_user_search_settings
  let r := parse_authenticator_opt_list env (env.strtok opts ",") (false, sett)
  (!r.1, r.2)

/-- An item of the form key=value, split at its first `=`, with a non-empty key, a
non-empty value and a key that is, once trimmed, one of the four option names. -/
def option_well_formed (env : OptsEnv) (opt : String) : Prop :=
  ∃ key value : String,
    opt = key ++ "=" ++ value ∧ '=' ∉ key.data ∧ key ≠ "" ∧ value ≠ ""
      ∧ env.trim key ∈ authenticator_option_names

/-- Modelled from the spec: `mxb::strtok` (maxbase, not among the translated files) in the
manner of the C function it is named after: the non-empty pieces of the text between
delimiter characters. -/
def spec_strtok (str delim : String) : List String :=
  match delim.data with
  | d :: _ => ((split_on d str.data).filter (fun g => !g.isEmpty)).map String.mk
  | [] => if str = "" then [] else [str]

/-- Modelled from the spec: `mxb::trim` (maxbase, not among the translated files): the text
without the blanks at its two ends. -/
def spec_trim (s : String) : String :=
  String.mk (((s.data.dropWhile (fun c => decide (c = ' '))).reverse.dropWhile
    (fun c => decide (c = ' '))).reverse)

/-- Modelled from the spec: `config_truth_value` (config.hh, not among the translated
files): 1 for the texts true, on, yes and 1, 0 for false, off, no and 0, and -1 for any other
text. -/
def spec_config_truth_value (s : String) : Int :=
  if s ∈ ["true", "on", "yes", "1"] then 1
  else if s ∈ ["false", "off", "no", "0"] then 0
  else -1

/-- Modelled from the spec: the environment of `parse_authenticator_opts` with the three
routines above and the first capability bit for `CAP_ANON_USER`. -/
def spec_opts : OptsEnv :=
  { strtok := spec_strtok
    trim := spec_trim
    config_truth_value := spec_config_truth_value
    CAP_ANON_USER := 1 }

/-- Search settings before any option is read: root refused, host patterns matched,
schema names compared exactly, no service user. -/
def sett_default : UserSearchSettings :=
  { allow_root_user := false, allow_anon_user := false, match_host_pattern := true,
    case_sensitive_db := true, allow_service_user := false }

/-- The hex digits. -/
def claim_hex_digits : List Char := "0123456789abcdefABCDEF".data

/-- The alphanumeric characters: the letters and the decimal digits. -/
def claim_alphanumerics : List Char :=
  "abcdefghijklmnopqrstuvwxyzABCDEFGHIJKLMNOPQRSTUVWXYZ0123456789".data

/-- A wildcard of a host pattern: `%` or `_`. -/
def claim_wildcard (c : Char) : Bool := decide (c = '%') || decide (c = '_')

/-- A character of an address as the specification words it: a hex digit, a colon or a
dot. -/
def claim_address_char (c : Char) : Bool :=
  decide (c ∈ claim_hex_digits) || decide (c = ':') || decide (c = '.')

/-- A character of a hostname as the specification words it: alphanumeric, a dot, a dash
or an underscore. -/
def claim_hostname_char (c : Char) : Bool :=
  decide (c ∈ claim_alphanumerics) || decide (c = '.') || decide (c = '-') || decide (c = '_')

/-- The classification by characters as the specification words it, with the characters
listed one by one: ADDRESS if every character of the pattern, read with the backslash as
escape, is a wildcard, a hex digit, a colon or a dot and no `%` is escaped; otherwise
HOSTNAME if every character is a wildcard, alphanumeric, a dot, a dash or an underscore and
no `%` is escaped; otherwise UNKNOWN. -/
def claim_classification (host_pattern : String) : PatternType :=
  if (pattern_chars host_pattern.data).all
      (fun tok => !(tok.1 && decide (tok.2 = '%'))
        && (claim_wildcard tok.2 || claim_address_char tok.2)) then
    PatternType.ADDRESS
  else if (pattern_chars host_pattern.data).all
      (fun tok => !(tok.1 && decide (tok.2 = '%'))
        && (claim_wildcard tok.2 || claim_hostname_char tok.2)) then
    PatternType.HOSTNAME
  else PatternType.UNKNOWN

lemma find_entry_loop_cons (env : HostEnv) (host : String) (mode : HostPatternMode)
    (e : UserEntry) (rest : EntryList) :
    find_entry_loop env host mode (e :: rest)
      = if e.is_role = false
            ∧ (mode = HostPatternMode.SKIP
              ∨ address_matches_host_pattern env host e.host_pattern = true) then some e
        else find_entry_loop env host mode rest := by
  simp only [find_entry_loop]
  by_cases h1 : e.is_role = false <;> by_cases h2 : mode = HostPatternMode.SKIP <;>
    by_cases h3 : address_matches_host_pattern env host e.host_pattern = true <;>
    simp [h1, h2, h3]

lemma find_entry_loop_eq_none (env : HostEnv) (host : String) (mode : HostPatternMode)
    (l : EntryList) :
    find_entry_loop env host mode l = none ↔ ∀ x ∈ l, ¬ entry_accepts env host mode x := by
  induction l with
  | nil => simp [find_entry_loop]
  | cons e rest ih =>
    rw [find_entry_loop_cons]
    by_cases h : e.is_role = false
        ∧ (mode = HostPatternMode.SKIP
          ∨ address_matches_host_pattern env host e.host_pattern = true)
    · rw [if_pos h]
      constructor
      · intro hc; cases hc
      · intro hall; exact absurd h (hall e (List.mem_cons_self _ _))
    · rw [if_neg h, ih]
      constructor
      · intro hall x hx
        rcases List.mem_cons.mp hx with rfl | hx
        · exact h
        · exact hall x hx
      · intro hall x hx
        exact hall x (List.mem_cons_of_mem _ hx)

lemma find_entry_loop_eq_some (env : HostEnv) (host : String) (mode : HostPatternMode)
    (l : EntryList) (r : UserEntry) :
    find_entry_loop env host mode l = some r ↔
      ∃ pre post, l = pre ++ r :: post ∧ entry_accepts env host mode r
        ∧ ∀ x ∈ pre, ¬ entry_accepts env host mode x := by
  induction l with
  | nil =>
    simp [find_entry_loop]
  | cons e rest ih =>
    rw [find_entry_loop_cons]
    by_cases h : e.is_role = false
        ∧ (mode = HostPatternMode.SKIP
          ∨ address_matches_host_pattern env host e.host_pattern = true)
    · rw [if_pos h]
      constructor
      · intro hc
        cases hc
        exact ⟨[], rest, rfl, h, by simp⟩
      · rintro ⟨pre, post, hl, _, hpre⟩
        cases pre with
        | nil =>
          simp only [List.nil_append, List.cons.injEq] at hl
          rw [hl.1]
        | cons p pre1 =>
          simp only [List.cons_append, List.cons.injEq] at hl
          exact absurd (hl.1 ▸ h) (hpre p (List.mem_cons_self _ _))
    · rw [if_neg h, ih]
      constructor
      · rintro ⟨pre, post, hl, hr, hpre⟩
        refine ⟨e :: pre, post, by rw [hl]; rfl, hr, ?_⟩
        intro x hx
        rcases List.mem_cons.mp hx with rfl | hx
        · exact h
        · exact hpre x hx
      · rintro ⟨pre, post, hl, hr, hpre⟩
        cases pre with
        | nil =>
          simp only [List.nil_append, List.cons.injEq] at hl
          exact absurd (hl.1 ▸ hr) h
        | cons p pre1 =>
          simp only [List.cons_append, List.cons.injEq] at hl
          exact ⟨pre1, post, hl.2, hr, fun x hx => hpre x (List.mem_cons_of_mem _ hx)⟩

/-- C1: `find_entry(username, host)` returns the first entry, in list order, of
`users[username]` that is not a role and whose host pattern matches `host` under
`address_matches_host_pattern`; it returns none exactly when the username has no bucket
or no non-role entry of the bucket matches. -/
theorem find_entry_first_nonrole_match (env : HostEnv) (db : UserDatabase)
    (username host : String) :
    (∀ r : UserEntry, find_entry env db username host = some r ↔
      ∃ pre post, db.m_users.lookup username = some (pre ++ r :: post)
        ∧ (r.is_role = false ∧ address_matches_host_pattern env host r.host_pattern = true)
        ∧ ∀ x ∈ pre,
            ¬ (x.is_role = false ∧ address_matches_host_pattern env host x.host_pattern = true))
    ∧ (find_entry env db username host = none ↔
      db.m_users.lookup username = none
        ∨ ∃ l, db.m_users.lookup username = some l
          ∧ ∀ x ∈ l,
            ¬ (x.is_role = false
              ∧ address_matches_host_pattern env host x.host_pattern = true)) := by
  have hacc : ∀ x : UserEntry, entry_accepts env host HostPatternMode.MATCH x ↔
      (x.is_role = false ∧ address_matches_host_pattern env host x.host_pattern = true) := by
    intro x
    simp [entry_accepts]
  unfold find_entry find_entry_mode
  cases hlk : db.m_users.lookup username with
  | none =>
    simp
  | some l =>
    simp only [Option.some.injEq, false_or, reduceCtorEq, exists_eq_left']
    constructor
    · intro r
      rw [find_entry_loop_eq_some]
      constructor
      · rintro ⟨pre, post, hl, hr, hpre⟩
        exact ⟨pre, post, hl, (hacc r).mp hr, fun x hx hc => hpre x hx ((hacc x).mpr hc)⟩
      · rintro ⟨pre, post, hl, hr, hpre⟩
        exact ⟨pre, post, hl, (hacc r).mpr hr, fun x hx hc => hpre x hx ((hacc x).mp hc)⟩
    · rw [find_entry_loop_eq_none]
      constructor
      · intro hall x hx hc
        exact hall x hx ((hacc x).mpr hc)
      · intro hall x hx hc
        exact hall x hx ((hacc x).mp hc)

/-! ## Ordered insertion and the most specific match -/

lemma str_lt_chars_irrefl (a : List Char) : str_lt_chars a a = false := by
  induction a with
  | nil => rfl
  | cons x xs ih => simp [str_lt_chars, ih]

lemma str_lt_chars_trans (a b c : List Char) (hab : str_lt_chars a b = true)
    (hbc : str_lt_chars b c = true) : str_lt_chars a c = true := by
  induction a generalizing b c with
  | nil =>
    cases c with
    | nil => cases b <;> simp [str_lt_chars] at hbc
    | cons z zs => simp [str_lt_chars]
  | cons x xs ih =>
    cases b with
    | nil => simp [str_lt_chars] at hab
    | cons y ys =>
      cases c with
      | nil => simp [str_lt_chars] at hbc
      | cons z zs =>
        simp only [str_lt_chars] at hab hbc ⊢
        by_cases h1 : x.toNat < y.toNat
        · by_cases h2 : y.toNat < z.toNat
          · rw [if_pos (by omega)]
          · rw [if_neg h2] at hbc
            by_cases h3 : y.toNat = z.toNat
            · rw [if_pos (by omega)]
            · rw [if_neg h3] at hbc; cases hbc
        · rw [if_neg h1] at hab
          by_cases h4 : x.toNat = y.toNat
          · rw [if_pos h4] at hab
            by_cases h2 : y.toNat < z.toNat
            · rw [if_pos (by omega)]
            · rw [if_neg h2] at hbc
              by_cases h3 : y.toNat = z.toNat
              · rw [if_pos h3] at hbc
                rw [if_neg (by omega), if_pos (by omega)]
                exact ih ys zs hab hbc
              · rw [if_neg h3] at hbc; cases hbc
          · rw [if_neg h4] at hab; cases hab

lemma str_lt_chars_total (a b : List Char) (hab : str_lt_chars a b = false)
    (hba : str_lt_chars b a = false) : a = b := by
  induction a generalizing b with
  | nil =>
    cases b with
    | nil => rfl
    | cons y ys => simp [str_lt_chars] at hab
  | cons x xs ih =>
    cases b with
    | nil => simp [str_lt_chars] at hba
    | cons y ys =>
      simp only [str_lt_chars] at hab hba
      by_cases h1 : x.toNat < y.toNat
      · rw [if_pos h1] at hab; cases hab
      · rw [if_neg h1] at hab
        by_cases h2 : y.toNat < x.toNat
        · rw [if_pos h2] at hba; cases hba
        · rw [if_neg h2] at hba
          have heq : x.toNat = y.toNat := by omega
          rw [if_pos heq] at hab
          rw [if_pos heq.symm] at hba
          have hx : x = y := by
            rw [← Char.ofNat_toNat x, ← Char.ofNat_toNat y, heq]
          rw [hx, ih ys hab hba]

lemma str_lt_irrefl (a : String) : str_lt a a = false := str_lt_chars_irrefl a.data

lemma str_lt_trans (a b c : String) (hab : str_lt a b = true) (hbc : str_lt b c = true) :
    str_lt a c = true := str_lt_chars_trans _ _ _ hab hbc

lemma str_lt_total (a b : String) (hab : str_lt a b = false) (hba : str_lt b a = false) :
    a = b := by
  have h := str_lt_chars_total a.data b.data hab hba
  cases a; cases b; simp only at h; rw [h]

lemma mem_vector_insert {α : Type} (l : List α) (i : Nat) (e y : α) :
    y ∈ vector_insert l i e ↔ y = e ∨ y ∈ l := by
  unfold vector_insert
  rw [List.mem_append, List.mem_cons]
  constructor
  · rintro (h | h | h)
    · exact Or.inr (List.mem_of_mem_take h)
    · exact Or.inl h
    · exact Or.inr (List.mem_of_mem_drop h)
  · rintro (h | h)
    · exact Or.inr (Or.inl h)
    · have hsplit : y ∈ l.take i ++ l.drop i := by rw [List.take_append_drop]; exact h
      rcases List.mem_append.mp hsplit with h1 | h1
      · exact Or.inl h1
      · exact Or.inr (Or.inr h1)

lemma vector_insert_zero {α : Type} (l : List α) (e : α) : vector_insert l 0 e = e :: l := by
  simp [vector_insert]

lemma vector_insert_succ {α : Type} (x : α) (l : List α) (i : Nat) (e : α) :
    vector_insert (x :: l) (i + 1) e = x :: vector_insert l i e := by
  simp [vector_insert]

lemma upper_bound_insert_sorted (comp : UserEntry → UserEntry → Bool)
    (hswo : StrictWeakOrder comp) (e : UserEntry) (l : EntryList)
    (hs : EntriesSorted comp l) :
    EntriesSorted comp (vector_insert l (upper_bound comp e l) e) := by
  unfold EntriesSorted at hs ⊢
  induction l with
  | nil =>
    simp [upper_bound, vector_insert]
  | cons x xs ih =>
    rw [List.pairwise_cons] at hs
    by_cases hc : comp e x = true
    · have hidx : upper_bound comp e (x :: xs) = 0 := by simp [upper_bound, hc]
      rw [hidx, vector_insert_zero, List.pairwise_cons]
      refine ⟨?_, List.pairwise_cons.mpr hs⟩
      intro y hy
      cases hye : comp y e with
      | false => rfl
      | true =>
        have hyx : comp y x = true := hswo.trans y e x hye hc
        rcases List.mem_cons.mp hy with rfl | hy
        · rw [hswo.irrefl] at hyx; cases hyx
        · rw [hs.1 y hy] at hyx; cases hyx
    · have hcf : comp e x = false := by simpa using hc
      have hidx : upper_bound comp e (x :: xs) = upper_bound comp e xs + 1 := by
        simp [upper_bound, hcf]
      rw [hidx, vector_insert_succ, List.pairwise_cons]
      refine ⟨?_, ih hs.2⟩
      intro y hy
      rcases (mem_vector_insert _ _ _ _).mp hy with rfl | hy
      · exact hcf
      · exact hs.1 y hy

lemma lookup_map_modify_self {β : Type} (k : String) (f : β → β) (dflt : β)
    (m : List (String × β)) :
    (map_modify k f dflt m).lookup k = some (f ((m.lookup k).getD dflt)) := by
  induction m with
  | nil => simp [map_modify, List.lookup]
  | cons kv rest ih =>
    obtain ⟨k1, v⟩ := kv
    by_cases h : k1 = k
    · subst h
      simp [map_modify, List.lookup]
    · have h2 : (k == k1) = false := by
        simp only [beq_eq_false_iff_ne, ne_eq]
        exact fun hc => h hc.symm
      simp [map_modify, List.lookup, h, h2, ih]

lemma lookup_map_modify_other {β : Type} (k k2 : String) (hne : k2 ≠ k) (f : β → β) (dflt : β)
    (m : List (String × β)) :
    (map_modify k f dflt m).lookup k2 = m.lookup k2 := by
  induction m with
  | nil =>
    have h2 : (k2 == k) = false := by simpa using hne
    simp [map_modify, List.lookup, h2]
  | cons kv rest ih =>
    obtain ⟨k1, v⟩ := kv
    by_cases h : k1 = k
    · subst h
      have h2 : (k2 == k1) = false := by simpa using hne
      simp [map_modify, List.lookup, h2]
    · simp only [map_modify, h, if_false, List.lookup]
      cases (k2 == k1) with
      | true => rfl
      | false => exact ih

lemma built_entries_sorted (comp : UserEntry → UserEntry → Bool) (hswo : StrictWeakOrder comp)
    (db : UserDatabase) (hb : BuiltByAddEntry comp db) (u : String) (l : EntryList)
    (hl : db.m_users.lookup u = some l) : EntriesSorted comp l := by
  induction hb generalizing u l with
  | empty grants roles => simp [List.lookup] at hl
  | add db1 username entry _ ih =>
    by_cases hu : u = username
    · subst hu
      simp only [add_entry] at hl
      rw [lookup_map_modify_self] at hl
      cases hl
      apply upper_bound_insert_sorted comp hswo
      cases hlk : db1.m_users.lookup u with
      | none => simp [EntriesSorted]
      | some l1 => simpa using ih u l1 hlk
    · simp only [add_entry] at hl
      rw [lookup_map_modify_other _ _ hu] at hl
      exact ih u l hl

lemma host_pattern_is_more_specific_iff (a b : UserEntry) :
    host_pattern_is_more_specific a b = true ↔
      spec_pattern_rank a.host_pattern < spec_pattern_rank b.host_pattern
        ∨ (spec_pattern_rank a.host_pattern = spec_pattern_rank b.host_pattern
          ∧ (spec_wildcard_count a.host_pattern < spec_wildcard_count b.host_pattern
            ∨ (spec_wildcard_count a.host_pattern = spec_wildcard_count b.host_pattern
              ∧ str_lt a.host_pattern b.host_pattern = true))) := by
  unfold host_pattern_is_more_specific
  by_cases h1 : spec_pattern_rank a.host_pattern = spec_pattern_rank b.host_pattern
  · by_cases h2 : spec_wildcard_count a.host_pattern = spec_wildcard_count b.host_pattern
    · simp [h1, h2]
    · simp [h1, h2]
  · simp [h1]

lemma host_pattern_is_more_specific_swo : StrictWeakOrder host_pattern_is_more_specific := by
  have hfalse : ∀ a b : UserEntry, host_pattern_is_more_specific a b = false ↔
      ¬ (host_pattern_is_more_specific a b = true) := by
    intro a b; simp
  constructor
  · intro a
    rw [hfalse, host_pattern_is_more_specific_iff]
    rintro (h | ⟨_, h | ⟨_, h⟩⟩)
    · omega
    · omega
    · rw [str_lt_irrefl] at h; cases h
  · intro a b c hab hbc
    rw [host_pattern_is_more_specific_iff] at hab hbc ⊢
    rcases hab with h | ⟨h1, h | ⟨h2, h3⟩⟩ <;> rcases hbc with g | ⟨g1, g | ⟨g2, g3⟩⟩
    · left; omega
    · left; omega
    · left; omega
    · left; omega
    · right; exact ⟨by omega, Or.inl (by omega)⟩
    · right; exact ⟨by omega, Or.inl (by omega)⟩
    · left; omega
    · right; exact ⟨by omega, Or.inl (by omega)⟩
    · right; exact ⟨by omega, Or.inr ⟨by omega, str_lt_trans _ _ _ h3 g3⟩⟩
  · intro a b c hab hba hbc hcb
    rw [hfalse, host_pattern_is_more_specific_iff] at hab hba hbc hcb
    have key : ∀ x y : UserEntry,
        ¬ (spec_pattern_rank x.host_pattern < spec_pattern_rank y.host_pattern
          ∨ (spec_pattern_rank x.host_pattern = spec_pattern_rank y.host_pattern
            ∧ (spec_wildcard_count x.host_pattern < spec_wildcard_count y.host_pattern
              ∨ (spec_wildcard_count x.host_pattern = spec_wildcard_count y.host_pattern
                ∧ str_lt x.host_pattern y.host_pattern = true)))) →
        ¬ (spec_pattern_rank y.host_pattern < spec_pattern_rank x.host_pattern
          ∨ (spec_pattern_rank y.host_pattern = spec_pattern_rank x.host_pattern
            ∧ (spec_wildcard_count y.host_pattern < spec_wildcard_count x.host_pattern
              ∨ (spec_wildcard_count y.host_pattern = spec_wildcard_count x.host_pattern
                ∧ str_lt y.host_pattern x.host_pattern = true)))) →
        x.host_pattern = y.host_pattern := by
      intro x y hxy hyx
      push_neg at hxy hyx
      have r1 : spec_pattern_rank x.host_pattern = spec_pattern_rank y.host_pattern := by
        have := hxy.1; have := hyx.1; omega
      have w1 : spec_wildcard_count x.host_pattern = spec_wildcard_count y.host_pattern := by
        have := (hxy.2 r1).1; have := (hyx.2 r1.symm).1; omega
      have n1 := (hxy.2 r1).2 w1
      have n2 := (hyx.2 r1.symm).2 w1.symm
      exact str_lt_total _ _ (by simpa using n1) (by simpa using n2)
    have e1 := key a b hab hba
    have e2 := key b c hbc hcb
    constructor
    · rw [hfalse, host_pattern_is_more_specific_iff, e1]
      exact hbc
    · rw [hfalse, host_pattern_is_more_specific_iff, e1]
      exact hcb

/-- C2, as amended: in a database built only through `add_entry` with a comparator that is
a strict weak order, for every username `u` and host `h` that matches some non-role entry
of `users[u]`, `find_entry(u, h)` returns a non-role entry of `users[u]` that matches `h`,
and no matching non-role entry of `users[u]` is strictly more specific than it. -/
theorem find_entry_most_specific_nonrole (comp : UserEntry → UserEntry → Bool)
    (hswo : StrictWeakOrder comp) (env : HostEnv) (db : UserDatabase)
    (hb : BuiltByAddEntry comp db) (u h : String)
    (hex : ∃ l e, db.m_users.lookup u = some l ∧ e ∈ l ∧ e.is_role = false
      ∧ address_matches_host_pattern env h e.host_pattern = true) :
    ∃ l r, db.m_users.lookup u = some l ∧ find_entry env db u h = some r ∧ r ∈ l
      ∧ r.is_role = false ∧ address_matches_host_pattern env h r.host_pattern = true
      ∧ ∀ e ∈ l, e.is_role = false → address_matches_host_pattern env h e.host_pattern = true →
          comp e r = false := by
  obtain ⟨l, e, hl, hel, herole, hematch⟩ := hex
  have hsorted := built_entries_sorted comp hswo db hb u l hl
  have hfind : find_entry env db u h = find_entry_loop env h HostPatternMode.MATCH l := by
    simp [find_entry, find_entry_mode, hl]
  cases hres : find_entry_loop env h HostPatternMode.MATCH l with
  | none =>
    have hnone := (find_entry_loop_eq_none env h HostPatternMode.MATCH l).mp hres e hel
    exact absurd ⟨herole, Or.inr hematch⟩ hnone
  | some r =>
    obtain ⟨pre, post, hsplit, hacc, hpre⟩ :=
      (find_entry_loop_eq_some env h HostPatternMode.MATCH l r).mp hres
    have hrmatch : address_matches_host_pattern env h r.host_pattern = true := by
      rcases hacc.2 with hc | hc
      · cases hc
      · exact hc
    refine ⟨l, r, hl, by rw [hfind, hres], by rw [hsplit]; simp, hacc.1, hrmatch, ?_⟩
    intro x hx hxrole hxmatch
    rw [hsplit] at hx hsorted
    rcases List.mem_append.mp hx with hx | hx
    · exact absurd ⟨hxrole, Or.inr hxmatch⟩ (hpre x hx)
    · rcases List.mem_cons.mp hx with rfl | hx
      · exact hswo.irrefl _
      · unfold EntriesSorted at hsorted
        have h2 := (List.pairwise_append.mp hsorted).2.1
        exact (List.pairwise_cons.mp h2).1 x hx

/-- Scenario of C2: with ("bob","10.0.0.5") and ("bob","%") added in either order, the
lookup from 10.0.0.5 returns the literal entry and the lookup from 10.0.0.6 returns the
wildcard entry, and the general statement applies to the lookup from 10.0.0.6. -/
theorem find_entry_most_specific_nonrole_witness :
    find_entry spec_env bob_db_literal_first "bob" "10.0.0.5" = some bob_literal
      ∧ find_entry spec_env bob_db_wildcard_first "bob" "10.0.0.5" = some bob_literal
      ∧ find_entry spec_env bob_db_literal_first "bob" "10.0.0.6" = some bob_wildcard
      ∧ find_entry spec_env bob_db_wildcard_first "bob" "10.0.0.6" = some bob_wildcard
      ∧ ∃ l r, bob_db_wildcard_first.m_users.lookup "bob" = some l
        ∧ find_entry spec_env bob_db_wildcard_first "bob" "10.0.0.6" = some r ∧ r ∈ l
        ∧ r.is_role = false
        ∧ address_matches_host_pattern spec_env "10.0.0.6" r.host_pattern = true
        ∧ ∀ e ∈ l, e.is_role = false →
            address_matches_host_pattern spec_env "10.0.0.6" e.host_pattern = true →
            host_pattern_is_more_specific e r = false :=
  ⟨by decide, by decide, by decide, by decide,
    find_entry_most_specific_nonrole host_pattern_is_more_specific
      host_pattern_is_more_specific_swo spec_env bob_db_wildcard_first
      (BuiltByAddEntry.add _ _ _ (BuiltByAddEntry.add _ _ _ (BuiltByAddEntry.empty [] [])))
      "bob" "10.0.0.6"
      ⟨[bob_literal, bob_wildcard], bob_wildcard, by decide, by decide, by decide, by decide⟩⟩

/-- C2 as stated fails: in the database made by adding one role entry with host pattern
`%`, the host 10.0.0.5 matches an entry of the bucket, yet `find_entry` returns none. -/
theorem find_entry_ignores_matching_role :
    role_with_host_db = add_entry host_pattern_is_more_specific {} "r1" role_with_host
      ∧ role_with_host_db.m_users.lookup "r1" = some [role_with_host]
      ∧ address_matches_host_pattern spec_env "10.0.0.5" role_with_host.host_pattern = true
      ∧ find_entry spec_env role_with_host_db "r1" "10.0.0.5" = none := by
  refine ⟨rfl, by decide, by decide, by decide⟩

/-! ## Database access of an entry -/

lemma char_toNat_injective (a b : Char) (h : a.toNat = b.toNat) : a = b := by
  rw [← Char.ofNat_toNat a, ← Char.ofNat_toNat b, h]

lemma tolower_toNat_ne_zero (c : Char) (h : c.toNat ≠ 0) : (tolower c).toNat ≠ 0 := by
  unfold tolower
  by_cases hr : 65 ≤ c.toNat ∧ c.toNat ≤ 90
  · rw [if_pos hr]
    obtain ⟨h1, h2⟩ := hr
    generalize c.toNat = n at h1 h2
    interval_cases n <;> decide
  · rw [if_neg hr]; exact h

lemma strcasecmp_chars_eq_zero (a b : List Char) (ha : ∀ c ∈ a, c.toNat ≠ 0)
    (hb : ∀ c ∈ b, c.toNat ≠ 0) :
    strcasecmp_chars a b = 0 ↔ a.map tolower = b.map tolower := by
  induction a generalizing b with
  | nil =>
    cases b with
    | nil => simp [strcasecmp_chars]
    | cons y ys =>
      have hy := tolower_toNat_ne_zero y (hb y (List.mem_cons_self _ _))
      simp only [strcasecmp_chars, List.map_nil, List.map_cons]
      constructor
      · intro h; omega
      · intro h; cases h
  | cons x xs ih =>
    cases b with
    | nil =>
      have hx := tolower_toNat_ne_zero x (ha x (List.mem_cons_self _ _))
      simp only [strcasecmp_chars, List.map_nil, List.map_cons]
      constructor
      · intro h; omega
      · intro h; cases h
    | cons y ys =>
      simp only [strcasecmp_chars, List.map_cons, List.cons.injEq]
      by_cases hxy : tolower x = tolower y
      · rw [if_pos hxy]
        rw [ih ys (fun c hc => ha c (List.mem_cons_of_mem _ hc))
          (fun c hc => hb c (List.mem_cons_of_mem _ hc))]
        simp [hxy]
      · rw [if_neg hxy]
        constructor
        · intro h
          exact absurd (char_toNat_injective _ _ (by omega)) hxy
        · intro h; exact absurd h.1 hxy

lemma c_str_no_nul (s : String) : ∀ c ∈ c_str s, c.toNat ≠ 0 := by
  intro c hc
  have := List.mem_takeWhile_imp hc
  simpa using this

lemma strcasecmp_eq_zero (a b : String) :
    strcasecmp a b = 0 ↔ (c_str a).map tolower = (c_str b).map tolower :=
  strcasecmp_chars_eq_zero _ _ (c_str_no_nul a) (c_str_no_nul b)

lemma user_can_access_db_iff (udb : UserDatabase) (user host_pattern db : String)
    (cs : Bool) :
    user_can_access_db udb user host_pattern db cs = true ↔
      ∃ s, udb.m_database_grants.lookup (user ++ "@" ++ host_pattern) = some s
        ∧ grant_set_contains s db cs := by
  unfold user_can_access_db grant_set_contains
  cases hlk : udb.m_database_grants.lookup (user ++ "@" ++ host_pattern) with
  | none => simp [hlk]
  | some s =>
    cases cs with
    | true => simp [hlk, set_contains]
    | false => simp [hlk, strcasecmp_eq_zero]

lemma user_can_access_role_iff (udb : UserDatabase) (user host_pattern role : String) :
    user_can_access_role udb user host_pattern role = true ↔
      ∃ rs, udb.m_roles_mapping.lookup (user ++ "@" ++ host_pattern) = some rs ∧ role ∈ rs := by
  unfold user_can_access_role
  cases hlk : udb.m_roles_mapping.lookup (user ++ "@" ++ host_pattern) with
  | none => simp [hlk]
  | some s => simp [hlk, set_contains]

/-- C3: `check_database_access(entry, db, case_sensitive_db)` is true if and only if
(1) the entry has the global privilege, or (2) `db` is empty, or (3) the grant set of
`username@host_pattern` contains `db` (exactly when case sensitive, ignoring ASCII case
otherwise), or (4) the default role is non-empty, is mapped to `username@host_pattern`
and `role_can_access_db` holds for it. In particular, when (1) to (3) fail, a default
role that is not mapped to the user gives no access. -/
theorem check_database_access_iff (udb : UserDatabase) (entry : UserEntry) (db : String)
    (case_sensitive_db : Bool) :
    (check_database_access udb entry db case_sensitive_db = true ↔
      entry.global_db_priv = true
        ∨ db = ""
        ∨ (∃ s, udb.m_database_grants.lookup (entry.username ++ "@" ++ entry.host_pattern)
              = some s ∧ grant_set_contains s db case_sensitive_db)
        ∨ (entry.default_role ≠ ""
          ∧ (∃ rs, udb.m_roles_mapping.lookup (entry.username ++ "@" ++ entry.host_pattern)
              = some rs ∧ entry.default_role ∈ rs)
          ∧ role_can_access_db udb entry.default_role db case_sensitive_db = true))
    ∧ ¬ (check_database_access udb entry db case_sensitive_db = true
        ∧ entry.global_db_priv = false ∧ db ≠ ""
        ∧ (¬ ∃ s, udb.m_database_grants.lookup (entry.username ++ "@" ++ entry.host_pattern)
              = some s ∧ grant_set_contains s db case_sensitive_db)
        ∧ ¬ ∃ rs, udb.m_roles_mapping.lookup (entry.username ++ "@" ++ entry.host_pattern)
              = some rs ∧ entry.default_role ∈ rs) := by
  have hiff : check_database_access udb entry db case_sensitive_db = true ↔
      entry.global_db_priv = true
        ∨ db = ""
        ∨ (∃ s, udb.m_database_grants.lookup (entry.username ++ "@" ++ entry.host_pattern)
              = some s ∧ grant_set_contains s db case_sensitive_db)
        ∨ (entry.default_role ≠ ""
          ∧ (∃ rs, udb.m_roles_mapping.lookup (entry.username ++ "@" ++ entry.host_pattern)
              = some rs ∧ entry.default_role ∈ rs)
          ∧ role_can_access_db udb entry.default_role db case_sensitive_db = true) := by
    unfold check_database_access
    simp only [Bool.or_eq_true, Bool.and_eq_true, decide_eq_true_eq, Bool.not_eq_true',
      decide_eq_false_iff_not, user_can_access_db_iff, user_can_access_role_iff, or_assoc,
      and_assoc, ne_eq]
  refine ⟨hiff, ?_⟩
  rintro ⟨hc, hg, hdb, hgrant, hrole⟩
  rcases hiff.mp hc with h | h | h | ⟨_, h, _⟩
  · rw [hg] at h; cases h
  · exact hdb h
  · exact hgrant h
  · exact hrole h

/-! ## Role resolution -/

lemma mem_set_insert (s : StringSet) (x y : String) : y ∈ set_insert s x ↔ y = x ∨ y ∈ s := by
  unfold set_insert
  by_cases h : x ∈ s
  · rw [if_pos h]
    constructor
    · exact Or.inr
    · rintro (rfl | h1)
      · exact h
      · exact h1
  · rw [if_neg h]; exact List.mem_cons

lemma mem_set_erase (s : StringSet) (x y : String) : y ∈ set_erase s x ↔ y ∈ s ∧ y ≠ x := by
  unfold set_erase
  simp [List.mem_filter]

lemma foldl_min_mem (xs : List String) (x : String) :
    xs.foldl (fun m y => if str_lt y m then y else m) x ∈ x :: xs := by
  induction xs generalizing x with
  | nil => simp
  | cons y ys ih =>
    simp only [List.foldl_cons]
    rcases List.mem_cons.mp (ih (if str_lt y x then y else x)) with h | h
    · rw [h]
      by_cases hc : str_lt y x = true
      · rw [if_pos hc]; simp
      · rw [if_neg hc]; simp
    · exact List.mem_cons_of_mem _ (List.mem_cons_of_mem _ h)

lemma set_begin_mem (s : StringSet) (x : String) (h : set_begin s = some x) : x ∈ s := by
  cases s with
  | nil => simp [set_begin] at h
  | cons y ys =>
    simp only [set_begin, Option.some.injEq] at h
    rw [← h]
    exact foldl_min_mem ys y

lemma set_begin_eq_none (s : StringSet) (h : set_begin s = none) : s = [] := by
  cases s with
  | nil => rfl
  | cons y ys => simp [set_begin] at h

lemma mem_add_linked_roles (closed_set linked : List String) (open_set : StringSet)
    (y : String) :
    y ∈ add_linked_roles closed_set linked open_set ↔
      y ∈ open_set ∨ (y ∈ linked ∧ y ∉ closed_set) := by
  unfold add_linked_roles
  induction linked generalizing open_set with
  | nil => simp
  | cons r rs ih =>
    simp only [List.foldl_cons]
    rw [ih]
    by_cases hc : (!set_contains open_set r && !set_contains closed_set r) = true
    · rw [if_pos hc]
      simp only [set_contains, Bool.and_eq_true, Bool.not_eq_true', decide_eq_false_iff_not] at hc
      rw [mem_set_insert]
      constructor
      · rintro ((rfl | h) | ⟨h1, h2⟩)
        · exact Or.inr ⟨List.mem_cons_self _ _, hc.2⟩
        · exact Or.inl h
        · exact Or.inr ⟨List.mem_cons_of_mem _ h1, h2⟩
      · rintro (h | ⟨h1, h2⟩)
        · exact Or.inl (Or.inr h)
        · rcases List.mem_cons.mp h1 with rfl | h1
          · exact Or.inl (Or.inl rfl)
          · exact Or.inr ⟨h1, h2⟩
    · rw [if_neg hc]
      simp only [set_contains, Bool.and_eq_true, Bool.not_eq_true', decide_eq_false_iff_not,
        not_and, not_not] at hc
      constructor
      · rintro (h | ⟨h1, h2⟩)
        · exact Or.inl h
        · exact Or.inr ⟨List.mem_cons_of_mem _ h1, h2⟩
      · rintro (h | ⟨h1, h2⟩)
        · exact Or.inl h
        · rcases List.mem_cons.mp h1 with rfl | h1
          · by_cases ho : y ∈ open_set
            · exact Or.inl ho
            · exact absurd (hc ho) h2
          · exact Or.inr ⟨h1, h2⟩

lemma mem_find_linked_roles (udb : UserDatabase) (r y : String) :
    y ∈ find_linked_roles udb r ↔ role_edge udb r y := by
  unfold find_linked_roles role_edge
  cases hlk : udb.m_roles_mapping.lookup (r ++ "@") with
  | none => simp [hlk]
  | some s => simp [hlk]

lemma lookup_some_mem {β : Type} (k : String) (v : β) (m : List (String × β))
    (h : m.lookup k = some v) : (k, v) ∈ m := by
  induction m with
  | nil => simp [List.lookup] at h
  | cons kv rest ih =>
    obtain ⟨k1, v1⟩ := kv
    rw [List.lookup_cons] at h
    by_cases hk : (k == k1) = true
    · rw [hk] at h
      simp only [Option.some.injEq] at h
      have hk1 : k = k1 := by simpa using hk
      rw [hk1, h]
      exact List.mem_cons_self _ _
    · have hk2 : (k == k1) = false := by simpa using hk
      rw [hk2] at h
      exact List.mem_cons_of_mem _ (ih h)

lemma role_edge_mem_universe (udb : UserDatabase) (role r y : String)
    (h : role_edge udb r y) : y ∈ role_universe udb role := by
  obtain ⟨s, hs, hy⟩ := h
  unfold role_universe
  apply List.mem_cons_of_mem
  rw [List.mem_flatten]
  exact ⟨s, List.mem_map.mpr ⟨(r ++ "@", s), lookup_some_mem _ _ _ hs, rfl⟩, hy⟩

lemma role_universe_length (udb : UserDatabase) (role : String) :
    (role_universe udb role).length + 1 = role_fuel udb := by
  unfold role_universe role_fuel
  rw [List.length_cons, List.length_flatten, List.map_map]
  rfl

lemma role_has_global_priv_iff (udb : UserDatabase) (r : String) :
    role_has_global_priv udb r = true ↔
      ∃ e rest, udb.m_users.lookup r = some (e :: rest) ∧ e.is_role = true
        ∧ e.global_db_priv = true := by
  unfold role_has_global_priv
  cases hlk : udb.m_users.lookup r with
  | none => simp [hlk]
  | some l =>
    cases l with
    | nil => simp [hlk]
    | cons e rest => simp [hlk]

lemma role_grants_iff (udb : UserDatabase) (r db : String) (cs : Bool) :
    role_grants udb r db cs ↔
      (role_has_global_priv udb r = true ∨ user_can_access_db udb r "" db cs = true) := by
  unfold role_grants
  rw [role_has_global_priv_iff, user_can_access_db_iff, String.append_empty]

lemma role_loop_body_grant (udb : UserDatabase) (db : String) (cs : Bool) (cur : String)
    (s : RoleSearch) (h : role_grants udb cur db cs) :
    (role_loop_body udb db cs cur s).privilege_found = true := by
  rw [role_grants_iff] at h
  unfold role_loop_body
  by_cases h1 : role_has_global_priv udb cur = true
  · simp [h1]
  · rcases h with h | h
    · exact absurd h h1
    · simp [h1, h]

lemma role_loop_body_no_grant (udb : UserDatabase) (db : String) (cs : Bool) (cur : String)
    (s : RoleSearch) (h : ¬ role_grants udb cur db cs) :
    role_loop_body udb db cs cur s =
      { open_set :=
          set_erase (add_linked_roles s.closed_set (find_linked_roles udb cur) s.open_set) cur
        closed_set := set_insert s.closed_set cur
        privilege_found := s.privilege_found } := by
  rw [role_grants_iff, not_or] at h
  unfold role_loop_body
  simp [h.1, h.2]

lemma role_loop_found (udb : UserDatabase) (db : String) (cs : Bool) (fuel : Nat)
    (s : RoleSearch) (h : s.privilege_found = true) :
    role_loop udb db cs fuel s = some s := by
  unfold role_loop
  simp [h]

lemma role_loop_empty (udb : UserDatabase) (db : String) (cs : Bool) (fuel : Nat)
    (s : RoleSearch) (h : set_begin s.open_set = none) :
    role_loop udb db cs fuel s = some s := by
  unfold role_loop
  cases hpf : s.privilege_found <;> simp [h]

lemma role_loop_step (udb : UserDatabase) (db : String) (cs : Bool) (fuel : Nat)
    (s : RoleSearch) (cur : String) (hf : s.privilege_found = false)
    (h : set_begin s.open_set = some cur) :
    role_loop udb db cs (fuel + 1) s
      = role_loop udb db cs fuel (role_loop_body udb db cs cur s) := by
  rw [role_loop]
  · simp [h, hf]
  · exact h

lemma role_inv_init (udb : UserDatabase) (role db : String) (cs : Bool) :
    RoleInv udb role db cs (role_search_init role) := by
  have hopen : (role_search_init role).open_set = [role] := by
    simp [role_search_init, set_insert]
  have hclosed : (role_search_init role).closed_set = [] := rfl
  constructor
  · intro x hx
    rw [hopen, hclosed] at hx
    simp only [List.mem_singleton, List.not_mem_nil, or_false] at hx
    rw [hx]
  · intro x hx; rw [hclosed] at hx; cases hx
  · intro x hx; rw [hclosed] at hx; cases hx
  · left; rw [hopen]; simp
  · intro x _ hx; rw [hclosed] at hx; cases hx
  · intro x hx
    rw [hopen, hclosed] at hx
    simp only [List.mem_singleton, List.not_mem_nil, or_false] at hx
    rw [hx]
    exact List.mem_cons_self _ _

lemma role_inv_step (udb : UserDatabase) (role db : String) (cs : Bool) (s : RoleSearch)
    (cur : String) (hinv : RoleInv udb role db cs s) (hcur : cur ∈ s.open_set)
    (hng : ¬ role_grants udb cur db cs) :
    RoleInv udb role db cs (role_loop_body udb db cs cur s) := by
  rw [role_loop_body_no_grant udb db cs cur s hng]
  have hreach_cur := hinv.reach cur (Or.inl hcur)
  constructor
  · intro x hx
    simp only [mem_set_erase, mem_add_linked_roles, mem_find_linked_roles, mem_set_insert] at hx
    rcases hx with ⟨h | ⟨h, _⟩, _⟩ | rfl | h
    · exact hinv.reach x (Or.inl h)
    · exact hreach_cur.tail h
    · exact hreach_cur
    · exact hinv.reach x (Or.inr h)
  · intro x hx
    simp only [mem_set_insert] at hx
    rcases hx with rfl | h
    · exact hng
    · exact hinv.closed_no_grant x h
  · intro x hx y hxy
    simp only [mem_set_erase, mem_add_linked_roles, mem_find_linked_roles, mem_set_insert] at hx ⊢
    by_cases hyc : y = cur
    · exact Or.inr (Or.inl hyc)
    · rcases hx with rfl | h
      · by_cases hyclosed : y ∈ s.closed_set
        · exact Or.inr (Or.inr hyclosed)
        · exact Or.inl ⟨Or.inr ⟨hxy, hyclosed⟩, hyc⟩
      · rcases hinv.closed_succ x h y hxy with h1 | h1
        · exact Or.inl ⟨Or.inl h1, hyc⟩
        · exact Or.inr (Or.inr h1)
  · simp only [mem_set_erase, mem_add_linked_roles, mem_find_linked_roles, mem_set_insert]
    by_cases hrc : role = cur
    · exact Or.inr (Or.inl hrc)
    · rcases hinv.start with h | h
      · exact Or.inl ⟨Or.inl h, hrc⟩
      · exact Or.inr (Or.inr h)
  · intro x hx
    simp only [mem_set_erase, mem_add_linked_roles, mem_find_linked_roles, mem_set_insert] at hx ⊢
    rintro (h | h)
    · exact hx.2 h
    · rcases hx.1 with h1 | ⟨_, h1⟩
      · exact hinv.disjoint x h1 h
      · exact h1 h
  · intro x hx
    simp only [mem_set_erase, mem_add_linked_roles, mem_find_linked_roles, mem_set_insert] at hx
    rcases hx with ⟨h | ⟨h, _⟩, _⟩ | rfl | h
    · exact hinv.univ x (Or.inl h)
    · exact role_edge_mem_universe udb role cur x h
    · exact hinv.univ x (Or.inl hcur)
    · exact hinv.univ x (Or.inr h)

lemma role_measure_step (udb : UserDatabase) (role db : String) (cs : Bool) (s : RoleSearch)
    (cur : String) (hinv : RoleInv udb role db cs s) (hcur : cur ∈ s.open_set) :
    role_measure udb role (role_loop_body udb db cs cur s) < role_measure udb role s := by
  have hclosed : (role_loop_body udb db cs cur s).closed_set = set_insert s.closed_set cur := by
    unfold role_loop_body
    by_cases h1 : role_has_global_priv udb cur = true
    · simp [h1]
    · by_cases h2 : user_can_access_db udb cur "" db cs = true
      · simp [h1, h2]
      · simp [h1, h2]
  unfold role_measure
  rw [hclosed]
  apply Finset.card_lt_card
  rw [Finset.ssubset_iff_of_subset]
  · refine ⟨cur, ?_, ?_⟩
    · rw [Finset.mem_sdiff, List.mem_toFinset, List.mem_toFinset]
      exact ⟨hinv.univ cur (Or.inl hcur), hinv.disjoint cur hcur⟩
    · rw [Finset.mem_sdiff, List.mem_toFinset, List.mem_toFinset, mem_set_insert]
      intro h
      exact h.2 (Or.inl rfl)
  · intro x hx
    rw [Finset.mem_sdiff, List.mem_toFinset, List.mem_toFinset] at hx ⊢
    rw [mem_set_insert] at hx
    exact ⟨hx.1, fun h => hx.2 (Or.inr h)⟩

lemma role_measure_pos (udb : UserDatabase) (role db : String) (cs : Bool) (s : RoleSearch)
    (cur : String) (hinv : RoleInv udb role db cs s) (hcur : cur ∈ s.open_set) :
    0 < role_measure udb role s := by
  unfold role_measure
  apply Finset.card_pos.mpr
  refine ⟨cur, ?_⟩
  rw [Finset.mem_sdiff, List.mem_toFinset, List.mem_toFinset]
  exact ⟨hinv.univ cur (Or.inl hcur), hinv.disjoint cur hcur⟩

lemma role_measure_init_lt (udb : UserDatabase) (role : String) :
    role_measure udb role (role_search_init role) < role_fuel udb := by
  have h1 : role_measure udb role (role_search_init role)
      ≤ (role_universe udb role).toFinset.card := by
    unfold role_measure
    exact Finset.card_le_card Finset.sdiff_subset
  have h2 := List.toFinset_card_le (role_universe udb role)
  have h3 := role_universe_length udb role
  omega

lemma role_closed_of_reach (udb : UserDatabase) (role db : String) (cs : Bool)
    (s : RoleSearch) (hinv : RoleInv udb role db cs s) (hopen : s.open_set = []) (r : String)
    (hr : Relation.ReflTransGen (role_edge udb) role r) : r ∈ s.closed_set := by
  induction hr with
  | refl =>
    rcases hinv.start with h | h
    · rw [hopen] at h; cases h
    · exact h
  | tail _ hedge ih =>
    rcases hinv.closed_succ _ ih _ hedge with h | h
    · rw [hopen] at h; cases h
    · exact h

lemma role_loop_correct (udb : UserDatabase) (role db : String) (cs : Bool) :
    ∀ (fuel : Nat) (s : RoleSearch), RoleInv udb role db cs s → s.privilege_found = false →
      role_measure udb role s < fuel →
      ∃ s1, role_loop udb db cs fuel s = some s1
        ∧ (set_begin s1.open_set = none ∨ s1.privilege_found = true)
        ∧ (s1.privilege_found = true ↔
          ∃ r, Relation.ReflTransGen (role_edge udb) role r ∧ role_grants udb r db cs) := by
  intro fuel
  induction fuel with
  | zero => intro s _ _ hm; omega
  | succ f ih =>
    intro s hinv hpf hm
    cases hb : set_begin s.open_set with
    | none =>
      refine ⟨s, role_loop_empty udb db cs _ s hb, Or.inl hb, ?_⟩
      rw [hpf]
      constructor
      · intro h; cases h
      · rintro ⟨r, hr, hg⟩
        have hclosed := role_closed_of_reach udb role db cs s hinv (set_begin_eq_none _ hb) r hr
        exact absurd hg (hinv.closed_no_grant r hclosed)
    | some cur =>
      have hcur : cur ∈ s.open_set := set_begin_mem _ _ hb
      rw [role_loop_step udb db cs f s cur hpf hb]
      by_cases hg : role_grants udb cur db cs
      · have hfound := role_loop_body_grant udb db cs cur s hg
        refine ⟨role_loop_body udb db cs cur s, role_loop_found udb db cs f _ hfound,
          Or.inr hfound, ?_⟩
        rw [hfound]
        simp only [true_iff]
        exact ⟨cur, hinv.reach cur (Or.inl hcur), hg⟩
      · have hinv1 := role_inv_step udb role db cs s cur hinv hcur hg
        have hpf1 : (role_loop_body udb db cs cur s).privilege_found = false := by
          rw [role_loop_body_no_grant udb db cs cur s hg]
          exact hpf
        have hm1 := role_measure_step udb role db cs s cur hinv hcur
        exact ih _ hinv1 hpf1 (by omega)

lemma role_loop_more_fuel (udb : UserDatabase) (db : String) (cs : Bool) :
    ∀ (fuel extra : Nat) (s s1 : RoleSearch), role_loop udb db cs fuel s = some s1 →
      role_loop udb db cs (fuel + extra) s = some s1 := by
  intro fuel
  induction fuel with
  | zero =>
    intro extra s s1 h
    cases hpf : s.privilege_found with
    | true =>
      rw [role_loop_found udb db cs _ s hpf] at h ⊢
      exact h
    | false =>
      cases hb : set_begin s.open_set with
      | none =>
        rw [role_loop_empty udb db cs _ s hb] at h ⊢
        exact h
      | some cur =>
        unfold role_loop at h
        simp [hpf, hb] at h
  | succ f ih =>
    intro extra s s1 h
    cases hpf : s.privilege_found with
    | true =>
      rw [role_loop_found udb db cs _ s hpf] at h ⊢
      exact h
    | false =>
      cases hb : set_begin s.open_set with
      | none =>
        rw [role_loop_empty udb db cs _ s hb] at h ⊢
        exact h
      | some cur =>
        rw [role_loop_step udb db cs f s cur hpf hb] at h
        have h2 : f + 1 + extra = (f + extra) + 1 := by omega
        rw [h2, role_loop_step udb db cs (f + extra) s cur hpf hb]
        exact ih extra _ s1 h

lemma role_can_access_db_reach (udb : UserDatabase) (role db : String) (cs : Bool) :
    role_can_access_db udb role db cs = true ↔
      ∃ r, Relation.ReflTransGen (role_edge udb) role r ∧ role_grants udb r db cs := by
  obtain ⟨s1, hloop, _, hiff⟩ :=
    role_loop_correct udb role db cs (role_fuel udb) (role_search_init role)
      (role_inv_init udb role db cs) rfl (role_measure_init_lt udb role)
  unfold role_can_access_db
  rw [hloop]
  exact hiff

lemma role_expansions_zero (udb : UserDatabase) (db : String) (cs : Bool) (s : RoleSearch) :
    role_expansions udb db cs 0 s = [] := by
  unfold role_expansions
  cases s.privilege_found <;> cases set_begin s.open_set <;> rfl

lemma role_expansions_found (udb : UserDatabase) (db : String) (cs : Bool) (fuel : Nat)
    (s : RoleSearch) (h : s.privilege_found = true) :
    role_expansions udb db cs fuel s = [] := by
  unfold role_expansions
  simp [h]

lemma role_expansions_empty (udb : UserDatabase) (db : String) (cs : Bool) (fuel : Nat)
    (s : RoleSearch) (h : set_begin s.open_set = none) :
    role_expansions udb db cs fuel s = [] := by
  unfold role_expansions
  cases hpf : s.privilege_found <;> simp [h]

lemma role_expansions_step (udb : UserDatabase) (db : String) (cs : Bool) (fuel : Nat)
    (s : RoleSearch) (cur : String) (hf : s.privilege_found = false)
    (h : set_begin s.open_set = some cur) :
    role_expansions udb db cs (fuel + 1) s
      = cur :: role_expansions udb db cs fuel (role_loop_body udb db cs cur s) := by
  rw [role_expansions]
  · simp [h, hf]
  · exact h

lemma role_expansions_nodup (udb : UserDatabase) (role db : String) (cs : Bool) :
    ∀ (fuel : Nat) (s : RoleSearch), RoleInv udb role db cs s →
      (role_expansions udb db cs fuel s).Nodup
        ∧ (∀ x ∈ role_expansions udb db cs fuel s, x ∉ s.closed_set)
        ∧ (role_expansions udb db cs fuel s).length ≤ role_measure udb role s := by
  intro fuel
  induction fuel with
  | zero =>
    intro s _
    rw [role_expansions_zero]
    simp
  | succ f ih =>
    intro s hinv
    cases hpf : s.privilege_found with
    | true =>
      rw [role_expansions_found udb db cs _ s hpf]
      simp
    | false =>
      cases hb : set_begin s.open_set with
      | none =>
        rw [role_expansions_empty udb db cs _ s hb]
        simp
      | some cur =>
        have hcur : cur ∈ s.open_set := set_begin_mem _ _ hb
        have hpos := role_measure_pos udb role db cs s cur hinv hcur
        rw [role_expansions_step udb db cs f s cur hpf hb]
        by_cases hg : role_grants udb cur db cs
        · rw [role_expansions_found udb db cs f _ (role_loop_body_grant udb db cs cur s hg)]
          refine ⟨by simp, ?_, by simpa using hpos⟩
          intro x hx
          simp only [List.mem_singleton] at hx
          rw [hx]
          exact hinv.disjoint cur hcur
        · have hinv1 := role_inv_step udb role db cs s cur hinv hcur hg
          obtain ⟨hnd, hnc, hlen⟩ := ih _ hinv1
          have hm1 := role_measure_step udb role db cs s cur hinv hcur
          have hclosed : (role_loop_body udb db cs cur s).closed_set
              = set_insert s.closed_set cur := by
            rw [role_loop_body_no_grant udb db cs cur s hg]
          refine ⟨List.nodup_cons.mpr ⟨?_, hnd⟩, ?_, ?_⟩
          · intro hmem
            apply hnc cur hmem
            rw [hclosed, mem_set_insert]
            exact Or.inl rfl
          · intro x hx
            rcases List.mem_cons.mp hx with rfl | hx
            · exact hinv.disjoint _ hcur
            · intro hxc
              apply hnc x hx
              rw [hclosed, mem_set_insert]
              exact Or.inr hxc
          · rw [List.length_cons]
            omega

/-- C4: `role_can_access_db(role, db, cs)` is true if and only if some role `r` reachable
from `role` in zero or more steps along the edges `r1 -> r2` given by
`r2 ∈ roles_mapping[r1 + "@"]` grants `db`, that is, the first entry of `users[r]` is a
role with the global privilege or `db_grants[r + "@"]` contains `db` compared per `cs`. -/
theorem role_can_access_db_iff_reachable_grant (udb : UserDatabase) (role db : String)
    (case_sensitive_db : Bool) :
    role_can_access_db udb role db case_sensitive_db = true ↔
      ∃ r, Relation.ReflTransGen (role_edge udb) role r
        ∧ role_grants udb r db case_sensitive_db :=
  role_can_access_db_reach udb role db case_sensitive_db

/-- C5: the loop of `role_can_access_db` terminates for every database, starting role
and `db`, cycles and self-loops of the role map included: within `role_fuel udb` passes
the loop condition is false, more passes change nothing, and the roles taken from the
open set over any number of passes are pairwise distinct (each role is expanded at most
once) and fewer than `role_fuel udb`. -/
theorem role_can_access_db_terminates (udb : UserDatabase) (role db : String)
    (case_sensitive_db : Bool) :
    (∃ s, (∀ extra : Nat,
          role_loop udb db case_sensitive_db (role_fuel udb + extra) (role_search_init role)
            = some s)
        ∧ (set_begin s.open_set = none ∨ s.privilege_found = true)
        ∧ role_can_access_db udb role db case_sensitive_db = s.privilege_found)
      ∧ ∀ fuel : Nat,
          (role_expansions udb db case_sensitive_db fuel (role_search_init role)).Nodup
            ∧ (role_expansions udb db case_sensitive_db fuel (role_search_init role)).length
                < role_fuel udb := by
  obtain ⟨s1, hloop, hexit, _⟩ :=
    role_loop_correct udb role db case_sensitive_db (role_fuel udb) (role_search_init role)
      (role_inv_init udb role db case_sensitive_db) rfl (role_measure_init_lt udb role)
  refine ⟨⟨s1, ?_, hexit, ?_⟩, ?_⟩
  · intro extra
    exact role_loop_more_fuel udb db case_sensitive_db _ extra _ s1 hloop
  · unfold role_can_access_db
    rw [hloop]
  · intro fuel
    obtain ⟨hnd, _, hlen⟩ :=
      role_expansions_nodup udb role db case_sensitive_db fuel (role_search_init role)
        (role_inv_init udb role db case_sensitive_db)
    have hlt := role_measure_init_lt udb role
    exact ⟨hnd, by omega⟩

/-- C6, as amended: when `roles_mapping[u@h]` contains a non-empty role name `A`,
`roles_mapping[A@]` contains `B` and `db_grants[B@]` contains `X`, an entry `(u, h)` with
default role `A` is granted `X` by `check_database_access`, whether or not it has the
global privilege and for either way of comparing schema names. -/
theorem check_database_access_role_transitive (udb : UserDatabase) (entry : UserEntry)
    (A B X : String) (case_sensitive_db : Bool) (s1 s2 s3 : StringSet)
    (h1 : udb.m_roles_mapping.lookup (entry.username ++ "@" ++ entry.host_pattern) = some s1)
    (hA : A ∈ s1)
    (h2 : udb.m_roles_mapping.lookup (A ++ "@") = some s2) (hB : B ∈ s2)
    (h3 : udb.m_database_grants.lookup (B ++ "@") = some s3) (hX : X ∈ s3)
    (hdef : entry.default_role = A) (hne : A ≠ "") :
    check_database_access udb entry X case_sensitive_db = true := by
  have hrole : role_can_access_db udb A X case_sensitive_db = true := by
    rw [role_can_access_db_reach]
    refine ⟨B, Relation.ReflTransGen.single ⟨s2, h2, hB⟩, Or.inr ⟨s3, h3, ?_⟩⟩
    unfold grant_set_contains
    cases case_sensitive_db with
    | true => simpa using hX
    | false => exact ⟨X, hX, rfl⟩
  have hmapped : user_can_access_role udb entry.username entry.host_pattern A = true := by
    rw [user_can_access_role_iff]
    exact ⟨s1, h1, hA⟩
  unfold check_database_access
  simp [hdef, hne, hmapped, hrole]

/-- Scenario of C6: dave@% with default role r1, `roles_mapping["dave@%"] = {r1}`,
`roles_mapping["r1@"] = {r2}` and `db_grants["r2@"] = {sales}` gives
`check_database_access(dave, "sales") = true`. -/
theorem check_database_access_role_transitive_witness :
    dave.global_db_priv = false
      ∧ check_database_access dave_db dave "sales" true = true :=
  ⟨rfl,
    check_database_access_role_transitive dave_db dave "r1" "r2" "sales" true ["r1"] ["r2"]
      ["sales"] (by decide) (by decide) (by decide) (by decide) (by decide) (by decide) rfl
      (by decide)⟩

/-- C6 as stated fails when the role `A` is the empty name: `roles_mapping["dave@%"]`
contains it, `roles_mapping["@"]` contains r2 and `db_grants["r2@"]` contains sales, the
entry dave@% has the default role `A` and no global privilege, and the access to sales is
refused. -/
theorem check_database_access_empty_default_role :
    empty_role_db.m_roles_mapping.lookup
        (dave_no_default_role.username ++ "@" ++ dave_no_default_role.host_pattern) = some [""]
      ∧ empty_role_db.m_roles_mapping.lookup ("" ++ "@") = some ["r2"]
      ∧ empty_role_db.m_database_grants.lookup ("r2" ++ "@") = some ["sales"]
      ∧ dave_no_default_role.default_role = ""
      ∧ dave_no_default_role.global_db_priv = false
      ∧ check_database_access empty_role_db dave_no_default_role "sales" true = false
      ∧ check_database_access empty_role_db dave_no_default_role "sales" false = false := by
  refine ⟨by decide, by decide, by decide, rfl, rfl, by decide, by decide⟩

/-! ## The lookup of the cache -/

/-- C7: with `allow_root_user = false`, `find_user("root", host, db, settings)` returns no
entry, whatever the database contains. -/
theorem find_user_root_blocked (env : HostEnv) (udb : UserDatabase)
    (host requested_db : String) (sett : UserSearchSettings)
    (hroot : sett.allow_root_user = false) :
    find_user env udb "root" host requested_db sett = none := by
  unfold find_user
  simp [hroot]

/-- Scenario of C7: a database with a matching root entry that has the global privilege
and an anonymous entry with a proxy grant, searched with the anonymous user allowed. -/
theorem find_user_root_blocked_witness :
    sett_anon.allow_root_user = false
      ∧ find_entry spec_env root_db "root" "10.0.0.5" = some root_entry
      ∧ find_entry spec_env root_db "" "10.0.0.5" = some anon_proxy
      ∧ find_user spec_env root_db "root" "10.0.0.5" "" sett_anon = none :=
  ⟨rfl, by decide, by decide, find_user_root_blocked spec_env root_db "10.0.0.5" "" sett_anon rfl⟩

/-- C8: when the root rule does not apply and the lookup of `user` yields an entry `e`,
`find_user` returns `e` if `check_database_access(e, requested_db, case_sensitive_db)` is
true and none otherwise, whatever the anonymous slot holds and whether or not
`allow_anon_user` is set. -/
theorem find_user_named_entry (env : HostEnv) (udb : UserDatabase)
    (user host requested_db : String) (sett : UserSearchSettings) (e : UserEntry)
    (hroot : sett.allow_root_user = true ∨ user ≠ "root")
    (hfound : lookup_entry env udb user host sett = some e) :
    find_user env udb user host requested_db sett
      = if check_database_access udb e requested_db sett.case_sensitive_db = true then some e
        else none := by
  have hgate : (!sett.allow_root_user && decide (user = "root")) = false := by
    rcases hroot with h | h
    · simp [h]
    · simp [h]
  unfold lookup_entry at hfound
  unfold find_user
  simp only [hgate, hfound]
  rfl

/-- Scenario of C8: carol@% has no privilege on the schema sales, the anonymous slot has a
proxy grant and the anonymous user is allowed; the lookup for sales returns none and the
lookup without a schema returns carol. -/
theorem find_user_named_entry_witness :
    sett_anon.allow_anon_user = true
      ∧ find_entry spec_env carol_db "" "10.0.0.5" = some anon_proxy
      ∧ find_user spec_env carol_db "carol" "10.0.0.5" "sales" sett_anon = none
      ∧ find_user spec_env carol_db "carol" "10.0.0.5" "" sett_anon = some carol :=
  ⟨rfl, by decide,
    (find_user_named_entry spec_env carol_db "carol" "10.0.0.5" "sales" sett_anon carol
      (Or.inr (by decide)) (by decide)).trans (by decide),
    (find_user_named_entry spec_env carol_db "carol" "10.0.0.5" "" sett_anon carol
      (Or.inr (by decide)) (by decide)).trans (by decide)⟩

/-- C9, as amended: when the root rule does not apply, no entry is found for `user` and
`allow_anon_user` is true, `find_user` returns an entry `r` if and only if `r` is the
entry found for the empty username and has `proxy_grant = true`; this holds for every
`requested_db`, so the outcome does not depend on it. -/
theorem find_user_anonymous_fallback (env : HostEnv) (udb : UserDatabase)
    (user host requested_db : String) (sett : UserSearchSettings)
    (hroot : sett.allow_root_user = true ∨ user ≠ "root")
    (hnone : lookup_entry env udb user host sett = none)
    (hanon : sett.allow_anon_user = true) :
    (∀ r : UserEntry, find_user env udb user host requested_db sett = some r ↔
        lookup_entry env udb "" host sett = some r ∧ r.proxy_grant = true)
      ∧ ∀ other_db : String,
          find_user env udb user host other_db sett
            = find_user env udb user host requested_db sett := by
  have hgate : (!sett.allow_root_user && decide (user = "root")) = false := by
    rcases hroot with h | h
    · simp [h]
    · simp [h]
  unfold lookup_entry at hnone
  have hval : ∀ d : String, find_user env udb user host d sett
      = match lookup_entry env udb "" host sett with
        | some a => if a.proxy_grant = true then some a else none
        | none => none := by
    intro d
    unfold find_user lookup_entry
    simp only [hgate, hnone, hanon]
    rfl
  constructor
  · intro r
    rw [hval]
    cases hl : lookup_entry env udb "" host sett with
    | none => simp
    | some a =>
      by_cases hp : a.proxy_grant = true
      · simp only [hp, if_true, Option.some.injEq]
        constructor
        · intro h; rw [← h]; exact ⟨rfl, hp⟩
        · intro h; exact h.1
      · simp only [hp, Option.some.injEq]
        constructor
        · intro h; simp at h
        · rintro ⟨h1, h2⟩; rw [h1] at hp; exact absurd h2 hp
  · intro other_db
    rw [hval, hval]

/-- Scenario of C9: with `users[""] = [("", "%", proxy_grant = true)]` the lookup
("eve", "1.2.3.4", "") returns the anonymous entry, and with `proxy_grant = false` it
returns none. -/
theorem find_user_anonymous_fallback_witness :
    find_user spec_env anon_proxy_db "eve" "1.2.3.4" "" sett_anon = some anon_proxy
      ∧ find_user spec_env anon_no_proxy_db "eve" "1.2.3.4" "" sett_anon = none
      ∧ ((∀ r : UserEntry, find_user spec_env anon_proxy_db "eve" "1.2.3.4" "" sett_anon = some r ↔
            lookup_entry spec_env anon_proxy_db "" "1.2.3.4" sett_anon = some r
              ∧ r.proxy_grant = true)
          ∧ ∀ other_db : String,
              find_user spec_env anon_proxy_db "eve" "1.2.3.4" other_db sett_anon
                = find_user spec_env anon_proxy_db "eve" "1.2.3.4" "" sett_anon) :=
  ⟨by decide, by decide,
    find_user_anonymous_fallback spec_env anon_proxy_db "eve" "1.2.3.4" "" sett_anon
      (Or.inr (by decide)) (by decide) rfl⟩

/-- C9 as stated fails for a blocked root: no entry is found for "root", the anonymous
user is allowed and the anonymous entry exists with a proxy grant, yet `find_user`
returns none. -/
theorem find_user_anonymous_not_for_blocked_root :
    lookup_entry spec_env anon_proxy_db "root" "1.2.3.4" sett_anon = none
      ∧ sett_anon.allow_anon_user = true
      ∧ lookup_entry spec_env anon_proxy_db "" "1.2.3.4" sett_anon = some anon_proxy
      ∧ anon_proxy.proxy_grant = true
      ∧ find_user spec_env anon_proxy_db "root" "1.2.3.4" "" sett_anon = none := by
  refine ⟨by decide, rfl, by decide, rfl, by decide⟩

lemma find_entry_loop_mem (env : HostEnv) (host : String) (mode : HostPatternMode)
    (l : EntryList) (r : UserEntry) (h : find_entry_loop env host mode l = some r) : r ∈ l := by
  obtain ⟨pre, post, hl, _, _⟩ := (find_entry_loop_eq_some env host mode l r).mp h
  rw [hl]
  simp

lemma lookup_entry_username (env : HostEnv) (udb : UserDatabase) (hfiled : FiledByUsername udb)
    (user host : String) (sett : UserSearchSettings) (r : UserEntry)
    (h : lookup_entry env udb user host sett = some r) : r.username = user := by
  unfold lookup_entry find_entry find_entry_user find_entry_mode at h
  cases hlk : udb.m_users.lookup user with
  | none => simp [hlk] at h
  | some l =>
    simp only [hlk] at h
    cases hm : sett.match_host_pattern with
    | true =>
      simp only [hm, if_true] at h
      exact hfiled user l hlk r (find_entry_loop_mem _ _ _ _ _ h)
    | false =>
      simp only [hm] at h
      exact hfiled user l hlk r (find_entry_loop_mem _ _ _ _ _ h)

lemma find_user_no_anon_nonempty_user (env : HostEnv) (udb : UserDatabase)
    (hfiled : FiledByUsername udb) (user host requested_db : String)
    (sett : UserSearchSettings) (hanon : sett.allow_anon_user = false) (huser : user ≠ "")
    (r : UserEntry) (h : find_user env udb user host requested_db sett = some r) :
    r.username ≠ "" := by
  unfold find_user at h
  by_cases hgate : (!sett.allow_root_user && decide (user = "root")) = true
  · simp [hgate] at h
  · simp only [hgate] at h
    cases hl : lookup_entry env udb user host sett with
    | none =>
      unfold lookup_entry at hl
      simp [hl, hanon] at h
    | some e =>
      have hname := lookup_entry_username env udb hfiled user host sett e hl
      unfold lookup_entry at hl
      simp only [hl] at h
      by_cases hc : check_database_access udb e requested_db sett.case_sensitive_db = true
      · simp [hc] at h
        rw [← h, hname]
        exact huser
      · simp [hc] at h

/-- C10 at the failing input: with `allow_anon_user = false`, the lookup of the empty user
name from 1.2.3.4 in the database `users[""] = [("", "%")]` returns the anonymous entry,
whose username is empty, although it has no proxy grant. -/
theorem find_user_empty_name_returns_anonymous :
    sett_no_anon.allow_anon_user = false
      ∧ find_user spec_env anon_no_proxy_db "" "1.2.3.4" "" sett_no_anon = some anon_no_proxy
      ∧ anon_no_proxy.username = ""
      ∧ anon_no_proxy.proxy_grant = false := by
  refine ⟨rfl, by decide, rfl, rfl⟩

lemma find_entry_loop_skip (env : HostEnv) (host : String) (l : EntryList) :
    find_entry_loop env host HostPatternMode.SKIP l = l.find? (fun e => !e.is_role) := by
  induction l with
  | nil => rfl
  | cons e rest ih =>
    rw [find_entry_loop_cons, List.find?_cons]
    cases he : e.is_role with
    | true => simpa using ih
    | false => simp

lemma find_entry_user_eq (env : HostEnv) (udb : UserDatabase) (user : String) :
    find_entry_user env udb user
      = (udb.m_users.lookup user).bind (fun l => l.find? (fun e => !e.is_role)) := by
  unfold find_entry_user find_entry_mode
  cases hlk : udb.m_users.lookup user with
  | none => simp
  | some l => simp [find_entry_loop_skip]

/-- C11: with `match_host_pattern = false` the client address is ignored: `find_user`
returns the same result for any two hosts, the entry it considers is the first non-role
entry of the list of the user, and unless the root rule applies its result is that entry
when `check_database_access` accepts it and none otherwise. -/
theorem find_user_ignores_host (env : HostEnv) (udb : UserDatabase)
    (user h1 h2 requested_db : String) (sett : UserSearchSettings)
    (hm : sett.match_host_pattern = false) :
    find_user env udb user h1 requested_db sett = find_user env udb user h2 requested_db sett
      ∧ lookup_entry env udb user h1 sett
          = (udb.m_users.lookup user).bind (fun l => l.find? (fun e => !e.is_role))
      ∧ ∀ e : UserEntry,
          (udb.m_users.lookup user).bind (fun l => l.find? (fun e => !e.is_role)) = some e →
          ¬ (sett.allow_root_user = false ∧ user = "root") →
          find_user env udb user h1 requested_db sett
            = if check_database_access udb e requested_db sett.case_sensitive_db = true then
                some e
              else none := by
  refine ⟨?_, ?_, ?_⟩
  · unfold find_user
    simp [hm]
  · unfold lookup_entry
    simp [hm, find_entry_user_eq]
  · intro e he hroot
    have hgate : (!sett.allow_root_user && decide (user = "root")) = false := by
      cases hr : sett.allow_root_user with
      | true => simp
      | false =>
        have : user ≠ "root" := fun hu => hroot ⟨hr, hu⟩
        simp [this]
    rw [← find_entry_user_eq env] at he
    unfold find_user
    simp only [hgate, hm, he]
    rfl

/-- Scenario of C11: with the entries ("bob","10.0.0.5") and ("bob","%") and host
matching switched off, a lookup from 10.0.0.6 and a lookup from a text that is no address
both return the first entry of the list. -/
theorem find_user_ignores_host_witness :
    sett_no_host.match_host_pattern = false
      ∧ find_user spec_env bob_db_literal_first "bob" "10.0.0.6" "" sett_no_host
          = some bob_literal
      ∧ (find_user spec_env bob_db_literal_first "bob" "10.0.0.6" "" sett_no_host
            = find_user spec_env bob_db_literal_first "bob" "nowhere" "" sett_no_host
          ∧ lookup_entry spec_env bob_db_literal_first "bob" "10.0.0.6" sett_no_host
              = (bob_db_literal_first.m_users.lookup "bob").bind
                  (fun l => l.find? (fun e => !e.is_role))
          ∧ ∀ e : UserEntry,
              (bob_db_literal_first.m_users.lookup "bob").bind
                  (fun l => l.find? (fun e => !e.is_role)) = some e →
              ¬ (sett_no_host.allow_root_user = false ∧ "bob" = "root") →
              find_user spec_env bob_db_literal_first "bob" "10.0.0.6" "" sett_no_host
                = if check_database_access bob_db_literal_first e ""
                      sett_no_host.case_sensitive_db = true then some e
                  else none) :=
  ⟨rfl, by decide,
    find_user_ignores_host spec_env bob_db_literal_first "bob" "10.0.0.6" "nowhere" ""
      sett_no_host rfl⟩

/-! ## The packet parser -/

lemma uint8_toNat_lt (b : UInt8) : b.toNat < 256 := UInt8.toNat_lt_size b

lemma read_range_of_le (data : ByteVec) (off n : Nat) (h : off + n ≤ data.length) :
    read_range data off n = some ((data.drop off).take n) := by
  unfold read_range
  rw [if_pos h]

lemma pop_front_of_le (data : ByteVec) (len : Nat) (h : len ≤ data.length) :
    pop_front data len = some (data.drop len) := by
  unfold pop_front
  rw [if_pos h]

lemma auth_token_header_secure (env : WireEnv) (b : UInt8) (rest : ByteVec) (caps : Nat)
    (hsec : caps &&& env.GW_MYSQL_CAPABILITIES_SECURE_CONNECTION ≠ 0)
    (hlen : caps &&& env.GW_MYSQL_CAPABILITIES_AUTH_LENENC_DATA = 0) :
    auth_token_header env (b :: rest) caps = (false, 1, b.toNat, false) := by
  unfold auth_token_header
  simp [hlen, hsec]

lemma auth_token_header_old (env : WireEnv) (data : ByteVec) (caps : Nat)
    (hsec : caps &&& env.GW_MYSQL_CAPABILITIES_SECURE_CONNECTION = 0)
    (hlen : caps &&& env.GW_MYSQL_CAPABILITIES_AUTH_LENENC_DATA = 0) :
    auth_token_header env data caps = (true, 0, 0, true) := by
  unfold auth_token_header
  simp [hlen, hsec]

lemma parse_auth_token_secure_eq (env : WireEnv) (b : UInt8) (rest : ByteVec) (caps : Nat)
    (hsec : caps &&& env.GW_MYSQL_CAPABILITIES_SECURE_CONNECTION ≠ 0)
    (hlen : caps &&& env.GW_MYSQL_CAPABILITIES_AUTH_LENENC_DATA = 0) :
    parse_auth_token env (b :: rest) caps
      = if 1 + b.toNat ≤ (b :: rest).length then
          some ({ success := true, auth_token := ((b :: rest).drop 1).take b.toNat,
                  old_protocol := false }, (b :: rest).drop (1 + b.toNat))
        else some ({ success := false, auth_token := [], old_protocol := false }, b :: rest) := by
  have hb := uint8_toNat_lt b
  have hmod : (1 + b.toNat) % uint64_size = 1 + b.toNat := by
    unfold uint64_size
    omega
  unfold parse_auth_token
  rw [auth_token_header_secure env b rest caps hsec hlen]
  simp only [reduceCtorEq, if_false, Bool.not_false, if_true, hmod]
  by_cases hfit : 1 + b.toNat ≤ (b :: rest).length
  · rw [if_pos hfit, if_pos hfit, pop_front_of_le _ _ hfit]
    by_cases hpos : b.toNat > 0
    · rw [if_pos hpos, read_range_of_le _ _ _ hfit]
    · have hz : b.toNat = 0 := by omega
      rw [if_neg hpos, hz]
      simp
  · rw [if_neg hfit, if_neg hfit]

/-- C14: with SECURE_CONNECTION set and AUTH_LENENC_DATA clear, `parse_auth_token` on a
non-empty buffer `b` succeeds if and only if `1 + b[0] <= len(b)`; on success the token
is `b[1 .. 1+b[0])` and the remaining buffer is `b[1+b[0] ..]`, on failure the token is
empty and the buffer is unchanged; `old_protocol` is false either way. -/
theorem parse_auth_token_secure_connection (env : WireEnv) (b0 : UInt8) (rest : ByteVec)
    (client_caps : Nat)
    (hsec : client_caps &&& env.GW_MYSQL_CAPABILITIES_SECURE_CONNECTION ≠ 0)
    (hlen : client_caps &&& env.GW_MYSQL_CAPABILITIES_AUTH_LENENC_DATA = 0) :
    parse_auth_token env (b0 :: rest) client_caps
      = if 1 + b0.toNat ≤ (b0 :: rest).length then
          some ({ success := true, auth_token := ((b0 :: rest).drop 1).take b0.toNat,
                  old_protocol := false }, (b0 :: rest).drop (1 + b0.toNat))
        else
          some ({ success := false, auth_token := [], old_protocol := false }, b0 :: rest) :=
  parse_auth_token_secure_eq env b0 rest client_caps hsec hlen

/-- Scenario of C14: a length byte 3 followed by four bytes gives the token of three
bytes and leaves one byte; followed by two bytes only, the call fails and leaves the
buffer as it was. -/
theorem parse_auth_token_secure_connection_witness :
    parse_auth_token spec_wire [3, 1, 2, 3, 4] scenario_caps
        = some ({ success := true, auth_token := [1, 2, 3], old_protocol := false }, [4])
      ∧ parse_auth_token spec_wire [3, 1, 2] scenario_caps
        = some ({ success := false, auth_token := [], old_protocol := false }, [3, 1, 2]) :=
  ⟨(parse_auth_token_secure_connection spec_wire 3 [1, 2, 3, 4] scenario_caps (by decide)
      (by decide)).trans (by decide),
    (parse_auth_token_secure_connection spec_wire 3 [1, 2] scenario_caps (by decide)
      (by decide)).trans (by decide)⟩

/-- C15, as amended: with neither AUTH_LENENC_DATA nor SECURE_CONNECTION set,
`parse_auth_token` on a non-empty buffer fails with `old_protocol = true`, returns an
empty token and leaves the buffer unchanged. -/
theorem parse_auth_token_old_protocol (env : WireEnv) (data : ByteVec) (client_caps : Nat)
    (hne : data ≠ [])
    (hsec : client_caps &&& env.GW_MYSQL_CAPABILITIES_SECURE_CONNECTION = 0)
    (hlen : client_caps &&& env.GW_MYSQL_CAPABILITIES_AUTH_LENENC_DATA = 0) :
    parse_auth_token env data client_caps
      = some ({ success := false, auth_token := [], old_protocol := true }, data) := by
  unfold parse_auth_token
  rw [auth_token_header_old env data client_caps hsec hlen]
  simp [hne]

/-- Scenario of C15: a buffer of one byte parsed with no capability bit set. -/
theorem parse_auth_token_old_protocol_witness :
    parse_auth_token spec_wire [1] 0
      = some ({ success := false, auth_token := [], old_protocol := true }, [1]) :=
  parse_auth_token_old_protocol spec_wire [1] 0 (by decide) (by decide) (by decide)

/-- C15 as stated fails on the empty buffer: with neither capability bit set the call
fails, but `old_protocol` is false. -/
theorem parse_auth_token_empty_buffer_not_old_protocol :
    (0 : Nat) &&& spec_wire.GW_MYSQL_CAPABILITIES_SECURE_CONNECTION = 0
      ∧ (0 : Nat) &&& spec_wire.GW_MYSQL_CAPABILITIES_AUTH_LENENC_DATA = 0
      ∧ parse_auth_token spec_wire [] 0
        = some ({ success := false, auth_token := [], old_protocol := false }, []) := by
  refine ⟨by decide, by decide, by decide⟩

lemma read_stringz_append (u rest : ByteVec) (hu : (0 : UInt8) ∉ u) :
    read_stringz (u ++ 0 :: rest) = some u := by
  unfold read_stringz
  have hmem : (0 : UInt8) ∈ u ++ 0 :: rest := by simp
  rw [if_pos hmem]
  congr 1
  rw [List.takeWhile_append_of_pos]
  · simp [List.takeWhile_cons]
  · intro a ha
    have : a ≠ 0 := fun h => hu (h ▸ ha)
    simpa using this

lemma pop_front_append (u rest : ByteVec) :
    pop_front (u ++ 0 :: rest) (u.length + 1) = some rest := by
  rw [pop_front_of_le _ _ (by simp)]
  congr 1
  have h : u ++ 0 :: rest = (u ++ [0]) ++ rest := by simp
  rw [h, List.drop_left' (by simp)]

lemma read_stringz_if_cap_set (u rest : ByteVec) (caps required : Nat)
    (hu : (0 : UInt8) ∉ u) (hcap : caps &&& required ≠ 0) :
    read_stringz_if_cap (u ++ 0 :: rest) caps required = some ((true, u), rest) := by
  unfold read_stringz_if_cap
  have hne : u ++ 0 :: rest ≠ [] := by simp
  rw [if_pos hcap, if_pos hne, read_stringz_append u rest hu]
  simp only [pop_front_append]

lemma read_stringz_if_cap_clear (data : ByteVec) (caps required : Nat)
    (hcap : caps &&& required = 0) :
    read_stringz_if_cap data caps required = some ((true, []), data) := by
  unfold read_stringz_if_cap
  simp [hcap]

lemma parse_attributes_clear (env : WireEnv) (data : ByteVec) (caps : Nat) (hne : data ≠ [])
    (hcap : caps &&& env.GW_MYSQL_CAPABILITIES_CONNECT_ATTRS = 0) :
    parse_attributes env data caps = some ({ success := true, attr_data := [] }, data) := by
  unfold parse_attributes
  simp [hne, hcap]

/-- C16: for every username `u` and schema `d` without a zero byte and every token `t` of
at most 255 bytes, parsing `u ++ [0] ++ [len t] ++ t ++ d ++ [0] ++ [0]` with
SECURE_CONNECTION and CONNECT_WITH_DB set and AUTH_LENENC_DATA, PLUGIN_AUTH and
CONNECT_ATTRS clear succeeds with username `u`, token `t`, schema `d`, an empty plugin
name and no attribute data; the sentinel byte is what remains of the buffer. -/
theorem parse_client_response_round_trip (env : WireEnv) (u d t : ByteVec)
    (client_caps : Nat) (hu : (0 : UInt8) ∉ u) (hd : (0 : UInt8) ∉ d)
    (ht : t.length ≤ 255)
    (hsec : client_caps &&& env.GW_MYSQL_CAPABILITIES_SECURE_CONNECTION ≠ 0)
    (hdb : client_caps &&& env.GW_MYSQL_CAPABILITIES_CONNECT_WITH_DB ≠ 0)
    (hlen : client_caps &&& env.GW_MYSQL_CAPABILITIES_AUTH_LENENC_DATA = 0)
    (hplugin : client_caps &&& env.GW_MYSQL_CAPABILITIES_PLUGIN_AUTH = 0)
    (hattr : client_caps &&& env.GW_MYSQL_CAPABILITIES_CONNECT_ATTRS = 0) :
    parse_client_response env
        (u ++ [0] ++ [UInt8.ofNat t.length] ++ t ++ d ++ [0] ++ [0]) client_caps
      = some ({ success := true, username := u, db := d, plugin := [],
                token_res := { success := true, auth_token := t, old_protocol := false },
                attr_res := { success := true, attr_data := [] } }, [0]) := by
  have hbuf : u ++ [0] ++ [UInt8.ofNat t.length] ++ t ++ d ++ [0] ++ [0]
      = u ++ 0 :: (UInt8.ofNat t.length :: (t ++ (d ++ 0 :: [0]))) := by
    simp
  have hlenbyte : (UInt8.ofNat t.length).toNat = t.length := by
    simp [UInt8.toNat, UInt8.ofNat, Fin.ofNat]
    omega
  have htoken : parse_auth_token env (UInt8.ofNat t.length :: (t ++ (d ++ 0 :: [0])))
      client_caps
      = some ({ success := true, auth_token := t, old_protocol := false },
          d ++ 0 :: [0]) := by
    rw [parse_auth_token_secure_eq env _ _ client_caps hsec hlen, hlenbyte]
    have hfit : 1 + t.length
        ≤ (UInt8.ofNat t.length :: (t ++ (d ++ 0 :: [0]))).length := by
      simp
      omega
    rw [if_pos hfit]
    have h1 : List.take t.length
        (List.drop 1 (UInt8.ofNat t.length :: (t ++ (d ++ 0 :: [0])))) = t := by
      simp
    have h2 : List.drop (1 + t.length)
        (UInt8.ofNat t.length :: (t ++ (d ++ 0 :: [0]))) = d ++ 0 :: [0] := by
      rw [Nat.add_comm, List.drop_succ_cons, List.drop_left]
    rw [h1, h2]
  rw [hbuf]
  unfold parse_client_response
  simp only [read_stringz_append u _ hu, pop_front_append, htoken, if_true,
    read_stringz_if_cap_set d [0] client_caps _ hd hdb,
    read_stringz_if_cap_clear [0] client_caps _ hplugin,
    parse_attributes_clear env [0] client_caps (by simp) hattr, Bool.and_self]

/-- Scenario of C16: the username "fred", a token of 20 bytes and the schema "prod",
parsed with CLIENT_PROTOCOL_41, SECURE_CONNECTION and CONNECT_WITH_DB. -/
theorem parse_client_response_round_trip_witness :
    parse_client_response spec_wire
        (fred_bytes ++ [0] ++ [UInt8.ofNat token20.length] ++ token20 ++ prod_bytes ++ [0]
          ++ [0]) scenario_caps
      = some ({ success := true, username := fred_bytes, db := prod_bytes, plugin := [],
                token_res := { success := true, auth_token := token20,
                               old_protocol := false },
                attr_res := { success := true, attr_data := [] } }, [0]) :=
  parse_client_response_round_trip spec_wire fred_bytes prod_bytes token20 scenario_caps
    (by decide) (by decide) (by decide) (by decide) (by decide) (by decide) (by decide)
    (by decide)

lemma gw_mysql_get_byte4_of_le (l : ByteVec) (h : 4 ≤ l.length) :
    gw_mysql_get_byte4 l
      = some ((l.getD 0 0).toNat + (l.getD 1 0).toNat * 256 + (l.getD 2 0).toNat * 65536
          + (l.getD 3 0).toNat * 16777216) := by
  match l, h with
  | b0 :: b1 :: b2 :: b3 :: rest, _ => simp [gw_mysql_get_byte4]

/-- C18: on a buffer of at least 32 bytes `parse_client_capabilities` returns a capability
word equal to the old capabilities (0 when `old_info` is null) OR the little-endian 32-bit
value of bytes 0..3, so every bit of the old capabilities stays set; the charset is byte
8; exactly 32 bytes are removed from the front and the rest of the buffer is unchanged. -/
theorem parse_client_capabilities_ok (env : WireEnv) (data : ByteVec)
    (old_info : Option ClientInfo) (hsize : 32 ≤ data.length) :
    ∃ info : ClientInfo,
      parse_client_capabilities env data old_info = some (info, data.drop 32)
        ∧ info.m_client_capabilities
            = old_capabilities old_info
              ||| ((data.getD 0 0).toNat + (data.getD 1 0).toNat * 256
                + (data.getD 2 0).toNat * 65536 + (data.getD 3 0).toNat * 16777216)
        ∧ (∀ i : Nat, (old_capabilities old_info).testBit i = true →
            info.m_client_capabilities.testBit i = true)
        ∧ info.m_charset = (data.getD 8 0).toNat := by
  have h4 := gw_mysql_get_byte4_of_le data (by omega)
  have h28 := gw_mysql_get_byte4_of_le (data.drop 28) (by rw [List.length_drop]; omega)
  have h8 : data[8]? = some (data.getD 8 0) := by
    rw [List.getD_eq_getElem?_getD, List.getElem?_eq_getElem (by omega)]
    rfl
  have hpop := pop_front_of_le data 32 hsize
  have hold : (match old_info with
      | some info => info
      | none => ({} : ClientInfo)).m_client_capabilities = old_capabilities old_info := by
    cases old_info <;> rfl
  unfold parse_client_capabilities
  simp only [h4, h8, hpop]
  split_ifs with hbit
  · simp only [h28]
    refine ⟨_, rfl, ?_, ?_, rfl⟩
    · simp only [hold]
    · intro i hi
      simp only [hold, Nat.testBit_lor, hi, Bool.true_or]
  · refine ⟨_, rfl, ?_, ?_, rfl⟩
    · simp only [hold]
    · intro i hi
      simp only [hold, Nat.testBit_lor, hi, Bool.true_or]

/-- Scenario of C18: a buffer of 36 bytes with the capability word 0x0000a208 and the
charset 33, parsed on top of stored capabilities 0x800: the word becomes 0xaa08, the
charset 33, and the last four bytes remain. -/
theorem parse_client_capabilities_ok_witness :
    32 ≤ caps_packet.length
      ∧ parse_client_capabilities spec_wire caps_packet
          (some { m_client_capabilities := 2048, m_extra_capabilities := 0, m_charset := 0 })
        = some ({ m_client_capabilities := 43528, m_extra_capabilities := 0,
                  m_charset := 33 }, [1, 2, 3, 4])
      ∧ ∃ info : ClientInfo,
          parse_client_capabilities spec_wire caps_packet none
              = some (info, caps_packet.drop 32)
            ∧ info.m_client_capabilities
                = old_capabilities none
                  ||| ((caps_packet.getD 0 0).toNat + (caps_packet.getD 1 0).toNat * 256
                    + (caps_packet.getD 2 0).toNat * 65536
                    + (caps_packet.getD 3 0).toNat * 16777216)
            ∧ (∀ i : Nat, (old_capabilities none).testBit i = true →
                info.m_client_capabilities.testBit i = true)
            ∧ info.m_charset = (caps_packet.getD 8 0).toNat :=
  ⟨by decide, by decide, parse_client_capabilities_ok spec_wire caps_packet none (by decide)⟩

lemma auth_token_header_lenenc (env : WireEnv) (data : ByteVec) (caps : Nat)
    (hcap : caps &&& env.GW_MYSQL_CAPABILITIES_AUTH_LENENC_DATA ≠ 0) :
    auth_token_header env data caps
      = if env.leint_bytes data % uint64_size ≤ data.length then
          (false, env.leint_bytes data % uint64_size, env.leint_value data % uint64_size,
            false)
        else (true, env.leint_bytes data % uint64_size, 0, false) := by
  unfold auth_token_header
  simp [hcap]

lemma parse_auth_token_lenenc_header_too_long (env : WireEnv) (data : ByteVec) (caps : Nat)
    (hne : data ≠ []) (hcap : caps &&& env.GW_MYSQL_CAPABILITIES_AUTH_LENENC_DATA ≠ 0)
    (hk : ¬ env.leint_bytes data % uint64_size ≤ data.length) :
    parse_auth_token env data caps
      = some ({ success := false, auth_token := [], old_protocol := false }, data) := by
  unfold parse_auth_token
  rw [auth_token_header_lenenc env data caps hcap, if_neg hk]
  simp [hne]

lemma parse_auth_token_lenenc_no_wrap (env : WireEnv) (data : ByteVec) (caps : Nat)
    (hne : data ≠ []) (hcap : caps &&& env.GW_MYSQL_CAPABILITIES_AUTH_LENENC_DATA ≠ 0)
    (hk : env.leint_bytes data % uint64_size ≤ data.length)
    (hnw : env.leint_bytes data % uint64_size + env.leint_value data % uint64_size
      < uint64_size) :
    parse_auth_token env data caps
      = if env.leint_bytes data % uint64_size + env.leint_value data % uint64_size
            ≤ data.length then
          some ({ success := true,
                  auth_token := (data.drop (env.leint_bytes data % uint64_size)).take
                    (env.leint_value data % uint64_size),
                  old_protocol := false },
            data.drop (env.leint_bytes data % uint64_size
              + env.leint_value data % uint64_size))
        else some ({ success := false, auth_token := [], old_protocol := false }, data) := by
  unfold parse_auth_token
  rw [auth_token_header_lenenc env data caps hcap, if_pos hk]
  simp only [hne, if_false, Bool.not_false, if_true, Nat.mod_eq_of_lt hnw]
  generalize env.leint_bytes data % uint64_size = k at hk hnw ⊢
  generalize env.leint_value data % uint64_size = n at hnw ⊢
  by_cases hfit : k + n ≤ data.length
  · rw [if_pos hfit, if_pos hfit, pop_front_of_le _ _ hfit]
    by_cases hpos : n > 0
    · rw [if_pos hpos, read_range_of_le _ _ _ hfit]
    · have hz : n = 0 := by omega
      rw [if_neg hpos, hz]
      simp
  · rw [if_neg hfit, if_neg hfit]

lemma parse_attributes_no_wrap (env : WireEnv) (data : ByteVec) (caps : Nat)
    (hne : data ≠ []) (hcap : caps &&& env.GW_MYSQL_CAPABILITIES_CONNECT_ATTRS ≠ 0)
    (hnw : env.leint_bytes data % uint64_size + env.leint_value data % uint64_size
      < uint64_size) :
    parse_attributes env data caps
      = if env.leint_bytes data % uint64_size ≤ data.length
            ∧ env.leint_bytes data % uint64_size + env.leint_value data % uint64_size
              ≤ data.length then
          some ({ success := true,
                  attr_data := data.take (env.leint_bytes data % uint64_size
                    + env.leint_value data % uint64_size) },
            data.drop (env.leint_bytes data % uint64_size
              + env.leint_value data % uint64_size))
        else some ({ success := false, attr_data := [] }, data) := by
  have hpos : data.length > 0 := List.length_pos.mpr hne
  unfold parse_attributes
  simp only [hne, if_false, hcap, ne_eq, not_false_eq_true, if_true, hpos,
    Nat.mod_eq_of_lt hnw]
  generalize env.leint_bytes data % uint64_size = k at hnw ⊢
  generalize env.leint_value data % uint64_size = n at hnw ⊢
  by_cases hk : k ≤ data.length
  · by_cases hfit : k + n ≤ data.length
    · rw [if_pos hk, if_pos hfit, if_pos ⟨hk, hfit⟩, read_range_of_le _ _ _ (by omega),
        pop_front_of_le _ _ hfit]
      simp
    · rw [if_pos hk, if_neg hfit, if_neg (fun h => hfit h.2)]
  · rw [if_neg hk, if_neg (fun h => hk h.1)]

lemma zero_terminated_drop (data : ByteVec) (n : Nat) (h : ZeroTerminated data) :
    ZeroTerminated (data.drop n) := by
  unfold ZeroTerminated at h ⊢
  rcases h with h | h
  · left; rw [h]; simp
  · by_cases hn : data.length ≤ n
    · left; exact List.drop_eq_nil_iff.mpr hn
    · right; rw [List.getLast?_drop, if_neg hn]; exact h

lemma zero_mem_of_terminated (data : ByteVec) (h : ZeroTerminated data) (hne : data ≠ []) :
    (0 : UInt8) ∈ data := by
  rcases h with h | h
  · exact absurd h hne
  · exact List.mem_of_getLast?_eq_some h

lemma takeWhile_length_lt (data : ByteVec) (h : (0 : UInt8) ∈ data) :
    (data.takeWhile (fun b => decide (b ≠ 0))).length < data.length := by
  induction data with
  | nil => cases h
  | cons x xs ih =>
    rw [List.takeWhile_cons]
    by_cases hx : x = 0
    · simp [hx]
    · have hmem : (0 : UInt8) ∈ xs := by
        rcases List.mem_cons.mp h with h1 | h1
        · exact absurd h1.symm hx
        · exact h1
      have hp : decide (x ≠ 0) = true := by simpa using hx
      have := ih hmem
      rw [if_pos hp]
      simp only [List.length_cons]
      omega

lemma read_stringz_pop_defined (data : ByteVec) (h : (0 : UInt8) ∈ data) :
    ∃ str, read_stringz data = some str
      ∧ pop_front data (str.length + 1) = some (data.drop (str.length + 1)) := by
  refine ⟨data.takeWhile (fun b => decide (b ≠ 0)), ?_, ?_⟩
  · unfold read_stringz
    rw [if_pos h]
  · exact pop_front_of_le _ _ (takeWhile_length_lt data h)

lemma read_stringz_if_cap_defined (data : ByteVec) (caps required : Nat)
    (h : ZeroTerminated data) :
    ∃ r n, read_stringz_if_cap data caps required = some (r, data.drop n) := by
  unfold read_stringz_if_cap
  by_cases hcap : caps &&& required ≠ 0
  · rw [if_pos hcap]
    by_cases hne : data ≠ []
    · rw [if_pos hne]
      obtain ⟨str, hs, hp⟩ := read_stringz_pop_defined data (zero_mem_of_terminated data h hne)
      simp only [hs, hp]
      exact ⟨_, _, rfl⟩
    · rw [if_neg hne]
      exact ⟨_, 0, rfl⟩
  · rw [if_neg hcap]
    exact ⟨_, 0, rfl⟩

lemma parse_attributes_defined (env : WireEnv) (data : ByteVec) (caps : Nat) :
    ∃ r n, parse_attributes env data caps = some (r, data.drop n) := by
  unfold parse_attributes
  by_cases hne : data = []
  · rw [if_pos hne]; exact ⟨_, 0, rfl⟩
  · rw [if_neg hne]
    simp only
    split_ifs with h1 h2 h3 h4
    · rw [read_range_of_le _ _ _ (by omega), pop_front_of_le _ _ h4]
      exact ⟨_, _, rfl⟩
    · exact ⟨_, 0, rfl⟩
    · exact ⟨_, 0, rfl⟩
    · exact ⟨_, 0, rfl⟩
    · exact ⟨_, 0, rfl⟩

lemma parse_auth_token_defined_of_no_lenenc (env : WireEnv) (data : ByteVec) (caps : Nat)
    (hlen : caps &&& env.GW_MYSQL_CAPABILITIES_AUTH_LENENC_DATA = 0) :
    ∃ r n, parse_auth_token env data caps = some (r, data.drop n) := by
  cases data with
  | nil => exact ⟨_, 0, rfl⟩
  | cons b rest =>
    by_cases hsec : caps &&& env.GW_MYSQL_CAPABILITIES_SECURE_CONNECTION ≠ 0
    · rw [parse_auth_token_secure_eq env b rest caps hsec hlen]
      split_ifs
      · exact ⟨_, _, rfl⟩
      · exact ⟨_, 0, rfl⟩
    · have hsec0 : caps &&& env.GW_MYSQL_CAPABILITIES_SECURE_CONNECTION = 0 := by
        simpa using hsec
      have hold := auth_token_header_old env (b :: rest) caps hsec0 hlen
      refine ⟨{ success := false, auth_token := [], old_protocol := true }, 0, ?_⟩
      unfold parse_auth_token
      rw [hold]
      simp

lemma parse_client_response_defined_of_no_lenenc (env : WireEnv) (data : ByteVec)
    (caps : Nat) (hlast : data.getLast? = some 0)
    (hlen : caps &&& env.GW_MYSQL_CAPABILITIES_AUTH_LENENC_DATA = 0) :
    ∃ r, parse_client_response env data caps = some r := by
  have hz : ZeroTerminated data := Or.inr hlast
  obtain ⟨username, hs, hp⟩ :=
    read_stringz_pop_defined data (List.mem_of_getLast?_eq_some hlast)
  have hz1 := zero_terminated_drop data (username.length + 1) hz
  obtain ⟨tr, n1, htok⟩ :=
    parse_auth_token_defined_of_no_lenenc env (data.drop (username.length + 1)) caps hlen
  have hz2 := zero_terminated_drop _ n1 hz1
  obtain ⟨dbr, n2, hdb⟩ :=
    read_stringz_if_cap_defined ((data.drop (username.length + 1)).drop n1) caps
      env.GW_MYSQL_CAPABILITIES_CONNECT_WITH_DB hz2
  have hz3 := zero_terminated_drop _ n2 hz2
  obtain ⟨plr, n3, hpl⟩ :=
    read_stringz_if_cap_defined (((data.drop (username.length + 1)).drop n1).drop n2) caps
      env.GW_MYSQL_CAPABILITIES_PLUGIN_AUTH hz3
  obtain ⟨ar, n4, hat⟩ :=
    parse_attributes_defined env
      ((((data.drop (username.length + 1)).drop n1).drop n2).drop n3) caps
  unfold parse_client_response
  simp only [hs, hp, htok, hdb, hpl, hat]
  split_ifs <;> exact ⟨_, rfl⟩

/-- C13 at the failing input: for the nine bytes 0xfe, 0xff x 8 with AUTH_LENENC_DATA set,
the header is 9 bytes wide and holds the value 2^64 - 1, the 64-bit sum of the two is 8,
the test of the total length against the 9 bytes of the buffer passes, and the copy of
the token is given a range outside the buffer. -/
theorem parse_auth_token_lenenc_wraps :
    spec_wire.leint_bytes wrap_header = 9
      ∧ spec_wire.leint_value wrap_header = 18446744073709551615
      ∧ wrap_header.length = 9
      ∧ auth_token_header spec_wire wrap_header
          spec_wire.GW_MYSQL_CAPABILITIES_AUTH_LENENC_DATA
        = (false, 9, 18446744073709551615, false)
      ∧ (9 + 18446744073709551615) % uint64_size = 8
      ∧ read_range wrap_header 9 18446744073709551615 = none
      ∧ parse_auth_token spec_wire wrap_header
          spec_wire.GW_MYSQL_CAPABILITIES_AUTH_LENENC_DATA = none := by
  refine ⟨by decide, by decide, by decide, by decide, by decide, by decide, by decide⟩

/-- C17 at the failing input: for 0xfe, 0xff x 8 followed by two bytes with CONNECT_ATTRS
set, the header is 9 bytes wide and holds the value 2^64 - 1, far more than the 11 bytes
of the buffer, yet the call succeeds, returns the first 8 bytes as attribute data and
removes 8 bytes. -/
theorem parse_attributes_wraps :
    spec_wire.leint_bytes wrap_attrs = 9
      ∧ spec_wire.leint_value wrap_attrs = 18446744073709551615
      ∧ wrap_attrs.length = 11
      ∧ parse_attributes spec_wire wrap_attrs spec_wire.GW_MYSQL_CAPABILITIES_CONNECT_ATTRS
        = some ({ success := true,
                  attr_data := [254, 255, 255, 255, 255, 255, 255, 255] }, [255, 1, 2]) := by
  refine ⟨by decide, by decide, by decide, by decide⟩

/-- C12 at the failing input: a buffer whose last byte is 0, made of the username "a",
the header 0xfe, 0xff x 8 and the sentinel, parsed with AUTH_LENENC_DATA set: the token
copy is given a range outside the buffer. -/
theorem parse_client_response_reads_outside :
    wrap_response.getLast? = some 0
      ∧ read_stringz wrap_response = some [97]
      ∧ pop_front wrap_response 2 = some (wrap_header ++ [0])
      ∧ parse_auth_token spec_wire (wrap_header ++ [0])
          spec_wire.GW_MYSQL_CAPABILITIES_AUTH_LENENC_DATA = none
      ∧ parse_client_response spec_wire wrap_response
          spec_wire.GW_MYSQL_CAPABILITIES_AUTH_LENENC_DATA = none := by
  refine ⟨by decide, by decide, by decide, by decide, by decide⟩

/-! ## Matching an address against a host pattern -/

lemma address_matches_unknown_addr (env : HostEnv) (a p : String)
    (ha : parse_address_type env a = AddrType.UNKNOWN) :
    address_matches_host_pattern env a p = false := by
  unfold address_matches_host_pattern
  simp [ha]

lemma address_matches_address_eq (env : HostEnv) (a p : String)
    (hp : parse_pattern_type env p = PatternType.ADDRESS)
    (ha : parse_address_type env a ≠ AddrType.UNKNOWN) :
    address_matches_host_pattern env a p
      = if like env p a = true then true
        else if parse_address_type env a = AddrType.MAPPED then like env p (after_last_colon a)
        else false := by
  unfold address_matches_host_pattern after_last_colon
  simp only [ha, if_false, hp]

lemma address_matches_mask_eq (env : HostEnv) (a p : String)
    (hp : parse_pattern_type env p = PatternType.MASK)
    (ha : parse_address_type env a ≠ AddrType.UNKNOWN) :
    address_matches_host_pattern env a p
      = if (if parse_address_type env a = AddrType.IPV4 then a
            else if parse_address_type env a = AddrType.MAPPED then after_last_colon a
            else "") ≠ "" then
          decide (Nat.land
            (ip_to_integer env
              (if parse_address_type env a = AddrType.IPV4 then a
                else if parse_address_type env a = AddrType.MAPPED then after_last_colon a
                else ""))
            (ip_to_integer env (mask_netmask p)) = ip_to_integer env (mask_base p))
        else false := by
  unfold address_matches_host_pattern after_last_colon mask_base mask_netmask
  simp only [ha, if_false, hp]
  cases str_find_char p.data '/' <;> rfl

/-- C20: for a pattern classified ADDRESS and a client address of known type,
`address_matches_host_pattern` is true if and only if LIKE(pattern, address) holds, or the
address is IPv4-mapped and LIKE(pattern, t) holds for `t` the text of the address after
its last colon; LIKE is `sql_strlike` with the backslash as escape character. -/
theorem address_pattern_matches_iff (env : HostEnv) (addr host_pattern : String)
    (hp : parse_pattern_type env host_pattern = PatternType.ADDRESS)
    (ha : parse_address_type env addr ≠ AddrType.UNKNOWN) :
    address_matches_host_pattern env addr host_pattern = true ↔
      like env host_pattern addr = true
        ∨ (parse_address_type env addr = AddrType.MAPPED
          ∧ like env host_pattern (after_last_colon addr) = true) := by
  rw [address_matches_address_eq env addr host_pattern hp ha]
  by_cases h1 : like env host_pattern addr = true
  · simp [h1]
  · by_cases h2 : parse_address_type env addr = AddrType.MAPPED
    · simp [h1, h2]
    · simp [h1, h2]

/-- Scenario of C20: the pattern 192.168.1.1 matches the address ::ffff:192.168.1.1
through the text after its last colon, and does not match it as a whole. -/
theorem address_pattern_matches_iff_witness :
    address_matches_host_pattern spec_env "::ffff:192.168.1.1" "192.168.1.1" = true
      ∧ like spec_env "192.168.1.1" "::ffff:192.168.1.1" = false
      ∧ after_last_colon "::ffff:192.168.1.1" = "192.168.1.1"
      ∧ (address_matches_host_pattern spec_env "::ffff:192.168.1.1" "192.168.1.1" = true ↔
          like spec_env "192.168.1.1" "::ffff:192.168.1.1" = true
            ∨ (parse_address_type spec_env "::ffff:192.168.1.1" = AddrType.MAPPED
              ∧ like spec_env "192.168.1.1" (after_last_colon "::ffff:192.168.1.1") = true)) :=
  ⟨by decide, by decide, by decide,
    address_pattern_matches_iff spec_env "::ffff:192.168.1.1" "192.168.1.1" (by decide)
      (by decide)⟩

lemma str_find_some (hay needle : List Char) (i : Nat) (h : str_find hay needle = some i) :
    ∃ pre post, hay = pre ++ needle ++ post ∧ pre.length = i := by
  induction hay generalizing i with
  | nil =>
    unfold str_find at h
    by_cases hn : needle.isEmpty = true
    · rw [if_pos hn] at h
      refine ⟨[], [], ?_, by simpa using h⟩
      simp [List.isEmpty_iff.mp hn]
    · rw [if_neg hn] at h; cases h
  | cons c cs ih =>
    unfold str_find at h
    by_cases hp : needle.isPrefixOf (c :: cs) = true
    · rw [if_pos hp] at h
      obtain ⟨post, hpost⟩ := List.isPrefixOf_iff_prefix.mp hp
      exact ⟨[], post, by simpa using hpost.symm, by simpa using h⟩
    · rw [if_neg hp] at h
      cases hrec : str_find cs needle with
      | none => rw [hrec] at h; cases h
      | some j =>
        rw [hrec] at h
        obtain ⟨pre, post, hcs, hlen⟩ := ih j hrec
        refine ⟨c :: pre, post, by rw [hcs]; simp, ?_⟩
        simp only [Option.map_some', Option.some.injEq] at h
        simp only [List.length_cons, hlen]
        exact h

lemma after_last_of_not_mem (l : List Char) (c : Char) (h : c ∉ l) : after_last_of l c = 0 := by
  induction l with
  | nil => rfl
  | cons x xs ih =>
    have hx : x ≠ c := fun he => h (he ▸ List.mem_cons_self _ _)
    have hxs : c ∉ xs := fun hm => h (List.mem_cons_of_mem _ hm)
    simp [after_last_of, ih hxs, hx]

lemma after_last_of_append (pre suf : List Char) (c : Char) (h : c ∉ suf) :
    after_last_of (pre ++ c :: suf) c = pre.length + 1 := by
  induction pre with
  | nil => simp [after_last_of, after_last_of_not_mem suf c h]
  | cons x xs ih =>
    have hstep : ∀ (l : List Char) (n : Nat), after_last_of l c = n + 1 →
        after_last_of (x :: l) c = n + 2 := by
      intro l n hl
      simp [after_last_of, hl]
    exact hstep _ _ ih

lemma parse_address_type_ipv4 (env : HostEnv) (a : String)
    (h : parse_address_type env a = AddrType.IPV4) : env.is_valid_ipv4 a = true := by
  unfold parse_address_type at h
  by_cases hv : env.is_valid_ipv4 a = true
  · exact hv
  · rw [if_neg hv] at h
    simp only at h
    split_ifs at h
    cases hf : str_find a.data ":ffff:".data with
    | none => simp [hf] at h
    | some i =>
      simp only [hf] at h
      split_ifs at h

lemma parse_address_type_mapped (env : HostEnv) (a : String)
    (h : parse_address_type env a = AddrType.MAPPED) :
    ∃ i, str_find a.data ":ffff:".data = some i
      ∧ env.is_valid_ipv4 (substr_from a (i + 6)) = true := by
  unfold parse_address_type at h
  by_cases hv : env.is_valid_ipv4 a = true
  · rw [if_pos hv] at h; cases h
  · rw [if_neg hv] at h
    simp only at h
    cases hf : str_find a.data ":ffff:".data with
    | none =>
      simp only [hf] at h
      split_ifs at h
    | some i =>
      simp only [hf] at h
      refine ⟨i, rfl, ?_⟩
      by_cases hvalid : env.is_valid_ipv4 (substr_from a (i + 6)) = true
      · exact hvalid
      · exfalso
        have h6 : (":ffff:" : String).length = 6 := by decide
        simp only [h6, hvalid] at h
        split_ifs at h
        contradiction

lemma after_last_colon_mapped (env : HostEnv) (a : String)
    (hcolon : ∀ s, env.is_valid_ipv4 s = true → ':' ∉ s.data)
    (h : parse_address_type env a = AddrType.MAPPED) :
    env.is_valid_ipv4 (after_last_colon a) = true := by
  obtain ⟨i, hfind, hvalid⟩ := parse_address_type_mapped env a h
  obtain ⟨pre, post, hsplit, hlen⟩ := str_find_some _ _ i hfind
  have hdata : (":ffff:" : String).data = [':', 'f', 'f', 'f', 'f', ':'] := by decide
  rw [hdata] at hsplit
  have hsplit2 : a.data = (pre ++ [':', 'f', 'f', 'f', 'f']) ++ ':' :: post := by
    rw [hsplit]; simp
  have hdrop : a.data.drop (i + 6) = post := by
    rw [hsplit2, ← hlen]
    have : (pre ++ [':', 'f', 'f', 'f', 'f']) ++ ':' :: post
        = (pre ++ [':', 'f', 'f', 'f', 'f', ':']) ++ post := by simp
    rw [this, List.drop_left' (by simp)]
  have hpost : ':' ∉ post := by
    have := hcolon _ hvalid
    unfold substr_from at this
    simpa [hdrop] using this
  have hidx : after_last_of a.data ':' = i + 6 := by
    rw [hsplit2, after_last_of_append _ _ _ hpost, ← hlen]
    simp
  unfold after_last_colon
  rw [hidx]
  exact hvalid

/-- C19: for a host pattern classified MASK, when the texts accepted as IPv4 literals
are non-empty and hold no colon, `address_matches_host_pattern` is true if and only if
the address is IPv4, or IPv4-mapped with the text after its last colon as its IPv4 part,
and the 32-bit value of that IPv4 text ANDed with the value of the netmask equals the
value of the base; the IPv4 part of a mapped address is itself an IPv4 literal, and an
address of type IPv6 never matches. -/
theorem mask_pattern_matches_iff (env : HostEnv) (addr host_pattern : String)
    (hp : parse_pattern_type env host_pattern = PatternType.MASK)
    (hne : ∀ s, env.is_valid_ipv4 s = true → s ≠ "")
    (hcolon : ∀ s, env.is_valid_ipv4 s = true → ':' ∉ s.data) :
    (address_matches_host_pattern env addr host_pattern = true ↔
        ∃ ipv4 : String,
          ((parse_address_type env addr = AddrType.IPV4 ∧ ipv4 = addr)
            ∨ (parse_address_type env addr = AddrType.MAPPED
              ∧ ipv4 = after_last_colon addr))
          ∧ Nat.land (ip_to_integer env ipv4) (ip_to_integer env (mask_netmask host_pattern))
              = ip_to_integer env (mask_base host_pattern))
      ∧ (parse_address_type env addr = AddrType.MAPPED →
          env.is_valid_ipv4 (after_last_colon addr) = true)
      ∧ (parse_address_type env addr = AddrType.IPV6 →
          address_matches_host_pattern env addr host_pattern = false) := by
  refine ⟨?_, after_last_colon_mapped env addr hcolon, ?_⟩
  · cases hty : parse_address_type env addr with
    | UNKNOWN =>
      rw [address_matches_unknown_addr env addr host_pattern hty]
      simp
    | IPV4 =>
      have hnonempty : addr ≠ "" := hne addr (parse_address_type_ipv4 env addr hty)
      rw [address_matches_mask_eq env addr host_pattern hp (by rw [hty]; simp), hty]
      simp [hnonempty]
    | MAPPED =>
      have hnonempty : after_last_colon addr ≠ "" :=
        hne _ (after_last_colon_mapped env addr hcolon hty)
      rw [address_matches_mask_eq env addr host_pattern hp (by rw [hty]; simp), hty]
      simp [hnonempty]
    | IPV6 =>
      rw [address_matches_mask_eq env addr host_pattern hp (by rw [hty]; simp), hty]
      simp
  · intro hty
    rw [address_matches_mask_eq env addr host_pattern hp (by rw [hty]; simp), hty]
    simp

lemma mem_split_on (sep c : Char) (l : List Char) (hc : c ∈ l) (hsep : c ≠ sep) :
    ∃ g ∈ split_on sep l, c ∈ g := by
  induction l with
  | nil => cases hc
  | cons x xs ih =>
    unfold split_on
    by_cases hx : x = sep
    · rw [if_pos hx]
      have hcx : c ∈ xs := by
        rcases List.mem_cons.mp hc with h | h
        · exact absurd (h.trans hx) hsep
        · exact h
      obtain ⟨g, hg, hcg⟩ := ih hcx
      exact ⟨g, List.mem_cons_of_mem _ hg, hcg⟩
    · rw [if_neg hx]
      cases hs : split_on sep xs with
      | nil =>
        refine ⟨[x], by simp, ?_⟩
        rcases List.mem_cons.mp hc with h | h
        · simp [h]
        · obtain ⟨g, hg, _⟩ := ih h
          rw [hs] at hg; cases hg
      | cons g0 gs =>
        rcases List.mem_cons.mp hc with h | h
        · exact ⟨x :: g0, by simp, by simp [h]⟩
        · obtain ⟨g, hg, hcg⟩ := ih h
          rw [hs] at hg
          rcases List.mem_cons.mp hg with h1 | h1
          · exact ⟨x :: g0, by simp, by rw [← h1]; exact List.mem_cons_of_mem _ hcg⟩
          · exact ⟨g, by simp [h1], hcg⟩

lemma spec_octet_digits (g : List Char) (v : Nat) (h : spec_octet g = some v) :
    ∀ c ∈ g, 48 ≤ c.toNat ∧ c.toNat ≤ 57 := by
  unfold spec_octet at h
  split_ifs at h with h1
  intro c hc
  have := List.all_eq_true.mp h1.2.2 c hc
  simpa using this

lemma spec_inet_pton_groups (ip : String) (v : Nat) (h : spec_inet_pton ip = some v) :
    ∀ g ∈ split_on '.' ip.data, ∃ w, spec_octet g = some w := by
  unfold spec_inet_pton at h
  rcases hgs : split_on '.' ip.data with
    _ | ⟨g0, _ | ⟨g1, _ | ⟨g2, _ | ⟨g3, _ | ⟨g4, rest⟩⟩⟩⟩⟩
  · rw [hgs] at h; simp at h
  · rw [hgs] at h; simp at h
  · rw [hgs] at h; simp at h
  · rw [hgs] at h; simp at h
  · rw [hgs] at h
    simp only [List.map_cons, List.map_nil] at h
    cases h0 : spec_octet g0 <;> cases h1 : spec_octet g1 <;> cases h2 : spec_octet g2 <;>
      cases h3 : spec_octet g3 <;> simp [h0, h1, h2, h3] at h
    intro g hg
    simp only [List.mem_cons, List.mem_singleton, List.not_mem_nil, or_false] at hg
    rcases hg with rfl | rfl | rfl | rfl
    · exact ⟨_, h0⟩
    · exact ⟨_, h1⟩
    · exact ⟨_, h2⟩
    · exact ⟨_, h3⟩
  · rw [hgs] at h; simp at h

lemma spec_is_valid_ipv4_no_colon (s : String) (h : spec_env.is_valid_ipv4 s = true) :
    ':' ∉ s.data := by
  have h1 : (spec_inet_pton s).isSome = true := h
  obtain ⟨v, hv⟩ := Option.isSome_iff_exists.mp h1
  intro hmem
  obtain ⟨g, hg, hcg⟩ := mem_split_on '.' ':' s.data hmem (by decide)
  obtain ⟨w, hw⟩ := spec_inet_pton_groups s v hv g hg
  have := spec_octet_digits g w hw ':' hcg
  revert this
  decide

lemma spec_is_valid_ipv4_ne_empty (s : String) (h : spec_env.is_valid_ipv4 s = true) :
    s ≠ "" := by
  intro hs
  rw [hs] at h
  revert h
  decide

/-- Scenario of C19: the pattern 10.0.0.0/255.255.255.0 matches 10.0.0.42 and does not
match 10.0.1.1, and the general statement applies to the address 10.0.0.42. -/
theorem mask_pattern_matches_iff_witness :
    address_matches_host_pattern spec_env "10.0.0.42" "10.0.0.0/255.255.255.0" = true
      ∧ address_matches_host_pattern spec_env "10.0.1.1" "10.0.0.0/255.255.255.0" = false
      ∧ address_matches_host_pattern spec_env "::ffff:10.0.0.42" "10.0.0.0/255.255.255.0" = true
      ∧ ((address_matches_host_pattern spec_env "10.0.0.42" "10.0.0.0/255.255.255.0" = true ↔
            ∃ ipv4 : String,
              ((parse_address_type spec_env "10.0.0.42" = AddrType.IPV4 ∧ ipv4 = "10.0.0.42")
                ∨ (parse_address_type spec_env "10.0.0.42" = AddrType.MAPPED
                  ∧ ipv4 = after_last_colon "10.0.0.42"))
              ∧ Nat.land (ip_to_integer spec_env ipv4)
                    (ip_to_integer spec_env (mask_netmask "10.0.0.0/255.255.255.0"))
                  = ip_to_integer spec_env (mask_base "10.0.0.0/255.255.255.0"))
          ∧ (parse_address_type spec_env "10.0.0.42" = AddrType.MAPPED →
              spec_env.is_valid_ipv4 (after_last_colon "10.0.0.42") = true)
          ∧ (parse_address_type spec_env "10.0.0.42" = AddrType.IPV6 →
              address_matches_host_pattern spec_env "10.0.0.42" "10.0.0.0/255.255.255.0"
                = false)) :=
  ⟨by decide, by decide, by decide,
    mask_pattern_matches_iff spec_env "10.0.0.42" "10.0.0.0/255.255.255.0" (by decide)
      spec_is_valid_ipv4_ne_empty spec_is_valid_ipv4_no_colon⟩

/-! ## Classification of host patterns -/

/-- C21: if `parse_address_type(address)` is UNKNOWN or `parse_pattern_type(pattern)` is
UNKNOWN then `address_matches_host_pattern(address, pattern)` is false. -/
theorem unknown_never_matches (env : HostEnv) (addr host_pattern : String)
    (h : parse_address_type env addr = AddrType.UNKNOWN
      ∨ parse_pattern_type env host_pattern = PatternType.UNKNOWN) :
    address_matches_host_pattern env addr host_pattern = false := by
  rcases h with h | h
  · exact address_matches_unknown_addr env addr host_pattern h
  · unfold address_matches_host_pattern
    by_cases ha : parse_address_type env addr = AddrType.UNKNOWN
    · simp [ha]
    · simp [ha, h]

/-- Scenario of C21: the text "nowhere" is no address and the pattern `10.0.0.?` is no
pattern of a known kind; neither pairing with a well-formed partner matches. -/
theorem unknown_never_matches_witness :
    parse_address_type spec_env "nowhere" = AddrType.UNKNOWN
      ∧ parse_pattern_type spec_env "10.0.0.?" = PatternType.UNKNOWN
      ∧ address_matches_host_pattern spec_env "nowhere" "%" = false
      ∧ address_matches_host_pattern spec_env "10.0.0.5" "10.0.0.?" = false :=
  ⟨by decide, by decide,
    unknown_never_matches spec_env "nowhere" "%" (Or.inl (by decide)),
    unknown_never_matches spec_env "10.0.0.5" "10.0.0.?" (Or.inr (by decide))⟩

lemma classify_char_eq (c : Char) (ma mh : Bool) :
    classify_char c (ma, mh)
      = (ma && (is_wc c || is_ipchar c), mh && (is_wc c || is_hostnamechar c)) := by
  unfold classify_char
  cases hw : is_wc c <;> cases hi : is_ipchar c <;> cases hh : is_hostnamechar c <;>
    cases ma <;> cases mh <;> rfl

lemma pattern_scan_eq (l : List Char) :
    ∀ ma mh : Bool,
      pattern_scan l ma mh false
          = (ma && (pattern_chars l).all address_char_ok,
              mh && (pattern_chars l).all hostname_char_ok)
        ∧ pattern_scan l ma mh true
          = (ma && (pattern_chars_escaped l).all address_char_ok,
              mh && (pattern_chars_escaped l).all hostname_char_ok) := by
  induction l with
  | nil =>
    intro ma mh
    simp [pattern_scan, pattern_chars, pattern_chars_escaped, pattern_chars_from]
  | cons c cs ih =>
    intro ma mh
    constructor
    · by_cases hc : c = '\\'
      · subst hc
        have hpc : pattern_chars ('\\' :: cs) = pattern_chars_escaped cs := by
          simp [pattern_chars, pattern_chars_escaped, pattern_chars_from]
        rw [hpc]
        unfold pattern_scan
        simp only [Bool.false_eq_true, if_false, if_true]
        by_cases hb : (!ma && !mh) = true
        · rw [if_pos hb]
          cases ma <;> cases mh <;> first | rfl | exact absurd hb (by decide)
        · rw [if_neg hb]
          exact (ih ma mh).2
      · have hpc : pattern_chars (c :: cs) = (false, c) :: pattern_chars cs := by
          simp [pattern_chars, pattern_chars_from, hc]
        rw [hpc]
        unfold pattern_scan
        simp only [Bool.false_eq_true, if_false, hc, classify_char_eq]
        by_cases hb : (!(ma && (is_wc c || is_ipchar c))
            && !(mh && (is_wc c || is_hostnamechar c))) = true
        · rw [if_pos hb]
          simp only [Bool.and_eq_true, Bool.not_eq_true'] at hb
          simp [List.all_cons, address_char_ok, hostname_char_ok, hb.1, hb.2]
          constructor
          · have := hb.1
            cases ma <;> simp_all
          · have := hb.2
            cases mh <;> simp_all
        · rw [if_neg hb, (ih _ _).1]
          simp [List.all_cons, address_char_ok, hostname_char_ok, Bool.and_assoc]
    · have hpc : pattern_chars_escaped (c :: cs) = (true, c) :: pattern_chars cs := rfl
      rw [hpc]
      unfold pattern_scan
      by_cases hp : c = '%'
      · subst hp
        simp [List.all_cons, address_char_ok, hostname_char_ok]
      · simp only [if_true, hp, if_false, classify_char_eq]
        by_cases hb : (!(ma && (is_wc c || is_ipchar c))
            && !(mh && (is_wc c || is_hostnamechar c))) = true
        · rw [if_pos hb]
          simp only [Bool.and_eq_true, Bool.not_eq_true'] at hb
          simp [List.all_cons, address_char_ok, hostname_char_ok, hp]
          constructor
          · have := hb.1
            cases ma <;> simp_all
          · have := hb.2
            cases mh <;> simp_all
        · rw [if_neg hb, (ih _ _).1]
          simp [List.all_cons, address_char_ok, hostname_char_ok, hp, Bool.and_assoc]

lemma parse_pattern_type_scan (env : HostEnv) (p : String)
    (h4 : env.is_valid_ipv4 p = false) (h6 : env.is_valid_ipv6 p = false)
    (hwc : p.data.all is_wc = false) (hmask : is_mask_pair env p = false) :
    parse_pattern_type env p = scan_classification p := by
  have hfirst : (match str_find_char p.data '/' with
      | some div_loc =>
        if div_loc ≥ ipv4min_len ∧ p.length > div_loc + ipv4min_len then
          if (env.is_valid_ipv4 (substr_to p div_loc)
              && env.is_valid_ipv4 (substr_from p (div_loc + 1))) = true then PatternType.MASK
          else PatternType.UNKNOWN
        else PatternType.UNKNOWN
      | none => PatternType.UNKNOWN) = PatternType.UNKNOWN := by
    unfold is_mask_pair at hmask
    cases hf : str_find_char p.data '/' with
    | none => rfl
    | some d =>
      simp only [hf] at hmask ⊢
      by_cases hd : d ≥ ipv4min_len ∧ p.length > d + ipv4min_len
      · rw [if_pos hd]
        have : (env.is_valid_ipv4 (substr_to p d)
            && env.is_valid_ipv4 (substr_from p (d + 1))) = false := by
          simpa [hd] using hmask
        rw [this]
        simp
      · rw [if_neg hd]
  unfold parse_pattern_type scan_classification
  simp only [h4, h6, hwc, Bool.or_self, Bool.false_eq_true, if_false, hfirst, if_true,
    (pattern_scan_eq p.data true true).1, Bool.true_and]

lemma backslash_of_escaped (c : Char) (l : List Char) :
    ((true, c) ∈ pattern_chars_from false l → '\\' ∈ l)
      ∧ ((true, c) ∈ pattern_chars_from true l → l.head? = some c ∨ '\\' ∈ l.tail) := by
  induction l with
  | nil => simp [pattern_chars_from]
  | cons x xs ih =>
    constructor
    · intro h
      by_cases hx : x = '\\'
      · rw [hx]; exact List.mem_cons_self _ _
      · simp only [pattern_chars_from, hx, if_false, List.mem_cons, Prod.mk.injEq,
          Bool.true_eq_false, false_and, false_or] at h
        exact List.mem_cons_of_mem _ (ih.1 h)
    · intro h
      simp only [pattern_chars_from, List.mem_cons, Prod.mk.injEq, true_and] at h
      rcases h with h | h
      · left; simp [h]
      · right; exact ih.1 h

lemma str_find_char_split (l : List Char) (c : Char) (d : Nat)
    (h : str_find_char l c = some d) : l = l.take d ++ c :: l.drop (d + 1) := by
  induction l generalizing d with
  | nil => simp [str_find_char] at h
  | cons x xs ih =>
    unfold str_find_char at h
    by_cases hx : x = c
    · rw [if_pos hx] at h
      simp only [Option.some.injEq] at h
      rw [← h, hx]
      simp
    · rw [if_neg hx] at h
      cases hrec : str_find_char xs c with
      | none => rw [hrec] at h; cases h
      | some j =>
        rw [hrec] at h
        simp only [Option.map_some', Option.some.injEq] at h
        rw [← h]
        simp only [List.take_succ_cons, List.drop_succ_cons, List.cons_append, List.cons.injEq,
          true_and]
        exact ih j hrec

lemma escaped_percent_unknown (env : HostEnv) (p : String)
    (h4 : ∀ s, env.is_valid_ipv4 s = true → '\\' ∉ s.data)
    (h6 : ∀ s, env.is_valid_ipv6 s = true → '\\' ∉ s.data)
    (hmem : (true, '%') ∈ pattern_chars p.data) :
    parse_pattern_type env p = PatternType.UNKNOWN := by
  have hbs : '\\' ∈ p.data := (backslash_of_escaped '%' p.data).1 hmem
  have hv4 : env.is_valid_ipv4 p = false := by
    cases hv : env.is_valid_ipv4 p with
    | false => rfl
    | true => exact absurd hbs (h4 p hv)
  have hv6 : env.is_valid_ipv6 p = false := by
    cases hv : env.is_valid_ipv6 p with
    | false => rfl
    | true => exact absurd hbs (h6 p hv)
  have hwc : p.data.all is_wc = false := by
    rw [List.all_eq_false]
    exact ⟨'\\', hbs, by decide⟩
  have hmask : is_mask_pair env p = false := by
    unfold is_mask_pair
    cases hf : str_find_char p.data '/' with
    | none => rfl
    | some d =>
      simp only
      have hsplit := str_find_char_split p.data '/' d hf
      rw [hsplit] at hbs
      rcases List.mem_append.mp hbs with hb | hb
      · have : env.is_valid_ipv4 (substr_to p d) = false := by
          cases hv : env.is_valid_ipv4 (substr_to p d) with
          | false => rfl
          | true => exact absurd hb (h4 _ hv)
        simp [this]
      · rcases List.mem_cons.mp hb with hb | hb
        · exact absurd hb (by decide)
        · have : env.is_valid_ipv4 (substr_from p (d + 1)) = false := by
            cases hv : env.is_valid_ipv4 (substr_from p (d + 1)) with
            | false => rfl
            | true => exact absurd hb (h4 _ hv)
          simp [this]
  rw [parse_pattern_type_scan env p hv4 hv6 hwc hmask]
  unfold scan_classification
  have h1 : (pattern_chars p.data).all address_char_ok = false := by
    rw [List.all_eq_false]
    exact ⟨(true, '%'), hmem, by decide⟩
  have h2 : (pattern_chars p.data).all hostname_char_ok = false := by
    rw [List.all_eq_false]
    exact ⟨(true, '%'), hmem, by decide⟩
  simp [h1, h2]

lemma char_mem_iff_code (l : List Char) (c : Char) :
    c ∈ l ↔ c.toNat ∈ l.map Char.toNat := by
  constructor
  · exact List.mem_map_of_mem _
  · intro h
    obtain ⟨d, hd, heq⟩ := List.mem_map.mp h
    rw [char_toNat_injective c d heq.symm]
    exact hd

lemma hex_codes (n : Nat) :
    n ∈ claim_hex_digits.map Char.toNat
      ↔ (48 ≤ n ∧ n ≤ 57) ∨ (97 ≤ n ∧ n ≤ 102) ∨ (65 ≤ n ∧ n ≤ 70) := by
  have hl : claim_hex_digits.map Char.toNat
      = [48, 49, 50, 51, 52, 53, 54, 55, 56, 57, 97, 98, 99, 100, 101, 102, 65, 66, 67, 68,
          69, 70] := by decide
  rw [hl]
  constructor
  · intro h
    simp only [List.mem_cons, List.mem_singleton, List.not_mem_nil, or_false] at h
    omega
  · rintro (⟨h1, h2⟩ | ⟨h1, h2⟩ | ⟨h1, h2⟩) <;> interval_cases n <;> decide

lemma isxdigit_eq (c : Char) : isxdigit c = decide (c ∈ claim_hex_digits) := by
  rw [Bool.eq_iff_iff]
  simp only [isxdigit, Bool.or_eq_true, Bool.and_eq_true, decide_eq_true_eq]
  rw [char_mem_iff_code, hex_codes]
  tauto

lemma alnum_codes (n : Nat) :
    n ∈ claim_alphanumerics.map Char.toNat
      ↔ (48 ≤ n ∧ n ≤ 57) ∨ (97 ≤ n ∧ n ≤ 122) ∨ (65 ≤ n ∧ n ≤ 90) := by
  constructor
  · intro h
    have hl : claim_alphanumerics.map Char.toNat
        = (List.range 26).map (· + 97) ++ (List.range 26).map (· + 65)
          ++ (List.range 10).map (· + 48) := by decide
    rw [hl] at h
    simp only [List.mem_append, List.mem_map, List.mem_range] at h
    rcases h with (⟨a, ha, rfl⟩ | ⟨a, ha, rfl⟩) | ⟨a, ha, rfl⟩ <;> omega
  · rintro (⟨h1, h2⟩ | ⟨h1, h2⟩ | ⟨h1, h2⟩) <;> interval_cases n <;> decide

lemma isalnum_eq (c : Char) : isalnum c = decide (c ∈ claim_alphanumerics) := by
  rw [Bool.eq_iff_iff]
  simp only [isalnum, Bool.or_eq_true, Bool.and_eq_true, decide_eq_true_eq]
  rw [char_mem_iff_code, alnum_codes]
  tauto

lemma is_wc_eq (c : Char) : is_wc c = claim_wildcard c := rfl

lemma is_ipchar_eq (c : Char) : is_ipchar c = claim_address_char c := by
  unfold is_ipchar claim_address_char
  rw [isxdigit_eq]

lemma is_hostnamechar_eq (c : Char) : is_hostnamechar c = claim_hostname_char c := by
  unfold is_hostnamechar claim_hostname_char
  rw [isalnum_eq]
  cases decide (c ∈ claim_alphanumerics) <;> cases decide (c = '_') <;> cases decide (c = '.')
    <;> cases decide (c = '-') <;> rfl

lemma scan_classification_eq (p : String) : scan_classification p = claim_classification p := by
  have h1 : address_char_ok
      = fun tok => !(tok.1 && decide (tok.2 = '%'))
        && (claim_wildcard tok.2 || claim_address_char tok.2) := by
    funext tok
    unfold address_char_ok
    rw [is_wc_eq, is_ipchar_eq]
  have h2 : hostname_char_ok
      = fun tok => !(tok.1 && decide (tok.2 = '%'))
        && (claim_wildcard tok.2 || claim_hostname_char tok.2) := by
    funext tok
    unfold hostname_char_ok
    rw [is_wc_eq, is_hostnamechar_eq]
  unfold scan_classification claim_classification
  rw [h1, h2]

/-- C22: for a host pattern that is not a literal IPv4 or IPv6 address, not made of the
wildcards `%` and `_` only and not a base/netmask pair, `parse_pattern_type` gives ADDRESS
if every character (a backslash escaping the next one, wildcards allowed anywhere) is one
of 0-9, a-f, A-F, a colon or a dot, otherwise HOSTNAME if every such character is one of
a-z, A-Z, 0-9, a dot, a dash or an underscore, otherwise UNKNOWN; and a pattern with an
escaped `%` is UNKNOWN. The character classes are those of `claim_classification`, listed
character by character. -/
theorem parse_pattern_type_character_scan (env : HostEnv) (host_pattern : String)
    (h4 : env.is_valid_ipv4 host_pattern = false)
    (h6 : env.is_valid_ipv6 host_pattern = false)
    (hwc : host_pattern.data.all claim_wildcard = false)
    (hmask : is_mask_pair env host_pattern = false) :
    parse_pattern_type env host_pattern = claim_classification host_pattern
      ∧ ((true, '%') ∈ pattern_chars host_pattern.data →
          parse_pattern_type env host_pattern = PatternType.UNKNOWN) := by
  have hwc1 : host_pattern.data.all is_wc = false := by
    have hfun : is_wc = claim_wildcard := funext is_wc_eq
    rw [hfun]
    exact hwc
  have hscan := parse_pattern_type_scan env host_pattern h4 h6 hwc1 hmask
  refine ⟨by rw [hscan, scan_classification_eq], ?_⟩
  intro hmem
  rw [hscan]
  unfold scan_classification
  have h1 : (pattern_chars host_pattern.data).all address_char_ok = false := by
    rw [List.all_eq_false]
    exact ⟨(true, '%'), hmem, by decide⟩
  have h2 : (pattern_chars host_pattern.data).all hostname_char_ok = false := by
    rw [List.all_eq_false]
    exact ⟨(true, '%'), hmem, by decide⟩
  simp [h1, h2]

/-- Scenario of C22: `my\_host.com` and `xyz-1` are hostname patterns, `10.0.%` and
`fe80::1_` are address patterns, `a b` and `host!` hold a character of neither class, and
`db\%.example` with its escaped `%` is of no known kind. -/
theorem parse_pattern_type_character_scan_witness :
    parse_pattern_type spec_env "my\\_host.com" = PatternType.HOSTNAME
      ∧ parse_pattern_type spec_env "xyz-1" = PatternType.HOSTNAME
      ∧ parse_pattern_type spec_env "10.0.%" = PatternType.ADDRESS
      ∧ parse_pattern_type spec_env "fe80::1_" = PatternType.ADDRESS
      ∧ parse_pattern_type spec_env "a b" = PatternType.UNKNOWN
      ∧ parse_pattern_type spec_env "host!" = PatternType.UNKNOWN
      ∧ claim_classification "a b" = PatternType.UNKNOWN
      ∧ claim_classification "xyz-1" = PatternType.HOSTNAME
      ∧ (true, '%') ∈ pattern_chars "db\\%.example".data
      ∧ (parse_pattern_type spec_env "db\\%.example" = claim_classification "db\\%.example"
        ∧ ((true, '%') ∈ pattern_chars "db\\%.example".data →
            parse_pattern_type spec_env "db\\%.example" = PatternType.UNKNOWN))
      ∧ (parse_pattern_type spec_env "a b" = claim_classification "a b"
        ∧ ((true, '%') ∈ pattern_chars "a b".data →
            parse_pattern_type spec_env "a b" = PatternType.UNKNOWN)) :=
  ⟨by decide, by decide, by decide, by decide, by decide, by decide, by decide, by decide,
    by decide,
    parse_pattern_type_character_scan spec_env "db\\%.example" (by decide) (by decide)
      (by decide) (by decide),
    parse_pattern_type_character_scan spec_env "a b" (by decide) (by decide)
      (by decide) (by decide)⟩

/-! ## Insertion, proxy grants and equality of databases -/

lemma swo_neg_trans {α : Type} (comp : α → α → Bool) (hswo : StrictWeakOrder comp)
    (a b c : α) (hab : comp a b = true) : comp a c = true ∨ comp c b = true := by
  cases hac : comp a c with
  | true => exact Or.inl rfl
  | false =>
    cases hcb : comp c b with
    | true => exact Or.inr rfl
    | false =>
      exfalso
      have hca : comp c a = false := by
        cases h : comp c a with
        | false => rfl
        | true => rw [hswo.trans c a b h hab] at hcb; cases hcb
      have hbc : comp b c = false := by
        cases h : comp b c with
        | false => rfl
        | true => rw [hswo.trans a b c hab h] at hac; cases hac
      have := (hswo.incomp_trans a c b hac hca hcb hbc).1
      rw [this] at hab
      cases hab

lemma upper_bound_take {α : Type} (comp : α → α → Bool) (e : α) (l : List α) :
    ∀ x ∈ l.take (upper_bound comp e l), comp e x = false := by
  induction l with
  | nil => intro x hx; simp at hx
  | cons y ys ih =>
    intro x hx
    by_cases hc : comp e y = true
    · simp [upper_bound, hc] at hx
    · have hcf : comp e y = false := by simpa using hc
      simp only [upper_bound, hcf, Bool.false_eq_true, if_false, List.take_succ_cons,
        List.mem_cons] at hx
      rcases hx with rfl | hx
      · exact hcf
      · exact ih x hx

lemma upper_bound_drop (comp : UserEntry → UserEntry → Bool) (hswo : StrictWeakOrder comp)
    (e : UserEntry) (l : EntryList) (hs : EntriesSorted comp l) :
    ∀ x ∈ l.drop (upper_bound comp e l), comp e x = true := by
  unfold EntriesSorted at hs
  induction l with
  | nil => intro x hx; simp at hx
  | cons y ys ih =>
    rw [List.pairwise_cons] at hs
    intro x hx
    by_cases hc : comp e y = true
    · simp only [upper_bound, hc, if_true, List.drop_zero, List.mem_cons] at hx
      rcases hx with rfl | hx
      · exact hc
      · rcases swo_neg_trans comp hswo e y x hc with h | h
        · exact h
        · rw [hs.1 x hx] at h; cases h
    · have hcf : comp e y = false := by simpa using hc
      simp only [upper_bound, hcf, Bool.false_eq_true, if_false, List.drop_succ_cons] at hx
      exact ih hs.2 x hx

/-- C23: for a comparator that is a strict weak order, if `users[username]` is sorted
before `add_entry(username, e)`, then afterwards the list is the old one with `e`
inserted (the old entries keep their relative order), it is still sorted, no entry
before `e` is less specific than `e` and every entry after `e` is strictly less specific,
so `e` stands after every entry equivalent to it; the lists of other usernames and the two
auxiliary maps are unchanged. Hence every list of a database built by `add_entry` alone
is sorted. -/
theorem add_entry_preserves_order (comp : UserEntry → UserEntry → Bool)
    (hswo : StrictWeakOrder comp) (db : UserDatabase) (username : String) (e : UserEntry)
    (hsorted : EntriesSorted comp ((db.m_users.lookup username).getD [])) :
    (∃ pre post : EntryList,
        (db.m_users.lookup username).getD [] = pre ++ post
          ∧ (add_entry comp db username e).m_users.lookup username = some (pre ++ e :: post)
          ∧ EntriesSorted comp (pre ++ e :: post)
          ∧ (∀ x ∈ pre, comp e x = false)
          ∧ (∀ x ∈ post, comp e x = true))
      ∧ (∀ u : String, u ≠ username →
          (add_entry comp db username e).m_users.lookup u = db.m_users.lookup u)
      ∧ (add_entry comp db username e).m_database_grants = db.m_database_grants
      ∧ (add_entry comp db username e).m_roles_mapping = db.m_roles_mapping
      ∧ (∀ built : UserDatabase, BuiltByAddEntry comp built →
          ∀ (u : String) (l : EntryList), built.m_users.lookup u = some l →
            EntriesSorted comp l) := by
  refine ⟨?_, ?_, rfl, rfl, ?_⟩
  · refine ⟨((db.m_users.lookup username).getD []).take
        (upper_bound comp e ((db.m_users.lookup username).getD [])),
      ((db.m_users.lookup username).getD []).drop
        (upper_bound comp e ((db.m_users.lookup username).getD [])), ?_, ?_, ?_, ?_, ?_⟩
    · rw [List.take_append_drop]
    · simp only [add_entry]
      rw [lookup_map_modify_self]
      rfl
    · exact upper_bound_insert_sorted comp hswo e _ hsorted
    · exact upper_bound_take comp e _
    · exact upper_bound_drop comp hswo e _ hsorted
  · intro u hu
    simp only [add_entry]
    exact lookup_map_modify_other _ _ hu _ _ _
  · intro built hb u l hl
    exact built_entries_sorted comp hswo built hb u l hl

/-- Scenario of C23: adding a second entry with host pattern `%` to the sorted list
("bob","10.0.0.5"), ("bob","%") puts it last, after the entry equivalent to it. -/
theorem add_entry_preserves_order_witness :
    (add_entry host_pattern_is_more_specific bob_db_literal_first "bob"
        bob_wildcard_pam).m_users.lookup "bob"
        = some [bob_literal, bob_wildcard, bob_wildcard_pam]
      ∧ host_pattern_is_more_specific bob_wildcard bob_wildcard_pam = false
      ∧ host_pattern_is_more_specific bob_wildcard_pam bob_wildcard = false
      ∧ ((∃ pre post : EntryList,
            (bob_db_literal_first.m_users.lookup "bob").getD [] = pre ++ post
              ∧ (add_entry host_pattern_is_more_specific bob_db_literal_first "bob"
                  bob_wildcard_pam).m_users.lookup "bob" = some (pre ++ bob_wildcard_pam :: post)
              ∧ EntriesSorted host_pattern_is_more_specific (pre ++ bob_wildcard_pam :: post)
              ∧ (∀ x ∈ pre, host_pattern_is_more_specific bob_wildcard_pam x = false)
              ∧ (∀ x ∈ post, host_pattern_is_more_specific bob_wildcard_pam x = true))
          ∧ (∀ u : String, u ≠ "bob" →
              (add_entry host_pattern_is_more_specific bob_db_literal_first "bob"
                bob_wildcard_pam).m_users.lookup u = bob_db_literal_first.m_users.lookup u)
          ∧ (add_entry host_pattern_is_more_specific bob_db_literal_first "bob"
              bob_wildcard_pam).m_database_grants = bob_db_literal_first.m_database_grants
          ∧ (add_entry host_pattern_is_more_specific bob_db_literal_first "bob"
              bob_wildcard_pam).m_roles_mapping = bob_db_literal_first.m_roles_mapping
          ∧ (∀ built : UserDatabase, BuiltByAddEntry host_pattern_is_more_specific built →
              ∀ (u : String) (l : EntryList), built.m_users.lookup u = some l →
                EntriesSorted host_pattern_is_more_specific l)) :=
  ⟨by decide, by decide, by decide,
    add_entry_preserves_order host_pattern_is_more_specific host_pattern_is_more_specific_swo
      bob_db_literal_first "bob" bob_wildcard_pam
      (built_entries_sorted host_pattern_is_more_specific host_pattern_is_more_specific_swo
        bob_db_literal_first
        (BuiltByAddEntry.add _ _ _ (BuiltByAddEntry.add _ _ _ (BuiltByAddEntry.empty [] [])))
        "bob" _ (by decide))⟩

lemma lower_bound_take {α : Type} (comp : α → α → Bool) (v : α) (l : List α) :
    ∀ x ∈ l.take (lower_bound comp v l), comp x v = true := by
  induction l with
  | nil => intro x hx; simp at hx
  | cons y ys ih =>
    intro x hx
    by_cases hc : comp y v = true
    · simp only [lower_bound, hc, if_true, List.take_succ_cons, List.mem_cons] at hx
      rcases hx with rfl | hx
      · exact hc
      · exact ih x hx
    · simp [lower_bound, hc] at hx

lemma lower_bound_elem {α : Type} (comp : α → α → Bool) (v : α) (l : List α) (x : α)
    (h : l[lower_bound comp v l]? = some x) : comp x v = false := by
  induction l with
  | nil => simp at h
  | cons y ys ih =>
    by_cases hc : comp y v = true
    · simp only [lower_bound, hc, if_true, List.getElem?_cons_succ] at h
      exact ih h
    · simp only [lower_bound, hc, Bool.false_eq_true, if_false, List.getElem?_cons_zero,
        Option.some.injEq] at h
      rw [← h]
      simpa using hc

lemma split_at_index {α : Type} (l : List α) (i : Nat) (x : α) (h : l[i]? = some x) :
    l = l.take i ++ x :: l.drop (i + 1) ∧ i < l.length := by
  obtain ⟨hi, hx⟩ := List.getElem?_eq_some.mp h
  refine ⟨?_, hi⟩
  rw [← hx, List.getElem_cons_drop, List.take_append_drop]

lemma lower_bound_finds_host (comp : UserEntry → UserEntry → Bool)
    (hswo : StrictWeakOrder comp)
    (hhost : ∀ a a1 b b1 : UserEntry, a.host_pattern = a1.host_pattern →
      b.host_pattern = b1.host_pattern → comp a b = comp a1 b1)
    (htotal : ∀ a b : UserEntry, comp a b = false → comp b a = false →
      a.host_pattern = b.host_pattern)
    (l : EntryList) (hs : EntriesSorted comp l) (needle y : UserEntry) (hy : y ∈ l)
    (hyhost : y.host_pattern = needle.host_pattern) :
    ∃ x, l[lower_bound comp needle l]? = some x ∧ x.host_pattern = needle.host_pattern := by
  have hyn : comp y needle = false := by
    rw [hhost y needle needle needle hyhost rfl]
    exact hswo.irrefl needle
  have hnot_take : y ∉ l.take (lower_bound comp needle l) := by
    intro hmem
    rw [lower_bound_take comp needle l y hmem] at hyn
    cases hyn
  have hlt : lower_bound comp needle l < l.length := by
    by_contra hge
    apply hnot_take
    rw [List.take_of_length_le (by omega)]
    exact hy
  have hget : l[lower_bound comp needle l]? = some (l[lower_bound comp needle l]) :=
    List.getElem?_eq_getElem hlt
  refine ⟨l[lower_bound comp needle l], hget, ?_⟩
  have hxn := lower_bound_elem comp needle l _ hget
  obtain ⟨hsplit, _⟩ := split_at_index l _ _ hget
  rw [hsplit] at hy
  rcases List.mem_append.mp hy with h | h
  · exact absurd h hnot_take
  · rcases List.mem_cons.mp h with h | h
    · rw [← h]; exact hyhost
    · unfold EntriesSorted at hs
      rw [hsplit] at hs
      have h2 := (List.pairwise_append.mp hs).2.1
      have hyx := (List.pairwise_cons.mp h2).1 y h
      have hnx : comp needle l[lower_bound comp needle l] = false := by
        rw [← hhost y needle _ _ hyhost rfl]
        exact hyx
      exact htotal _ _ hxn hnx

lemma add_proxy_grant_shape (comp : UserEntry → UserEntry → Bool) (db : UserDatabase)
    (user host : String) :
    add_proxy_grant comp db user host = db
      ∨ ∃ (l : EntryList) (x : UserEntry),
          db.m_users.lookup user = some l
            ∧ l[lower_bound comp { host_pattern := host } l]? = some x
            ∧ x.host_pattern = host
            ∧ add_proxy_grant comp db user host
              = { db with
                  m_users :=
                    map_modify user
                      (fun l1 =>
                        l1.set (lower_bound comp { host_pattern := host } l)
                          { x with proxy_grant := true })
                      [] db.m_users } := by
  unfold add_proxy_grant
  cases hl : db.m_users.lookup user with
  | none => left; rfl
  | some l =>
    simp only
    cases hx : l[lower_bound comp { host_pattern := host } l]? with
    | none => left; rfl
    | some x =>
      simp only
      by_cases hh : x.host_pattern = host
      · right
        exact ⟨l, x, rfl, hx, hh, by rw [if_pos hh]⟩
      · left
        rw [if_neg hh]

lemma add_proxy_grant_frame (comp : UserEntry → UserEntry → Bool) (db : UserDatabase)
    (user host : String) :
    (add_proxy_grant comp db user host).m_database_grants = db.m_database_grants
      ∧ (add_proxy_grant comp db user host).m_roles_mapping = db.m_roles_mapping
      ∧ (∀ u : String, u ≠ user →
          (add_proxy_grant comp db user host).m_users.lookup u = db.m_users.lookup u)
      ∧ (add_proxy_grant comp db user host = db
        ∨ ∃ (pre post : EntryList) (x : UserEntry),
            db.m_users.lookup user = some (pre ++ x :: post)
              ∧ pre.length = lower_bound comp { host_pattern := host } (pre ++ x :: post)
              ∧ x.host_pattern = host
              ∧ (add_proxy_grant comp db user host).m_users.lookup user
                = some (pre ++ { x with proxy_grant := true } :: post)) := by
  rcases add_proxy_grant_shape comp db user host with h | ⟨l, x, hl, hx, hh, heq⟩
  · rw [h]
    exact ⟨rfl, rfl, fun _ _ => rfl, Or.inl rfl⟩
  · obtain ⟨hsplit, hlt⟩ := split_at_index l _ x hx
    refine ⟨by rw [heq], by rw [heq], ?_,
      Or.inr ⟨l.take (lower_bound comp { host_pattern := host } l),
        l.drop (lower_bound comp { host_pattern := host } l + 1), x, ?_, ?_, hh, ?_⟩⟩
    · intro u hu
      rw [heq]
      exact lookup_map_modify_other _ _ hu _ _ _
    · rw [hl, ← hsplit]
    · rw [← hsplit, List.length_take]
      omega
    · rw [heq]
      simp only
      rw [lookup_map_modify_self, hl]
      simp only [Option.getD_some]
      rw [List.set_eq_take_cons_drop _ hlt]

lemma host_pattern_is_more_specific_host (a a1 b b1 : UserEntry)
    (ha : a.host_pattern = a1.host_pattern) (hb : b.host_pattern = b1.host_pattern) :
    host_pattern_is_more_specific a b = host_pattern_is_more_specific a1 b1 := by
  unfold host_pattern_is_more_specific
  rw [ha, hb]

lemma host_pattern_is_more_specific_total (a b : UserEntry)
    (hab : host_pattern_is_more_specific a b = false)
    (hba : host_pattern_is_more_specific b a = false) :
    a.host_pattern = b.host_pattern := by
  have hfalse : ∀ x y : UserEntry, host_pattern_is_more_specific x y = false ↔
      ¬ (host_pattern_is_more_specific x y = true) := by
    intro x y; simp
  rw [hfalse, host_pattern_is_more_specific_iff] at hab hba
  push_neg at hab hba
  have r1 : spec_pattern_rank a.host_pattern = spec_pattern_rank b.host_pattern := by
    have := hab.1; have := hba.1; omega
  have w1 : spec_wildcard_count a.host_pattern = spec_wildcard_count b.host_pattern := by
    have := (hab.2 r1).1; have := (hba.2 r1.symm).1; omega
  have n1 := (hab.2 r1).2 w1
  have n2 := (hba.2 r1.symm).2 w1.symm
  exact str_lt_total _ _ (by simpa using n1) (by simpa using n2)

lemma add_proxy_grant_found (comp : UserEntry → UserEntry → Bool) (db : UserDatabase)
    (user host : String) (l : EntryList) (x : UserEntry)
    (hl : db.m_users.lookup user = some l)
    (hx : l[lower_bound comp { host_pattern := host } l]? = some x)
    (hh : x.host_pattern = host) :
    add_proxy_grant comp db user host
      = { db with
          m_users :=
            map_modify user
              (fun l1 =>
                l1.set (lower_bound comp { host_pattern := host } l)
                  { x with proxy_grant := true })
              [] db.m_users } := by
  unfold add_proxy_grant
  rw [hl]
  simp only
  rw [hx]
  simp only
  rw [if_pos hh]

/-- C24: `add_proxy_grant(user, host)` on a sorted list, for a comparator that is a strict
weak order, looks at host patterns only and tells different host patterns apart. If the list
of `user` holds an entry whose host pattern is exactly `host`, then afterwards the list is the
old one with `proxy_grant` set in one entry with that host pattern, the entry at the lower
bound. If `user` has no list, or no entry of the list has exactly that host pattern, the
database is returned unchanged. In every case the two auxiliary maps and the lists of all
other users are unchanged, and the list of `user` is either unchanged or differs in the
`proxy_grant` field of that single entry. -/
theorem add_proxy_grant_effect (comp : UserEntry → UserEntry → Bool)
    (hswo : StrictWeakOrder comp)
    (hhost : ∀ a a1 b b1 : UserEntry, a.host_pattern = a1.host_pattern →
      b.host_pattern = b1.host_pattern → comp a b = comp a1 b1)
    (htotal : ∀ a b : UserEntry, comp a b = false → comp b a = false →
      a.host_pattern = b.host_pattern)
    (db : UserDatabase) (user host : String)
    (hsorted : EntriesSorted comp ((db.m_users.lookup user).getD [])) :
    ((∃ y ∈ (db.m_users.lookup user).getD [], y.host_pattern = host) →
        ∃ (pre post : EntryList) (x : UserEntry),
          db.m_users.lookup user = some (pre ++ x :: post)
            ∧ pre.length = lower_bound comp { host_pattern := host } (pre ++ x :: post)
            ∧ x.host_pattern = host
            ∧ (add_proxy_grant comp db user host).m_users.lookup user
              = some (pre ++ { x with proxy_grant := true } :: post))
      ∧ (db.m_users.lookup user = none → add_proxy_grant comp db user host = db)
      ∧ ((∀ y ∈ (db.m_users.lookup user).getD [], y.host_pattern ≠ host) →
          add_proxy_grant comp db user host = db)
      ∧ (add_proxy_grant comp db user host).m_database_grants = db.m_database_grants
      ∧ (add_proxy_grant comp db user host).m_roles_mapping = db.m_roles_mapping
      ∧ (∀ u : String, u ≠ user →
          (add_proxy_grant comp db user host).m_users.lookup u = db.m_users.lookup u)
      ∧ (add_proxy_grant comp db user host = db
        ∨ ∃ (pre post : EntryList) (x : UserEntry),
            db.m_users.lookup user = some (pre ++ x :: post)
              ∧ x.host_pattern = host
              ∧ (add_proxy_grant comp db user host).m_users.lookup user
                = some (pre ++ { x with proxy_grant := true } :: post)) := by
  have hunchanged : (∀ y ∈ (db.m_users.lookup user).getD [], y.host_pattern ≠ host) →
      add_proxy_grant comp db user host = db := by
    intro hno
    rcases add_proxy_grant_shape comp db user host with h | ⟨l, x, hl, hx, hh, _⟩
    · exact h
    · exfalso
      refine hno x ?_ hh
      rw [hl]
      obtain ⟨hi, hxe⟩ := List.getElem?_eq_some.mp hx
      rw [← hxe]
      exact List.getElem_mem hi
  obtain ⟨f1, f2, f3, f4⟩ := add_proxy_grant_frame comp db user host
  refine ⟨?_, ?_, hunchanged, f1, f2, f3, ?_⟩
  · rintro ⟨y, hy, hyhost⟩
    cases hl : db.m_users.lookup user with
    | none => rw [hl] at hy; simp at hy
    | some l =>
      rw [hl] at hy hsorted
      simp only [Option.getD_some] at hy hsorted
      obtain ⟨x, hx, hxhost⟩ :=
        lower_bound_finds_host comp hswo hhost htotal l hsorted { host_pattern := host } y hy
          hyhost
      obtain ⟨hsplit, hlt⟩ := split_at_index l _ x hx
      refine ⟨l.take (lower_bound comp { host_pattern := host } l),
        l.drop (lower_bound comp { host_pattern := host } l + 1), x, ?_, ?_, hxhost, ?_⟩
      · rw [← hsplit]
      · rw [← hsplit, List.length_take]
        omega
      · rw [add_proxy_grant_found comp db user host l x hl hx hxhost]
        simp only
        rw [lookup_map_modify_self, hl]
        simp only [Option.getD_some]
        rw [List.set_eq_take_cons_drop _ hlt]
  · intro hl
    apply hunchanged
    rw [hl]
    intro y hy
    simp at hy
  · rcases f4 with h | ⟨pre, post, x, h1, _, h3, h4⟩
    · exact Or.inl h
    · exact Or.inr ⟨pre, post, x, h1, h3, h4⟩

/-- Scenario of C24: in the list ("bob","10.0.0.5"), ("bob","%") the call
`add_proxy_grant("bob", "%")` sets the flag of the second entry and of no other. -/
theorem add_proxy_grant_effect_witness :
    bob_db_with_proxy.m_users.lookup "bob"
        = some [bob_literal, { bob_wildcard with proxy_grant := true }]
      ∧ (∃ (pre post : EntryList) (x : UserEntry),
          bob_db_literal_first.m_users.lookup "bob" = some (pre ++ x :: post)
            ∧ pre.length
              = lower_bound host_pattern_is_more_specific { host_pattern := "%" }
                (pre ++ x :: post)
            ∧ x.host_pattern = "%"
            ∧ (add_proxy_grant host_pattern_is_more_specific bob_db_literal_first "bob"
                "%").m_users.lookup "bob"
              = some (pre ++ { x with proxy_grant := true } :: post)) :=
  ⟨by decide,
    (add_proxy_grant_effect host_pattern_is_more_specific host_pattern_is_more_specific_swo
      host_pattern_is_more_specific_host host_pattern_is_more_specific_total
      bob_db_literal_first "bob" "%"
      (built_entries_sorted host_pattern_is_more_specific host_pattern_is_more_specific_swo
        bob_db_literal_first
        (BuiltByAddEntry.add _ _ _ (BuiltByAddEntry.add _ _ _ (BuiltByAddEntry.empty [] [])))
        "bob" _ (by decide))).1 ⟨bob_wildcard, by decide, by decide⟩⟩

lemma user_entry_eq_iff (a b : UserEntry) : user_entry_eq a b = true ↔ a = b := by
  cases a
  cases b
  simp only [user_entry_eq, Bool.and_eq_true, decide_eq_true_eq, UserEntry.mk.injEq]
  tauto

lemma entry_list_eq_iff (l1 l2 : EntryList) : entry_list_eq l1 l2 = true ↔ l1 = l2 := by
  induction l1 generalizing l2 with
  | nil => cases l2 <;> simp [entry_list_eq]
  | cons a as ih =>
    cases l2 with
    | nil => simp [entry_list_eq]
    | cons b bs => simp [entry_list_eq, user_entry_eq_iff, ih]

lemma set_eq_iff (a b : StringSet) : set_eq a b = true ↔ ∀ x, x ∈ a ↔ x ∈ b := by
  simp only [set_eq, set_contains, Bool.and_eq_true, List.all_eq_true, decide_eq_true_eq]
  constructor
  · rintro ⟨h1, h2⟩ x
    exact ⟨h1 x, h2 x⟩
  · intro h
    exact ⟨fun x hx => (h x).mp hx, fun x hx => (h x).mpr hx⟩

lemma lookup_none_of_not_key {β : Type} (m : List (String × β)) (k : String)
    (h : k ∉ m.map Prod.fst) : m.lookup k = none := by
  induction m with
  | nil => rfl
  | cons p ps ih =>
    obtain ⟨k1, v1⟩ := p
    simp only [List.map_cons, List.mem_cons, not_or] at h
    have hne : (k == k1) = false := by simpa using h.1
    simp only [List.lookup, hne]
    exact ih h.2

lemma map_eq_iff {β : Type} (veq : β → β → Bool) (m1 m2 : List (String × β)) :
    map_eq veq m1 m2 = true ↔ ∀ k, opt_eq veq (m1.lookup k) (m2.lookup k) = true := by
  simp only [map_eq, List.all_eq_true, List.mem_append]
  constructor
  · intro h k
    by_cases hk : k ∈ m1.map Prod.fst ∨ k ∈ m2.map Prod.fst
    · exact h k hk
    · rw [not_or] at hk
      rw [lookup_none_of_not_key m1 k hk.1, lookup_none_of_not_key m2 k hk.2]
      rfl
  · intro h k _
    exact h k

lemma opt_eq_entry_list_iff (a b : Option EntryList) :
    opt_eq entry_list_eq a b = true ↔ a = b := by
  cases a <;> cases b <;> simp [opt_eq, entry_list_eq_iff]

lemma opt_eq_set_iff (a b : Option StringSet) :
    opt_eq set_eq a b = true ↔ same_set a b := by
  cases a <;> cases b <;> simp [opt_eq, same_set, set_eq_iff]

lemma same_set_refl (a : Option StringSet) : same_set a a := by
  cases a <;> simp [same_set]

lemma same_set_symm (a b : Option StringSet) (h : same_set a b) : same_set b a := by
  cases a <;> cases b <;> simp only [same_set] at h ⊢
  intro s
  exact (h s).symm

lemma same_set_trans (a b c : Option StringSet) (h1 : same_set a b) (h2 : same_set b c) :
    same_set a c := by
  cases a <;> cases b <;> cases c <;> simp only [same_set] at h1 h2 ⊢
  intro s
  exact (h1 s).trans (h2 s)

lemma equal_contents_iff (S T : UserDatabase) :
    equal_contents S T = true ↔
      (∀ u, S.m_users.lookup u = T.m_users.lookup u)
        ∧ (∀ k, same_set (S.m_database_grants.lookup k) (T.m_database_grants.lookup k))
        ∧ (∀ k, same_set (S.m_roles_mapping.lookup k) (T.m_roles_mapping.lookup k)) := by
  simp only [equal_contents, Bool.and_eq_true, map_eq_iff, opt_eq_entry_list_iff,
    opt_eq_set_iff, and_assoc]

/-- C25: `equal_contents` is an equivalence relation on databases: it holds between every
database and itself, its value does not depend on the order of the two databases, and it is
transitive. It holds exactly when the three maps are equal: every user name has the same
entry list (same entries, field by field, in the same order) in both user maps, and every key
has the same set of names in both grant maps and in both role maps. -/
theorem equal_contents_equivalence :
    (∀ S : UserDatabase, equal_contents S S = true)
      ∧ (∀ S T : UserDatabase, equal_contents S T = equal_contents T S)
      ∧ (∀ S T U : UserDatabase, equal_contents S T = true → equal_contents T U = true →
          equal_contents S U = true)
      ∧ (∀ S T : UserDatabase, equal_contents S T = true ↔
          (∀ u, S.m_users.lookup u = T.m_users.lookup u)
            ∧ (∀ k, same_set (S.m_database_grants.lookup k) (T.m_database_grants.lookup k))
            ∧ (∀ k, same_set (S.m_roles_mapping.lookup k) (T.m_roles_mapping.lookup k))) := by
  have hsymm : ∀ S T : UserDatabase, equal_contents S T = true → equal_contents T S = true := by
    intro S T h
    rw [equal_contents_iff] at h ⊢
    exact ⟨fun u => (h.1 u).symm, fun k => same_set_symm _ _ (h.2.1 k),
      fun k => same_set_symm _ _ (h.2.2 k)⟩
  refine ⟨?_, ?_, ?_, equal_contents_iff⟩
  · intro S
    rw [equal_contents_iff]
    exact ⟨fun _ => rfl, fun _ => same_set_refl _, fun _ => same_set_refl _⟩
  · intro S T
    rw [Bool.eq_iff_iff]
    exact ⟨hsymm S T, hsymm T S⟩
  · intro S T U h1 h2
    rw [equal_contents_iff] at h1 h2 ⊢
    exact ⟨fun u => (h1.1 u).trans (h2.1 u),
      fun k => same_set_trans _ _ _ (h1.2.1 k) (h2.2.1 k),
      fun k => same_set_trans _ _ _ (h1.2.2 k) (h2.2.2 k)⟩

/-! ## Throttling of log messages -/

lemma elapsed_ms_of_le (now_ms first_ms : Nat) (h1 : first_ms ≤ now_ms)
    (h2 : now_ms < uint64_size) : elapsed_ms now_ms first_ms = now_ms - first_ms := by
  unfold elapsed_ms
  have h3 : now_ms + uint64_size - first_ms = (now_ms - first_ms) + uint64_size := by omega
  rw [h3, Nat.add_mod_right, Nat.mod_eq_of_lt (by omega)]

lemma update_suppression_calls_length (t : MXB_LOG_THROTTLING) (times : List Nat) :
    ∀ s : MessageRegistryStats, (update_suppression_calls t s times).length = times.length := by
  induction times with
  | nil => intro s; rfl
  | cons x xs ih => intro s; simp [update_suppression_calls, ih]

lemma update_suppression_calls_suppressed (t : MXB_LOG_THROTTLING) (t0 : Nat)
    (hsum : t.window_ms + t.suppress_ms < uint64_size) (times : List Nat)
    (htimes : ∀ x ∈ times, t0 ≤ x ∧ x < t0 + t.window_ms ∧ x < uint64_size) :
    ∀ s : MessageRegistryStats, s.m_first_ms = t0 → t.count ≤ s.m_count →
      s.m_count + times.length < uint64_size →
      update_suppression_calls t s times
        = List.replicate times.length message_suppression_t.MESSAGE_STILL_SUPPRESSED := by
  induction times with
  | nil => intro s _ _ _; rfl
  | cons x xs ih =>
    intro s hfirst hcount hlen
    simp only [List.length_cons] at hlen
    obtain ⟨hx1, hx2, hx3⟩ := htimes x (List.mem_cons_self x xs)
    have hmod : (s.m_count + 1) % uint64_size = s.m_count + 1 := Nat.mod_eq_of_lt (by omega)
    have hel : elapsed_ms x s.m_first_ms = x - t0 := by
      rw [hfirst]; exact elapsed_ms_of_le x t0 hx1 hx3
    have hstep : update_suppression t x s
        = (message_suppression_t.MESSAGE_STILL_SUPPRESSED,
          { m_first_ms := s.m_first_ms, m_last_ms := x, m_count := s.m_count + 1 }) := by
      unfold update_suppression
      simp only [hmod, hel, Nat.mod_eq_of_lt hsum]
      rw [if_neg (by omega), if_neg (by omega), if_pos (by omega)]
    simp only [update_suppression_calls, hstep, List.length_cons, List.replicate_succ]
    congr 1
    exact ih (fun y hy => htimes y (List.mem_cons_of_mem x hy)) _ hfirst
      (by simp only; omega) (by simp only; omega)

lemma update_suppression_calls_counting (t : MXB_LOG_THROTTLING) (t0 : Nat)
    (hsum : t.window_ms + t.suppress_ms < uint64_size) (times : List Nat)
    (htimes : ∀ x ∈ times, t0 ≤ x ∧ x < t0 + t.window_ms ∧ x < uint64_size) :
    ∀ s : MessageRegistryStats, s.m_first_ms = t0 → s.m_count < t.count →
      t.count ≤ s.m_count + times.length → s.m_count + times.length < uint64_size →
      update_suppression_calls t s times
        = List.replicate (t.count - 1 - s.m_count) message_suppression_t.MESSAGE_NOT_SUPPRESSED
          ++ message_suppression_t.MESSAGE_SUPPRESSED
            :: List.replicate (s.m_count + times.length - t.count)
              message_suppression_t.MESSAGE_STILL_SUPPRESSED := by
  induction times with
  | nil =>
    intro s _ h1 h2 _
    simp only [List.length_nil] at h2
    omega
  | cons x xs ih =>
    intro s hfirst hcount hreach hlen
    simp only [List.length_cons] at hlen hreach
    obtain ⟨hx1, hx2, hx3⟩ := htimes x (List.mem_cons_self x xs)
    have hmod : (s.m_count + 1) % uint64_size = s.m_count + 1 := Nat.mod_eq_of_lt (by omega)
    have hel : elapsed_ms x s.m_first_ms = x - t0 := by
      rw [hfirst]; exact elapsed_ms_of_le x t0 hx1 hx3
    have hrest : ∀ y ∈ xs, t0 ≤ y ∧ y < t0 + t.window_ms ∧ y < uint64_size :=
      fun y hy => htimes y (List.mem_cons_of_mem x hy)
    by_cases hlast : s.m_count + 1 = t.count
    · have hstep : update_suppression t x s
          = (message_suppression_t.MESSAGE_SUPPRESSED,
            { m_first_ms := s.m_first_ms, m_last_ms := x, m_count := s.m_count + 1 }) := by
        unfold update_suppression
        simp only [hmod, hel]
        rw [if_neg (by omega), if_pos hlast, if_pos (by omega)]
      have h0 : t.count - 1 - s.m_count = 0 := by omega
      have h1 : s.m_count + (xs.length + 1) - t.count = xs.length := by omega
      simp only [update_suppression_calls, hstep, List.length_cons, h0, h1,
        List.replicate_zero, List.nil_append]
      congr 1
      exact update_suppression_calls_suppressed t t0 hsum xs hrest _ hfirst
        (by simp only; omega) (by simp only; omega)
    · have hstep : update_suppression t x s
          = (message_suppression_t.MESSAGE_NOT_SUPPRESSED,
            { m_first_ms := s.m_first_ms, m_last_ms := x, m_count := s.m_count + 1 }) := by
        unfold update_suppression
        simp only [hmod]
        rw [if_pos (by omega)]
      have h0 : t.count - 1 - s.m_count = (t.count - 1 - (s.m_count + 1)) + 1 := by omega
      have h1 : s.m_count + (xs.length + 1) - t.count = s.m_count + 1 + xs.length - t.count := by
        omega
      simp only [update_suppression_calls, hstep, List.length_cons]
      rw [h0, h1, List.replicate_succ, List.cons_append]
      congr 1
      exact ih hrest _ hfirst (by simp only; omega) (by simp only; omega) (by simp only; omega)

lemma filter_emitted_shape (a b : Nat) :
    (List.replicate a message_suppression_t.MESSAGE_NOT_SUPPRESSED
        ++ message_suppression_t.MESSAGE_SUPPRESSED
          :: List.replicate b message_suppression_t.MESSAGE_STILL_SUPPRESSED).filter
        message_is_emitted
      = List.replicate a message_suppression_t.MESSAGE_NOT_SUPPRESSED
        ++ [message_suppression_t.MESSAGE_SUPPRESSED] := by
  rw [List.filter_append, List.filter_cons]
  have h1 : (List.replicate a message_suppression_t.MESSAGE_NOT_SUPPRESSED).filter
      message_is_emitted = List.replicate a message_suppression_t.MESSAGE_NOT_SUPPRESSED := by
    rw [List.filter_eq_self]
    intro x hx
    rw [List.eq_of_mem_replicate hx]
    rfl
  have h2 : (List.replicate b message_suppression_t.MESSAGE_STILL_SUPPRESSED).filter
      message_is_emitted = [] := by
    rw [List.filter_eq_nil_iff]
    intro x hx
    rw [List.eq_of_mem_replicate hx]
    decide
  rw [h1, h2]
  rfl

lemma filter_suffix_shape (a : Nat) :
    (List.replicate a message_suppression_t.MESSAGE_NOT_SUPPRESSED
        ++ [message_suppression_t.MESSAGE_SUPPRESSED]).filter message_has_suffix
      = [message_suppression_t.MESSAGE_SUPPRESSED] := by
  rw [List.filter_append]
  have h1 : (List.replicate a message_suppression_t.MESSAGE_NOT_SUPPRESSED).filter
      message_has_suffix = [] := by
    rw [List.filter_eq_nil_iff]
    intro x hx
    rw [List.eq_of_mem_replicate hx]
    decide
  rw [h1]
  rfl

/-- C26: a threshold `count` of at least 1 (the sum of window and suppression time and the
number of calls within 64 bits), statistics of a site constructed at clock reading `t0`, and
at least `count` calls of `update_suppression` at clock readings from `t0` on and before
`t0 + window_ms`, in any order: the calls before the `count`-th return
`MESSAGE_NOT_SUPPRESSED`, the `count`-th returns `MESSAGE_SUPPRESSED` and all later ones
`MESSAGE_STILL_SUPPRESSED`; so exactly `count` of the messages are emitted and exactly one
emitted message carries the suppression text. A window and a suppression time above 0, which
`get_status` requires before it calls `update_suppression`, are not needed for this. -/
theorem throttle_count (t : MXB_LOG_THROTTLING) (t0 : Nat) (times : List Nat)
    (hcount : 1 ≤ t.count)
    (hsum : t.window_ms + t.suppress_ms < uint64_size)
    (hcalls : t.count ≤ times.length) (hlen : times.length < uint64_size)
    (htimes : ∀ x ∈ times, t0 ≤ x ∧ x < t0 + t.window_ms ∧ x < uint64_size) :
    update_suppression_calls t (new_stats t0) times
        = List.replicate (t.count - 1) message_suppression_t.MESSAGE_NOT_SUPPRESSED
          ++ message_suppression_t.MESSAGE_SUPPRESSED
            :: List.replicate (times.length - t.count)
              message_suppression_t.MESSAGE_STILL_SUPPRESSED
      ∧ ((update_suppression_calls t (new_stats t0) times).filter message_is_emitted).length
        = t.count
      ∧ (((update_suppression_calls t (new_stats t0) times).filter message_is_emitted).filter
          message_has_suffix).length = 1 := by
  have hshape := update_suppression_calls_counting t t0 hsum times htimes (new_stats t0) rfl
    (by simp only [new_stats]; omega) (by simp only [new_stats]; omega)
    (by simp only [new_stats]; omega)
  simp only [new_stats, Nat.sub_zero, Nat.zero_add] at hshape
  have hshape2 : update_suppression_calls t (new_stats t0) times
      = List.replicate (t.count - 1) message_suppression_t.MESSAGE_NOT_SUPPRESSED
        ++ message_suppression_t.MESSAGE_SUPPRESSED
          :: List.replicate (times.length - t.count)
            message_suppression_t.MESSAGE_STILL_SUPPRESSED := hshape
  refine ⟨hshape2, ?_, ?_⟩
  · rw [hshape2, filter_emitted_shape, List.length_append, List.length_replicate]
    simp only [List.length_singleton]
    omega
  · rw [hshape2, filter_emitted_shape, filter_suffix_shape]
    rfl

/-- Scenario of C26: with the default parameters (10 messages in 1000 ms, suppressed for
10000 ms) and statistics constructed at time 5000, twelve calls at times 5000, 5010, ...
give nine times `MESSAGE_NOT_SUPPRESSED`, once `MESSAGE_SUPPRESSED` and twice
`MESSAGE_STILL_SUPPRESSED`. -/
theorem throttle_count_witness :
    update_suppression_calls DEFAULT_LOG_THROTTLING (new_stats 5000)
        [5000, 5010, 5020, 5030, 5040, 5050, 5060, 5070, 5080, 5090, 5100, 5110]
        = List.replicate 9 message_suppression_t.MESSAGE_NOT_SUPPRESSED
          ++ message_suppression_t.MESSAGE_SUPPRESSED
            :: List.replicate 2 message_suppression_t.MESSAGE_STILL_SUPPRESSED
      ∧ ((update_suppression_calls DEFAULT_LOG_THROTTLING (new_stats 5000)
          [5000, 5010, 5020, 5030, 5040, 5050, 5060, 5070, 5080, 5090, 5100, 5110]).filter
            message_is_emitted).length = 10
      ∧ (((update_suppression_calls DEFAULT_LOG_THROTTLING (new_stats 5000)
          [5000, 5010, 5020, 5030, 5040, 5050, 5060, 5070, 5080, 5090, 5100, 5110]).filter
            message_is_emitted).filter message_has_suffix).length = 1 :=
  throttle_count DEFAULT_LOG_THROTTLING 5000
    [5000, 5010, 5020, 5030, 5040, 5050, 5060, 5070, 5080, 5090, 5100, 5110]
    (by decide) (by decide) (by decide) (by decide) (by decide)

/-- C27: statistics in suppression mode (the counter has reached the threshold), a clock
reading `now_ms` not before `m_first_ms`, all values within 64 bits. If
`now_ms - m_first_ms < window_ms + suppress_ms` the call returns `MESSAGE_STILL_SUPPRESSED`
and leaves `m_first_ms` unchanged (the counter goes up by one); otherwise it returns
`MESSAGE_NOT_SUPPRESSED` and sets `m_first_ms = now_ms` and `m_count = 1`. -/
theorem throttle_reset (t : MXB_LOG_THROTTLING) (s : MessageRegistryStats) (now_ms : Nat)
    (hmode : t.count ≤ s.m_count) (hcount : s.m_count + 1 < uint64_size)
    (hfirst : s.m_first_ms ≤ now_ms) (hnow : now_ms < uint64_size)
    (hsum : t.window_ms + t.suppress_ms < uint64_size) :
    (now_ms - s.m_first_ms < t.window_ms + t.suppress_ms →
        (update_suppression t now_ms s).1 = message_suppression_t.MESSAGE_STILL_SUPPRESSED
          ∧ (update_suppression t now_ms s).2.m_first_ms = s.m_first_ms
          ∧ (update_suppression t now_ms s).2.m_count = s.m_count + 1)
      ∧ (t.window_ms + t.suppress_ms ≤ now_ms - s.m_first_ms →
        (update_suppression t now_ms s).1 = message_suppression_t.MESSAGE_NOT_SUPPRESSED
          ∧ (update_suppression t now_ms s).2.m_first_ms = now_ms
          ∧ (update_suppression t now_ms s).2.m_count = 1) := by
  have hmod : (s.m_count + 1) % uint64_size = s.m_count + 1 := Nat.mod_eq_of_lt hcount
  have hel := elapsed_ms_of_le now_ms s.m_first_ms hfirst hnow
  constructor
  · intro h
    unfold update_suppression
    simp only [hmod, hel, Nat.mod_eq_of_lt hsum]
    rw [if_neg (by omega), if_neg (by omega), if_pos h]
    exact ⟨rfl, rfl, rfl⟩
  · intro h
    unfold update_suppression
    simp only [hmod, hel, Nat.mod_eq_of_lt hsum]
    rw [if_neg (by omega), if_neg (by omega), if_neg (by omega)]
    exact ⟨rfl, rfl, rfl⟩

/-- Scenario of C27: default parameters, statistics with `m_first_ms = 5000` and counter 10.
A call at time 15999 is still suppressed; a call at time 16000 is not, and restarts the
window. -/
theorem throttle_reset_witness :
    (update_suppression DEFAULT_LOG_THROTTLING 15999
        { m_first_ms := 5000, m_last_ms := 5090, m_count := 10 }).1
        = message_suppression_t.MESSAGE_STILL_SUPPRESSED
      ∧ update_suppression DEFAULT_LOG_THROTTLING 16000
          { m_first_ms := 5000, m_last_ms := 5090, m_count := 10 }
        = (message_suppression_t.MESSAGE_NOT_SUPPRESSED,
          { m_first_ms := 16000, m_last_ms := 16000, m_count := 1 })
      ∧ (update_suppression DEFAULT_LOG_THROTTLING 15999
          { m_first_ms := 5000, m_last_ms := 5090, m_count := 10 }).2.m_first_ms = 5000 :=
  ⟨((throttle_reset DEFAULT_LOG_THROTTLING
      { m_first_ms := 5000, m_last_ms := 5090, m_count := 10 } 15999
      (by decide) (by decide) (by decide) (by decide) (by decide)).1 (by decide)).1,
    by decide,
    ((throttle_reset DEFAULT_LOG_THROTTLING
      { m_first_ms := 5000, m_last_ms := 5090, m_count := 10 } 15999
      (by decide) (by decide) (by decide) (by decide) (by decide)).1 (by decide)).2.1⟩

/-- C28: when one of the three throttling parameters is zero, `get_status` returns
`MESSAGE_NOT_SUPPRESSED` for every site and at every clock reading and returns the registry
as it was: no statistics are created or changed. `mxb_log_set_throttling` reports exactly
these parameter values as disabling the throttling. -/
theorem get_status_disabled (t : MXB_LOG_THROTTLING) (registry : Registry) (file : Nat)
    (line : Int) (clock now_ms : Nat)
    (hzero : t.count = 0 ∨ t.window_ms = 0 ∨ t.suppress_ms = 0) :
    get_status t registry file line clock now_ms
        = (message_suppression_t.MESSAGE_NOT_SUPPRESSED, registry)
      ∧ (mxb_log_set_throttling t).2 = true := by
  constructor
  · unfold get_status
    rw [if_neg]
    rintro ⟨h1, h2, h3⟩
    rcases hzero with h | h | h
    · exact h1 h
    · exact h2 h
    · exact h3 h
  · simp only [mxb_log_set_throttling, Bool.or_eq_true, decide_eq_true_eq]
    tauto

/-- Scenario of C28: with all three parameters zero, and with only the window zero, a call
for site (7, 42) leaves an empty registry empty. -/
theorem get_status_disabled_witness :
    get_status { count := 0, window_ms := 0, suppress_ms := 0 } [] 7 42 100 100
        = (message_suppression_t.MESSAGE_NOT_SUPPRESSED, [])
      ∧ get_status { count := 10, window_ms := 0, suppress_ms := 10000 } [] 7 42 100 100
        = (message_suppression_t.MESSAGE_NOT_SUPPRESSED, [])
      ∧ (get_status DEFAULT_LOG_THROTTLING [] 7 42 100 100).2
        = [({ filename := 7, linenumber := 42 },
            { m_first_ms := 100, m_last_ms := 100, m_count := 1 })] :=
  ⟨(get_status_disabled { count := 0, window_ms := 0, suppress_ms := 0 } [] 7 42 100 100
      (Or.inl rfl)).1,
    (get_status_disabled { count := 10, window_ms := 0, suppress_ms := 10000 } [] 7 42 100 100
      (Or.inr (Or.inl rfl))).1,
    by decide⟩

/-! ## Loading of the user accounts -/

lemma load_users_loop_done (bs : List Backend) (st : LoadState)
    (h : st.load_result ≠ LoadResult.QUERY_FAILED) : load_users_loop bs st = st := by
  cases bs with
  | nil => rfl
  | cons b rest => simp [load_users_loop, h]

lemma load_users_body_passed (srv : Backend) (st : LoadState)
    (h : passed_over srv = true) (hq : st.load_result = LoadResult.QUERY_FAILED) :
    load_users_body srv st
      = { st with
          found_valid_server := st.found_valid_server || (srv.is_active && srv.is_usable)
          contacted := st.contacted ++ (if srv.is_active && srv.is_usable then [srv] else [])
          iterations := st.iterations + 1 } := by
  obtain ⟨a, u, o, r, d⟩ := srv
  obtain ⟨db, lr, f, c, i, n⟩ := st
  simp only at hq
  subst hq
  cases a <;> cases u <;> cases o <;> cases r <;>
    simp [passed_over] at h <;> simp [load_users_body]

lemma load_users_body_ends (srv : Backend) (st : LoadState) (h : ends_iteration srv = true) :
    srv.load_result ≠ LoadResult.QUERY_FAILED
      ∧ (srv.is_active && srv.is_usable && srv.open_ok) = true
      ∧ load_users_body srv st
        = { m_userdb :=
              if srv.load_result = LoadResult.SUCCESS
                  ∧ equal_contents srv.temp_userdata st.m_userdb = false then
                srv.temp_userdata
              else st.m_userdb
            load_result := srv.load_result
            found_valid_server := true
            contacted := st.contacted ++ [srv]
            iterations := st.iterations + 1
            cache_syncs :=
              st.cache_syncs
                + (if srv.load_result = LoadResult.SUCCESS
                    ∧ equal_contents srv.temp_userdata st.m_userdb = false then 1 else 0) } := by
  obtain ⟨a, u, o, r, d⟩ := srv
  obtain ⟨db, lr, f, c, i, n⟩ := st
  cases a <;> cases u <;> cases o <;> cases r <;>
    simp [ends_iteration, passed_over] at h
  · refine ⟨by simp, rfl, ?_⟩
    cases he : equal_contents d db <;> simp [load_users_body, he]
  · exact ⟨by simp, rfl, by simp [load_users_body]⟩

lemma load_users_loop_passed (pre : List Backend) :
    ∀ (st : LoadState) (rest : List Backend), st.load_result = LoadResult.QUERY_FAILED →
      (∀ x ∈ pre, passed_over x = true) →
      load_users_loop (pre ++ rest) st
        = load_users_loop rest
          { st with
            found_valid_server :=
              st.found_valid_server || pre.any (fun x => x.is_active && x.is_usable)
            contacted := st.contacted ++ pre.filter (fun x => x.is_active && x.is_usable)
            iterations := st.iterations + pre.length } := by
  induction pre with
  | nil =>
    intro st rest _ _
    simp
  | cons b bs ih =>
    intro st rest hq hall
    have hb := hall b (List.mem_cons_self b bs)
    have h2 := ih
      { st with
        found_valid_server := st.found_valid_server || (b.is_active && b.is_usable)
        contacted := st.contacted ++ (if b.is_active && b.is_usable then [b] else [])
        iterations := st.iterations + 1 } rest hq
      (fun x hx => hall x (List.mem_cons_of_mem b hx))
    rw [List.cons_append, load_users_loop, if_pos hq, load_users_body_passed b st hb hq, h2]
    congr 1
    cases hau : (b.is_active && b.is_usable) <;>
      simp [hau, List.filter_cons, Nat.add_assoc, Nat.add_comm 1]

lemma backends_split (bs : List Backend) :
    (∀ x ∈ bs, passed_over x = true)
      ∨ ∃ (pre : List Backend) (b : Backend) (post : List Backend),
          bs = pre ++ b :: post ∧ (∀ x ∈ pre, passed_over x = true)
            ∧ ends_iteration b = true := by
  induction bs with
  | nil => left; intro x hx; simp at hx
  | cons b rest ih =>
    by_cases hb : passed_over b = true
    · rcases ih with h | ⟨pre, e, post, h1, h2, h3⟩
      · left
        intro x hx
        rcases List.mem_cons.mp hx with rfl | hx
        · exact hb
        · exact h x hx
      · right
        refine ⟨b :: pre, e, post, by rw [h1]; rfl, ?_, h3⟩
        intro x hx
        rcases List.mem_cons.mp hx with rfl | hx
        · exact hb
        · exact h2 x hx
    · right
      exact ⟨[], b, rest, rfl, fun x hx => by simp at hx, by simp [ends_iteration, hb]⟩

lemma load_users_all_passed (cur : UserDatabase) (warn : Bool) (bs : List Backend)
    (hall : ∀ x ∈ bs, passed_over x = true) :
    load_users cur warn bs
      = { rval := false
          m_userdb := cur
          contacted := bs.filter (fun x => x.is_active && x.is_usable)
          iterations := bs.length
          cache_syncs := 0
          no_servers_error := !(bs.any (fun x => x.is_active && x.is_usable)) && warn } := by
  have h := load_users_loop_passed bs
    { m_userdb := cur, load_result := LoadResult.QUERY_FAILED, found_valid_server := false,
      contacted := [], iterations := 0, cache_syncs := 0 } [] rfl hall
  rw [List.append_nil] at h
  unfold load_users
  simp only [h, load_users_loop]
  simp

lemma load_users_ended (cur : UserDatabase) (warn : Bool) (pre : List Backend) (b : Backend)
    (post : List Backend) (hall : ∀ x ∈ pre, passed_over x = true)
    (hb : ends_iteration b = true) :
    load_users cur warn (pre ++ b :: post)
      = { rval := decide (b.load_result = LoadResult.SUCCESS)
          m_userdb :=
            if b.load_result = LoadResult.SUCCESS
                ∧ equal_contents b.temp_userdata cur = false then
              b.temp_userdata
            else cur
          contacted := pre.filter (fun x => x.is_active && x.is_usable) ++ [b]
          iterations := pre.length + 1
          cache_syncs :=
            if b.load_result = LoadResult.SUCCESS
                ∧ equal_contents b.temp_userdata cur = false then 1 else 0
          no_servers_error := false } := by
  have h := load_users_loop_passed pre
    { m_userdb := cur, load_result := LoadResult.QUERY_FAILED, found_valid_server := false,
      contacted := [], iterations := 0, cache_syncs := 0 } (b :: post) rfl hall
  obtain ⟨hne, _, hbody⟩ := load_users_body_ends b
    { m_userdb := cur, load_result := LoadResult.QUERY_FAILED,
      found_valid_server := false || pre.any (fun x => x.is_active && x.is_usable),
      contacted := [] ++ pre.filter (fun x => x.is_active && x.is_usable),
      iterations := 0 + pre.length, cache_syncs := 0 } hb
  unfold load_users
  simp only [h]
  simp only [load_users_loop, if_true]
  rw [hbody, load_users_loop_done post _ hne]
  simp

/-- C29: the iteration of `load_users` over the backends. When every server of the list is
passed over (not active and usable, or the connection fails, or the load yields
`QUERY_FAILED`), all servers are examined in list order, a connection is tried on each active
and usable one, and `load_users` returns false. When a server `b` that yields `SUCCESS` or
`INVALID_DATA` comes after servers `pre` that are all passed over, the loop ends with `b`:
connections are tried on the active and usable servers of `pre` and on `b`, in this order, on
no server after `b`, and `load_users` returns true exactly when the outcome of `b` is
`SUCCESS`. Every list of servers is of one of these two forms. `load_users_mariadb` yields
`QUERY_FAILED` when a query it needs fails, `INVALID_DATA` when the queries succeed and
`read_users_mariadb` fails, and `SUCCESS` otherwise. -/
theorem load_users_iteration (cur : UserDatabase) (warn : Bool) :
    (∀ bs : List Backend, (∀ x ∈ bs, passed_over x = true) →
        (load_users cur warn bs).rval = false
          ∧ (load_users cur warn bs).iterations = bs.length
          ∧ (load_users cur warn bs).contacted
            = bs.filter (fun x => x.is_active && x.is_usable))
      ∧ (∀ (pre : List Backend) (b : Backend) (post : List Backend),
          (∀ x ∈ pre, passed_over x = true) → ends_iteration b = true →
          ((load_users cur warn (pre ++ b :: post)).rval = true
              ↔ b.load_result = LoadResult.SUCCESS)
            ∧ (load_users cur warn (pre ++ b :: post)).iterations = pre.length + 1
            ∧ (load_users cur warn (pre ++ b :: post)).contacted
              = pre.filter (fun x => x.is_active && x.is_usable) ++ [b]
            ∧ (b.load_result = LoadResult.SUCCESS ∨ b.load_result = LoadResult.INVALID_DATA)
            ∧ (b.is_active && b.is_usable && b.open_ok) = true)
      ∧ (∀ bs : List Backend,
          (∀ x ∈ bs, passed_over x = true)
            ∨ ∃ (pre : List Backend) (b : Backend) (post : List Backend),
                bs = pre ++ b :: post ∧ (∀ x ∈ pre, passed_over x = true)
                  ∧ ends_iteration b = true)
      ∧ (∀ (users_res dbs_res proxies_res roles_res : Bool) (version_total : Nat)
          (read_users : Bool),
          (load_users_mariadb users_res dbs_res proxies_res roles_res version_total read_users
              = LoadResult.QUERY_FAILED
            ↔ ¬ (users_res = true ∧ dbs_res = true ∧ proxies_res = true
                ∧ (version_total ≥ 100005 → roles_res = true)))
          ∧ (load_users_mariadb users_res dbs_res proxies_res roles_res version_total read_users
              = LoadResult.INVALID_DATA
            ↔ (users_res = true ∧ dbs_res = true ∧ proxies_res = true
                ∧ (version_total ≥ 100005 → roles_res = true)) ∧ read_users = false)
          ∧ (load_users_mariadb users_res dbs_res proxies_res roles_res version_total read_users
              = LoadResult.SUCCESS
            ↔ (users_res = true ∧ dbs_res = true ∧ proxies_res = true
                ∧ (version_total ≥ 100005 → roles_res = true)) ∧ read_users = true)) := by
  refine ⟨?_, ?_, backends_split, ?_⟩
  · intro bs hall
    rw [load_users_all_passed cur warn bs hall]
    exact ⟨rfl, rfl, rfl⟩
  · intro pre b post hall hb
    rw [load_users_ended cur warn pre b post hall hb]
    obtain ⟨hne, hau, _⟩ := load_users_body_ends b
      { m_userdb := cur, load_result := LoadResult.QUERY_FAILED, found_valid_server := false,
        contacted := [], iterations := 0, cache_syncs := 0 } hb
    refine ⟨by simp, rfl, rfl, ?_, hau⟩
    cases hr : b.load_result
    · exact Or.inl rfl
    · exact absurd hr hne
    · exact Or.inr rfl
  · intro users_res dbs_res proxies_res roles_res version_total read_users
    unfold load_users_mariadb
    by_cases hv : version_total ≥ 100005 <;>
      cases users_res <;> cases dbs_res <;> cases proxies_res <;> cases roles_res <;>
        cases read_users <;> simp [hv]

/-- C30: the database published by `load_users`. When a server `b` that yields `SUCCESS` or
`INVALID_DATA` comes after servers that are all passed over: if `b` yields `SUCCESS` with a
database whose `equal_contents` with the published one is false, that database is published
and the caches are signalled once; if the contents are equal, or `b` yields `INVALID_DATA`,
the published database stays and the caches are not signalled. When every server is passed
over (in particular when none is usable) the published database stays and the caches are not
signalled. So the published database differs from the one before the call only if the first
server not passed over yields `SUCCESS` with a database of unequal contents, which is then
the published one. -/
theorem load_users_publication (cur : UserDatabase) (warn : Bool) :
    (∀ (pre : List Backend) (b : Backend) (post : List Backend),
        (∀ x ∈ pre, passed_over x = true) → ends_iteration b = true →
        (b.load_result = LoadResult.SUCCESS → equal_contents b.temp_userdata cur = false →
            (load_users cur warn (pre ++ b :: post)).m_userdb = b.temp_userdata
              ∧ (load_users cur warn (pre ++ b :: post)).cache_syncs = 1)
          ∧ (b.load_result = LoadResult.SUCCESS → equal_contents b.temp_userdata cur = true →
            (load_users cur warn (pre ++ b :: post)).m_userdb = cur
              ∧ (load_users cur warn (pre ++ b :: post)).cache_syncs = 0)
          ∧ (b.load_result = LoadResult.INVALID_DATA →
            (load_users cur warn (pre ++ b :: post)).m_userdb = cur
              ∧ (load_users cur warn (pre ++ b :: post)).cache_syncs = 0))
      ∧ (∀ bs : List Backend, (∀ x ∈ bs, passed_over x = true) →
          (load_users cur warn bs).m_userdb = cur ∧ (load_users cur warn bs).cache_syncs = 0)
      ∧ (∀ bs : List Backend,
          (load_users cur warn bs).m_userdb ≠ cur ∨ (load_users cur warn bs).cache_syncs ≠ 0 →
          ∃ (pre : List Backend) (b : Backend) (post : List Backend),
            bs = pre ++ b :: post ∧ (∀ x ∈ pre, passed_over x = true)
              ∧ (b.is_active && b.is_usable && b.open_ok) = true
              ∧ b.load_result = LoadResult.SUCCESS
              ∧ equal_contents b.temp_userdata cur = false
              ∧ (load_users cur warn bs).m_userdb = b.temp_userdata
              ∧ (load_users cur warn bs).cache_syncs = 1) := by
  refine ⟨?_, ?_, ?_⟩
  · intro pre b post hall hb
    rw [load_users_ended cur warn pre b post hall hb]
    refine ⟨?_, ?_, ?_⟩
    · intro h1 h2
      simp [h1, h2]
    · intro h1 h2
      simp [h1, h2]
    · intro h1
      simp [h1]
  · intro bs hall
    rw [load_users_all_passed cur warn bs hall]
    exact ⟨rfl, rfl⟩
  · intro bs hdiff
    rcases backends_split bs with hall | ⟨pre, b, post, hbs, hall, hb⟩
    · rw [load_users_all_passed cur warn bs hall] at hdiff
      simp at hdiff
    · obtain ⟨_, hau, _⟩ := load_users_body_ends b
        { m_userdb := cur, load_result := LoadResult.QUERY_FAILED, found_valid_server := false,
          contacted := [], iterations := 0, cache_syncs := 0 } hb
      subst hbs
      rw [load_users_ended cur warn pre b post hall hb] at hdiff ⊢
      by_cases hc : b.load_result = LoadResult.SUCCESS
          ∧ equal_contents b.temp_userdata cur = false
      · exact ⟨pre, b, post, rfl, hall, hau, hc.1, hc.2, by simp [hc], by simp [hc]⟩
      · simp [hc] at hdiff

/-- Scenario of C29: of the servers down, refusing, failing the query, good, later, the
first three are passed over, the fourth ends the loop with `SUCCESS` and the fifth is never
contacted; with the server delivering invalid data in fourth place `load_users` returns
false and the good server behind it is not contacted. -/
theorem load_users_iteration_witness :
    ((load_users {} true [srv_down, srv_refuses, srv_query_fails, srv_good, srv_later]).rval
        = true ↔ srv_good.load_result = LoadResult.SUCCESS)
      ∧ (load_users {} true
          [srv_down, srv_refuses, srv_query_fails, srv_good, srv_later]).iterations = 4
      ∧ (load_users {} true
          [srv_down, srv_refuses, srv_query_fails, srv_good, srv_later]).contacted
        = [srv_refuses, srv_query_fails, srv_good]
      ∧ (load_users {} true [srv_down, srv_refuses, srv_query_fails, srv_invalid, srv_good]).rval
        = false
      ∧ (load_users {} true
          [srv_down, srv_refuses, srv_query_fails, srv_invalid, srv_good]).contacted
        = [srv_refuses, srv_query_fails, srv_invalid] :=
  ⟨((load_users_iteration {} true).2.1 [srv_down, srv_refuses, srv_query_fails] srv_good
      [srv_later] (by decide) (by decide)).1,
    ((load_users_iteration {} true).2.1 [srv_down, srv_refuses, srv_query_fails] srv_good
      [srv_later] (by decide) (by decide)).2.1,
    ((load_users_iteration {} true).2.1 [srv_down, srv_refuses, srv_query_fails] srv_good
      [srv_later] (by decide) (by decide)).2.2.1,
    by decide, by decide⟩

/-- Scenario of C30: starting from an empty database the good server in fourth place gets
its database published with one signal to the caches; when the published database already
has these contents nothing is published and nothing signalled, and the same holds when all
servers are passed over. -/
theorem load_users_publication_witness :
    ((load_users {} true
          [srv_down, srv_refuses, srv_query_fails, srv_good, srv_later]).m_userdb
        = bob_db_literal_first
      ∧ (load_users {} true
          [srv_down, srv_refuses, srv_query_fails, srv_good, srv_later]).cache_syncs = 1)
      ∧ ((load_users bob_db_literal_first true
          [srv_down, srv_refuses, srv_query_fails, srv_good, srv_later]).m_userdb
        = bob_db_literal_first
      ∧ (load_users bob_db_literal_first true
          [srv_down, srv_refuses, srv_query_fails, srv_good, srv_later]).cache_syncs = 0)
      ∧ ((load_users bob_db_literal_first true
          [srv_down, srv_refuses, srv_query_fails]).m_userdb = bob_db_literal_first
      ∧ (load_users bob_db_literal_first true
          [srv_down, srv_refuses, srv_query_fails]).cache_syncs = 0) :=
  ⟨((load_users_publication {} true).1 [srv_down, srv_refuses, srv_query_fails] srv_good
      [srv_later] (by decide) (by decide)).1 rfl (by decide),
    ((load_users_publication bob_db_literal_first true).1
      [srv_down, srv_refuses, srv_query_fails] srv_good
      [srv_later] (by decide) (by decide)).2.1 rfl (by decide),
    (load_users_publication bob_db_literal_first true).2.1
      [srv_down, srv_refuses, srv_query_fails] (by decide)⟩

/-! ## Case-insensitive comparison of schema names -/

lemma grant_set_contains_widens (s : StringSet) (db : String)
    (h : grant_set_contains s db true) : grant_set_contains s db false := by
  unfold grant_set_contains at h ⊢
  simp only [if_true] at h
  simp only [Bool.false_eq_true, if_false]
  exact ⟨db, h, rfl⟩

lemma user_can_access_db_widens (udb : UserDatabase) (user host_pattern db : String)
    (h : user_can_access_db udb user host_pattern db true = true) :
    user_can_access_db udb user host_pattern db false = true := by
  rw [user_can_access_db_iff] at h ⊢
  obtain ⟨s, hs, hc⟩ := h
  exact ⟨s, hs, grant_set_contains_widens s db hc⟩

lemma role_can_access_db_widens (udb : UserDatabase) (role db : String)
    (h : role_can_access_db udb role db true = true) :
    role_can_access_db udb role db false = true := by
  rw [role_can_access_db_reach] at h ⊢
  obtain ⟨r, hreach, hg⟩ := h
  refine ⟨r, hreach, ?_⟩
  unfold role_grants at hg ⊢
  rcases hg with hg | ⟨s, hs, hc⟩
  · exact Or.inl hg
  · exact Or.inr ⟨s, hs, grant_set_contains_widens s db hc⟩

/-- C40: if `check_database_access(entry, db, case_sensitive_db = true)` is true then
`check_database_access(entry, db, case_sensitive_db = false)` is true as well; this holds
for the direct grants and for `role_can_access_db`, through which the default role gives
access. -/
theorem case_insensitive_widens_access (udb : UserDatabase) (entry : UserEntry) (db : String)
    (h : check_database_access udb entry db true = true) :
    check_database_access udb entry db false = true
      ∧ (∀ role : String, role_can_access_db udb role db true = true →
          role_can_access_db udb role db false = true) := by
  refine ⟨?_, fun role hr => role_can_access_db_widens udb role db hr⟩
  unfold check_database_access at h ⊢
  simp only [Bool.or_eq_true, Bool.and_eq_true] at h ⊢
  rcases h with ((h | h) | h) | ⟨⟨h1, h2⟩, h3⟩
  · exact Or.inl (Or.inl (Or.inl h))
  · exact Or.inl (Or.inl (Or.inr h))
  · exact Or.inl (Or.inr (user_can_access_db_widens udb _ _ db h))
  · exact Or.inr ⟨⟨h1, h2⟩, role_can_access_db_widens udb _ db h3⟩

/-- Scenario of C40: "erin"@"%" is granted "Sales"; the schema "Sales" is accessible under
both comparisons, the schema "sales" only under the case-insensitive one. -/
theorem case_insensitive_widens_access_witness :
    check_database_access erin_db erin "Sales" true = true
      ∧ check_database_access erin_db erin "Sales" false = true
      ∧ check_database_access erin_db erin "sales" true = false
      ∧ check_database_access erin_db erin "sales" false = true :=
  ⟨by decide,
    (case_insensitive_widens_access erin_db erin "Sales" (by decide)).1,
    by decide, by decide⟩

/-! ## Failures of the packet parser and optional attributes -/

lemma parse_auth_token_failure (env : WireEnv) (data : ByteVec) (caps : Nat)
    (r : AuthParseResult) (rest : ByteVec)
    (h : parse_auth_token env data caps = some (r, rest)) (hf : r.success = false) :
    rest = data ∧ r.auth_token = [] := by
  unfold parse_auth_token at h
  by_cases hd : data = []
  · rw [if_pos hd] at h
    simp only [Option.some.injEq, Prod.mk.injEq] at h
    rw [← h.1, ← h.2]
    exact ⟨rfl, rfl⟩
  · rw [if_neg hd] at h
    simp only at h
    split_ifs at h with h1 h2 h3
    · cases hr : read_range data (auth_token_header env data caps).2.1
          (auth_token_header env data caps).2.2.1 with
      | none => rw [hr] at h; cases h
      | some tok =>
        rw [hr] at h
        simp only at h
        cases hp : pop_front data (((auth_token_header env data caps).2.1
            + (auth_token_header env data caps).2.2.1) % uint64_size) with
        | none => rw [hp] at h; cases h
        | some d1 =>
          rw [hp] at h
          simp only [Option.some.injEq, Prod.mk.injEq] at h
          rw [← h.1] at hf
          cases hf
    · simp only at h
      cases hp : pop_front data (((auth_token_header env data caps).2.1
          + (auth_token_header env data caps).2.2.1) % uint64_size) with
      | none => rw [hp] at h; cases h
      | some d1 =>
        rw [hp] at h
        simp only [Option.some.injEq, Prod.mk.injEq] at h
        rw [← h.1] at hf
        cases hf
    · simp only [Option.some.injEq, Prod.mk.injEq] at h
      rw [← h.1, ← h.2]
      exact ⟨rfl, rfl⟩
    · simp only [Option.some.injEq, Prod.mk.injEq] at h
      rw [← h.1, ← h.2]
      exact ⟨rfl, rfl⟩

lemma parse_auth_token_undefined (env : WireEnv) (data : ByteVec) (caps : Nat)
    (h : parse_auth_token env data caps = none) :
    data ≠ [] ∧ (auth_token_header env data caps).1 = false
      ∧ ((auth_token_header env data caps).2.1 + (auth_token_header env data caps).2.2.1)
          % uint64_size ≤ data.length := by
  unfold parse_auth_token at h
  by_cases hd : data = []
  · rw [if_pos hd] at h
    cases h
  · rw [if_neg hd] at h
    simp only at h
    split_ifs at h with h1 h2 h3
    · exact ⟨hd, by simpa using h1, h2⟩
    · exact ⟨hd, by simpa using h1, h2⟩

lemma parse_attributes_failure (env : WireEnv) (data : ByteVec) (caps : Nat)
    (r : AttrParseResult) (rest : ByteVec)
    (h : parse_attributes env data caps = some (r, rest)) (hf : r.success = false) :
    rest = data ∧ r.attr_data = [] := by
  unfold parse_attributes at h
  by_cases hd : data = []
  · rw [if_pos hd] at h
    simp only [Option.some.injEq, Prod.mk.injEq] at h
    rw [← h.1, ← h.2]
    exact ⟨rfl, rfl⟩
  · rw [if_neg hd] at h
    simp only at h
    split_ifs at h with h1 h2 h3 h4
    · rw [read_range_of_le _ _ _ (by omega), pop_front_of_le _ _ h4] at h
      simp only [Option.some.injEq, Prod.mk.injEq] at h
      rw [← h.1] at hf
      cases hf
    all_goals
      simp only [Option.some.injEq, Prod.mk.injEq] at h
      rw [← h.1, ← h.2]
      exact ⟨rfl, rfl⟩

/-- C36: a failed parse leaves the buffer alone. If `parse_auth_token` returns with
`success = false`, the buffer is as before the call and `auth_token` is empty; the one way
for the call not to return a result is the copy of a token range that lies outside the
buffer, which the code reaches only after it has set `success = true`. `parse_attributes`
returns for every input, and if it returns `success = false` the buffer is as before the
call and `attr_data` is empty. -/
theorem parse_failure_leaves_buffer (env : WireEnv) (data : ByteVec) (client_caps : Nat) :
    (∀ (r : AuthParseResult) (rest : ByteVec),
        parse_auth_token env data client_caps = some (r, rest) → r.success = false →
        rest = data ∧ r.auth_token = [])
      ∧ (parse_auth_token env data client_caps = none →
          data ≠ [] ∧ (auth_token_header env data client_caps).1 = false
            ∧ ((auth_token_header env data client_caps).2.1
                + (auth_token_header env data client_caps).2.2.1) % uint64_size
              ≤ data.length)
      ∧ (∃ (r : AttrParseResult) (n : Nat),
          parse_attributes env data client_caps = some (r, data.drop n))
      ∧ (∀ (r : AttrParseResult) (rest : ByteVec),
          parse_attributes env data client_caps = some (r, rest) → r.success = false →
          rest = data ∧ r.attr_data = []) :=
  ⟨fun r rest h hf => parse_auth_token_failure env data client_caps r rest h hf,
    parse_auth_token_undefined env data client_caps,
    parse_attributes_defined env data client_caps,
    fun r rest h hf => parse_attributes_failure env data client_caps r rest h hf⟩

/-- Scenario of C36: a token announced as 5 bytes in a buffer that holds 2 of them, and
attributes announced as 4 bytes in a buffer that holds 1 of them: both calls fail, return
nothing and leave the buffer as it was. -/
theorem parse_failure_leaves_buffer_witness :
    parse_auth_token spec_wire [5, 1, 2] spec_wire.GW_MYSQL_CAPABILITIES_SECURE_CONNECTION
        = some ({ success := false, auth_token := [], old_protocol := false }, [5, 1, 2])
      ∧ parse_attributes spec_wire [4, 1] spec_wire.GW_MYSQL_CAPABILITIES_CONNECT_ATTRS
        = some ({ success := false, attr_data := [] }, [4, 1])
      ∧ (∀ (r : AuthParseResult) (rest : ByteVec),
          parse_auth_token spec_wire [5, 1, 2]
              spec_wire.GW_MYSQL_CAPABILITIES_SECURE_CONNECTION = some (r, rest) →
          r.success = false → rest = [5, 1, 2] ∧ r.auth_token = []) :=
  ⟨by decide, by decide,
    (parse_failure_leaves_buffer spec_wire [5, 1, 2]
      spec_wire.GW_MYSQL_CAPABILITIES_SECURE_CONNECTION).1⟩

lemma drops_noticed_of_threshold (t : MXB_LOG_THROTTLING) (hcount : 2 ≤ t.count)
    (times : List Nat) :
    ∀ (s : MessageRegistryStats) (noticed : Bool), s.m_count < uint64_size →
      (t.count ≤ s.m_count → noticed = true) →
      drops_noticed noticed (update_suppression_trace t s times) = true := by
  induction times with
  | nil => intro s noticed _ _; rfl
  | cons x xs ih =>
    intro s noticed hlt hinv
    have hmodlt : (s.m_count + 1) % uint64_size < uint64_size :=
      Nat.mod_lt _ (by unfold uint64_size; omega)
    have hone : (1 : Nat) < uint64_size := by unfold uint64_size; omega
    unfold update_suppression_trace
    by_cases h1 : (s.m_count + 1) % uint64_size < t.count
    · have hst : update_suppression t x s
          = (message_suppression_t.MESSAGE_NOT_SUPPRESSED,
            { m_first_ms := s.m_first_ms, m_last_ms := x,
              m_count := (s.m_count + 1) % uint64_size }) := by
        unfold update_suppression
        simp only
        rw [if_pos h1]
      have hrs : update_resets t x s = false := by
        unfold update_resets
        simp only
        rw [if_pos h1]
      rw [hst, hrs]
      simp only [drops_noticed, Bool.false_eq_true, if_false]
      exact ih _ noticed hmodlt (fun h => absurd h (by simp only; omega))
    · by_cases h2 : (s.m_count + 1) % uint64_size = t.count
      · by_cases h3 : elapsed_ms x s.m_first_ms < t.window_ms
        · have hst : update_suppression t x s
              = (message_suppression_t.MESSAGE_SUPPRESSED,
                { m_first_ms := s.m_first_ms, m_last_ms := x,
                  m_count := (s.m_count + 1) % uint64_size }) := by
            unfold update_suppression
            simp only
            rw [if_neg h1, if_pos h2, if_pos h3]
          rw [hst]
          simp only [drops_noticed]
          exact ih _ true hmodlt (fun _ => rfl)
        · have hst : update_suppression t x s
              = (message_suppression_t.MESSAGE_NOT_SUPPRESSED,
                { m_first_ms := x, m_last_ms := x, m_count := 1 }) := by
            unfold update_suppression
            simp only
            rw [if_neg h1, if_pos h2, if_neg h3]
          have hrs : update_resets t x s = true := by
            unfold update_resets
            simp only
            rw [if_neg h1, if_pos h2]
            simp [h3]
          rw [hst, hrs]
          simp only [drops_noticed, if_true]
          exact ih _ false hone (fun h => absurd h (by simp only; omega))
      · have hnoticed : noticed = true := by
          apply hinv
          by_cases hw : s.m_count + 1 < uint64_size
          · rw [Nat.mod_eq_of_lt hw] at h1 h2
            omega
          · have hz : s.m_count + 1 = uint64_size := by omega
            rw [hz, Nat.mod_self] at h1
            omega
        by_cases h3 : elapsed_ms x s.m_first_ms < (t.window_ms + t.suppress_ms) % uint64_size
        · have hst : update_suppression t x s
              = (message_suppression_t.MESSAGE_STILL_SUPPRESSED,
                { m_first_ms := s.m_first_ms, m_last_ms := x,
                  m_count := (s.m_count + 1) % uint64_size }) := by
            unfold update_suppression
            simp only
            rw [if_neg h1, if_neg h2, if_pos h3]
          rw [hst, hnoticed]
          simp only [drops_noticed, Bool.true_and]
          exact ih _ true hmodlt (fun _ => rfl)
        · have hst : update_suppression t x s
              = (message_suppression_t.MESSAGE_NOT_SUPPRESSED,
                { m_first_ms := x, m_last_ms := x, m_count := 1 }) := by
            unfold update_suppression
            simp only
            rw [if_neg h1, if_neg h2, if_neg h3]
          have hrs : update_resets t x s = true := by
            unfold update_resets
            simp only
            rw [if_neg h1, if_neg h2]
            simp [h3]
          rw [hst, hrs]
          simp only [drops_noticed, if_true]
          exact ih _ false hone (fun h => absurd h (by simp only; omega))

lemma drops_noticed_from_fresh (t : MXB_LOG_THROTTLING) (hcount : 2 ≤ t.count) (t0 : Nat)
    (times : List Nat) :
    drops_noticed false (update_suppression_trace t (new_stats t0) times) = true :=
  drops_noticed_of_threshold t hcount times (new_stats t0) false
    (by simp only [new_stats]; unfold uint64_size; omega)
    (fun h => absurd h (by simp only [new_stats]; omega))

/-- C37 at the failing input: threshold 1, window 1000 ms, suppression 10000 ms, fresh
statistics constructed at time 0. Calls at times 0, 11000 and 11001 return
`MESSAGE_SUPPRESSED`, then `MESSAGE_NOT_SUPPRESSED` with a reset of `m_first_ms` and
`m_count`, then `MESSAGE_STILL_SUPPRESSED`: the third message is dropped although no call
since the reset returned `MESSAGE_SUPPRESSED`. Calls at times 1000 and 1001 return
`MESSAGE_NOT_SUPPRESSED` with a reset and then `MESSAGE_STILL_SUPPRESSED`, with no
`MESSAGE_SUPPRESSED` at all. -/
theorem still_suppressed_without_notice :
    update_suppression_trace throttle_one (new_stats 0) [0, 11000, 11001]
        = [(message_suppression_t.MESSAGE_SUPPRESSED, false),
            (message_suppression_t.MESSAGE_NOT_SUPPRESSED, true),
            (message_suppression_t.MESSAGE_STILL_SUPPRESSED, false)]
      ∧ (update_suppression throttle_one 11000
          (update_suppression throttle_one 0 (new_stats 0)).2).2
        = { m_first_ms := 11000, m_last_ms := 11000, m_count := 1 }
      ∧ drops_noticed false
          (update_suppression_trace throttle_one (new_stats 0) [0, 11000, 11001]) = false
      ∧ update_suppression_trace throttle_one (new_stats 0) [1000, 1001]
        = [(message_suppression_t.MESSAGE_NOT_SUPPRESSED, true),
            (message_suppression_t.MESSAGE_STILL_SUPPRESSED, false)]
      ∧ message_is_emitted message_suppression_t.MESSAGE_STILL_SUPPRESSED = false := by
  refine ⟨by decide, by decide, by decide, by decide, by decide⟩

lemma load_users_no_valid_server (cur : UserDatabase) (warn : Bool) (bs : List Backend)
    (hnone : ∀ b ∈ bs, (b.is_active && b.is_usable) = false) :
    load_users cur warn bs
      = { rval := false, m_userdb := cur, contacted := [], iterations := bs.length,
          cache_syncs := 0, no_servers_error := warn } := by
  have hall : ∀ x ∈ bs, passed_over x = true := by
    intro x hx
    unfold passed_over
    rw [hnone x hx]
    rfl
  rw [load_users_all_passed cur warn bs hall]
  have hf : bs.filter (fun x => x.is_active && x.is_usable) = [] := by
    rw [List.filter_eq_nil_iff]
    intro x hx
    rw [hnone x hx]
    decide
  have ha : bs.any (fun x => x.is_active && x.is_usable) = false := by
    rw [List.any_eq_false]
    intro x hx
    rw [hnone x hx]
    decide
  rw [hf, ha]
  rfl

lemma updater_rounds_no_valid_server (rounds : List (List Backend))
    (hnone : ∀ bs ∈ rounds, ∀ b ∈ bs, (b.is_active && b.is_usable) = false) :
    ∀ st : UpdaterState, st.m_warn_no_servers = true →
      updater_rounds st rounds = List.replicate rounds.length true := by
  induction rounds with
  | nil => intro st _; rfl
  | cons bs rest ih =>
    intro st hwarn
    have hload := load_users_no_valid_server st.m_userdb st.m_warn_no_servers bs
      (hnone bs (List.mem_cons_self bs rest))
    have hround : updater_round st bs = (st, true) := by
      unfold updater_round
      simp only
      rw [hload]
      simp only [Bool.false_eq_true, if_false]
      rw [hwarn]
      obtain ⟨db, w, n⟩ := st
      simp only at hwarn
      rw [hwarn]
    rw [updater_rounds, hround, List.length_cons, List.replicate_succ]
    congr 1
    exact ih (fun b hb => hnone b (List.mem_cons_of_mem bs hb)) st hwarn

/-- C32 at the failing input: a first round in which the good server delivers the
accounts, then three rounds in which the only server is not active. The first round logs
nothing and sets `m_warn_no_servers`; every one of the three following calls of `load_users`
logs the error "No valid servers from which to query MariaDB user accounts found.", and the
flag is still set afterwards. -/
theorem no_servers_error_repeated :
    updater_rounds { m_userdb := {}, m_warn_no_servers := false, updates := 0 }
        [[srv_good], [srv_down], [srv_down], [srv_down]] = [false, true, true, true]
      ∧ (updater_round { m_userdb := {}, m_warn_no_servers := false, updates := 0 }
          [srv_good]).1.m_warn_no_servers = true
      ∧ (updater_round
          (updater_round { m_userdb := {}, m_warn_no_servers := false, updates := 0 }
            [srv_good]).1 [srv_down]).1.m_warn_no_servers = true
      ∧ (load_users {} true [srv_down]).no_servers_error = true
      ∧ (load_users {} true []).no_servers_error = true := by
  refine ⟨by decide, by decide, by decide, by decide, by decide⟩

/-! ## Reading of the user accounts and of the grants -/

lemma mem_add_entry (comp : UserEntry → UserEntry → Bool) (db : UserDatabase)
    (name : String) (e y : UserEntry) (u : String) :
    y ∈ ((add_entry comp db name e).m_users.lookup u).getD []
      ↔ (u = name ∧ y = e) ∨ y ∈ (db.m_users.lookup u).getD [] := by
  unfold add_entry
  simp only
  by_cases hu : u = name
  · subst hu
    rw [lookup_map_modify_self]
    simp only [Option.getD_some, mem_vector_insert, true_and]
  · rw [lookup_map_modify_other _ _ hu]
    simp [hu]

lemma read_users_rows_frame (comp : UserEntry → UserEntry → Bool) (users : QResult)
    (rows : List (Int → String)) :
    ∀ output : UserDatabase,
      (read_users_rows comp users rows output).m_database_grants = output.m_database_grants
        ∧ (read_users_rows comp users rows output).m_roles_mapping
          = output.m_roles_mapping := by
  induction rows with
  | nil => intro output; exact ⟨rfl, rfl⟩
  | cons row rest ih =>
    intro output
    unfold read_users_rows
    exact ih _

lemma mem_read_users_rows (comp : UserEntry → UserEntry → Bool) (users : QResult)
    (rows : List (Int → String)) (y : UserEntry) (u : String) :
    ∀ output : UserDatabase,
      y ∈ ((read_users_rows comp users rows output).m_users.lookup u).getD []
        ↔ y ∈ (output.m_users.lookup u).getD []
          ∨ ∃ row ∈ rows, row (users.get_col_index "User") = u
              ∧ y = users_row_entry users row := by
  induction rows with
  | nil =>
    intro output
    simp [read_users_rows]
  | cons row rest ih =>
    intro output
    unfold read_users_rows
    rw [ih, mem_add_entry]
    constructor
    · rintro ((⟨h1, h2⟩ | h) | ⟨r, hr, h1, h2⟩)
      · exact Or.inr ⟨row, List.mem_cons_self _ _, h1.symm, h2⟩
      · exact Or.inl h
      · exact Or.inr ⟨r, List.mem_cons_of_mem _ hr, h1, h2⟩
    · rintro (h | ⟨r, hr, h1, h2⟩)
      · exact Or.inl (Or.inr h)
      · rcases List.mem_cons.mp hr with rfl | hr
        · exact Or.inl (Or.inl ⟨h1.symm, h2⟩)
        · exact Or.inr ⟨r, hr, h1, h2⟩

/-- C31, as stated, fails for the lower-case letter: the account "bob"@"%" whose
Select_priv column holds "y" and whose other three privilege columns hold "N" is given
`global_db_priv = true`, although none of the four columns equals "Y". -/
theorem lower_case_y_sets_global_db_priv :
    has_required_fields users_lower_y = true
      ∧ users_lower_y.rows.map
          (fun row =>
            ((users_row_entry users_lower_y row).global_db_priv,
              row (users_lower_y.get_col_index "Select_priv"),
              row (users_lower_y.get_col_index "Insert_priv"),
              row (users_lower_y.get_col_index "Update_priv"),
              row (users_lower_y.get_col_index "Delete_priv")))
        = [(true, "y", "N", "N", "N")]
      ∧ read_users_mariadb host_pattern_is_more_specific users_lower_y {}
        = (true,
          { m_users :=
              [("bob", [{ username := "bob", host_pattern := "%", global_db_priv := true }])] })
      ∧ ¬ ((users_row_entry users_lower_y
              (fun col => (["bob", "%", "y", "N", "N", "N", "", "", "", ""] : List String).getD
                col.toNat "")).global_db_priv = true
          ↔ ∃ col ∈ ["Select_priv", "Insert_priv", "Update_priv", "Delete_priv"],
              (["bob", "%", "y", "N", "N", "N", "", "", "", ""] : List String).getD
                (users_lower_y.get_col_index col).toNat "" = "Y") := by
  refine ⟨by decide, by decide, by decide, by decide⟩

/-- C31, as amended: for a result set with all required columns `read_users_mariadb`
returns true, and for every row of it the entry added under the row's user name has
`global_db_priv = true` if and only if at least one of Select_priv, Insert_priv,
Update_priv, Delete_priv equals "Y" or "y", and `ssl = true` if and only if ssl_type is
not empty. The entries of the database after the call are those it held before and the
entries of the rows. -/
theorem read_users_mariadb_flags (comp : UserEntry → UserEntry → Bool) (users : QResult)
    (output : UserDatabase) (row : Int → String)
    (hreq : has_required_fields users = true) (hrow : row ∈ users.rows) :
    (read_users_mariadb comp users output).1 = true
      ∧ users_row_entry users row
        ∈ ((read_users_mariadb comp users output).2.m_users.lookup
            (row (users.get_col_index "User"))).getD []
      ∧ ((users_row_entry users row).global_db_priv = true
        ↔ ∃ col ∈ ["Select_priv", "Insert_priv", "Update_priv", "Delete_priv"],
            row (users.get_col_index col) = "Y" ∨ row (users.get_col_index col) = "y")
      ∧ ((users_row_entry users row).ssl = true ↔ row (users.get_col_index "ssl_type") ≠ "")
      ∧ (∀ (u : String) (y : UserEntry),
          y ∈ ((read_users_mariadb comp users output).2.m_users.lookup u).getD []
            ↔ y ∈ (output.m_users.lookup u).getD []
              ∨ ∃ r ∈ users.rows, r (users.get_col_index "User") = u
                  ∧ y = users_row_entry users r) := by
  have hread : read_users_mariadb comp users output
      = (true, read_users_rows comp users users.rows output) := by
    unfold read_users_mariadb
    rw [if_pos hreq]
  rw [hread]
  refine ⟨rfl, ?_, ?_, ?_, ?_⟩
  · simp only
    rw [mem_read_users_rows]
    exact Or.inr ⟨row, hrow, rfl, rfl⟩
  · simp only [users_row_entry, get_bool_enum, Bool.or_eq_true, decide_eq_true_eq,
      List.mem_cons, List.mem_singleton, exists_eq_or_imp, exists_eq_left, List.not_mem_nil,
      false_and, exists_false, or_false]
    tauto
  · simp [users_row_entry]
  · intro u y
    simp only
    exact mem_read_users_rows comp users users.rows y u output

/-- Scenario of C31: of the two accounts read, "ann" with Update_priv = "Y" and ssl_type
X509 gets both flags, "bob" with no privilege and an empty ssl_type gets neither. -/
theorem read_users_mariadb_flags_witness :
    read_users_mariadb host_pattern_is_more_specific users_two_rows {}
        = (true,
          { m_users :=
              [("ann", [{ username := "ann", host_pattern := "%", global_db_priv := true,
                          ssl := true }]),
                ("bob", [{ username := "bob", host_pattern := "%" }])] })
      ∧ ((users_row_entry users_two_rows
            (fun col => (["ann", "%", "N", "N", "Y", "N", "X509", "", "", ""] :
              List String).getD col.toNat "")).global_db_priv = true
          ↔ ∃ col ∈ ["Select_priv", "Insert_priv", "Update_priv", "Delete_priv"],
              (["ann", "%", "N", "N", "Y", "N", "X509", "", "", ""] : List String).getD
                  (users_two_rows.get_col_index col).toNat "" = "Y"
                ∨ (["ann", "%", "N", "N", "Y", "N", "X509", "", "", ""] : List String).getD
                  (users_two_rows.get_col_index col).toNat "" = "y") :=
  ⟨by decide,
    (read_users_mariadb_flags host_pattern_is_more_specific users_two_rows {}
      (fun col => (["ann", "%", "N", "N", "Y", "N", "X509", "", "", ""] : List String).getD
        col.toNat "")
      (by decide) (List.mem_cons_self _ _)).2.2.1⟩

lemma map_builder_rows_lookup (iu ih ig : Int) (rows : List (Int → String)) (key g : String) :
    ∀ result : StringSetMap,
      (∃ s, (map_builder_rows iu ih ig rows result).lookup key = some s ∧ g ∈ s)
        ↔ (∃ s, result.lookup key = some s ∧ g ∈ s)
          ∨ ∃ row ∈ rows, row iu ++ "@" ++ row ih = key ∧ row ig = g := by
  induction rows with
  | nil =>
    intro result
    simp [map_builder_rows]
  | cons row rest ihr =>
    intro result
    unfold map_builder_rows
    rw [ihr]
    have hstep : (∃ s, (map_modify (row iu ++ "@" ++ row ih)
          (fun s => set_insert s (row ig)) [] result).lookup key = some s ∧ g ∈ s)
        ↔ (∃ s, result.lookup key = some s ∧ g ∈ s)
          ∨ (row iu ++ "@" ++ row ih = key ∧ row ig = g) := by
      by_cases hk : key = row iu ++ "@" ++ row ih
      · subst hk
        rw [lookup_map_modify_self]
        simp only [Option.some.injEq, exists_eq_left', mem_set_insert, true_and]
        cases hl : result.lookup (row iu ++ "@" ++ row ih) with
        | none =>
          simp only [Option.getD_none, List.not_mem_nil, or_false, reduceCtorEq, false_and,
            exists_false, false_or]
          exact eq_comm
        | some s0 =>
          simp only [Option.getD_some, Option.some.injEq, exists_eq_left']
          constructor
          · rintro (h | h)
            · exact Or.inr h.symm
            · exact Or.inl h
          · rintro (h | h)
            · exact Or.inr h
            · exact Or.inl h.symm
      · rw [lookup_map_modify_other _ _ hk]
        have hk2 : ¬ (row iu ++ "@" ++ row ih = key) := fun h => hk h.symm
        simp [hk2]
    rw [hstep]
    constructor
    · rintro ((h | ⟨h1, h2⟩) | ⟨r, hr, h1, h2⟩)
      · exact Or.inl h
      · exact Or.inr ⟨row, List.mem_cons_self _ _, h1, h2⟩
      · exact Or.inr ⟨r, List.mem_cons_of_mem _ hr, h1, h2⟩
    · rintro (h | ⟨r, hr, h1, h2⟩)
      · exact Or.inl (Or.inl h)
      · rcases List.mem_cons.mp hr with rfl | hr
        · exact Or.inl (Or.inr ⟨h1, h2⟩)
        · exact Or.inr ⟨r, hr, h1, h2⟩

lemma map_builder_lookup (grant_col_name : String) (source : QResult) (key g : String) :
    (∃ s, (map_builder grant_col_name source).lookup key = some s ∧ g ∈ s)
      ↔ (source.get_col_index "user" ≥ 0 ∧ source.get_col_index "host" ≥ 0
          ∧ source.get_col_index grant_col_name ≥ 0)
        ∧ ∃ row ∈ source.rows,
            row (source.get_col_index "user") ++ "@" ++ row (source.get_col_index "host") = key
              ∧ row (source.get_col_index grant_col_name) = g := by
  unfold map_builder
  simp only
  by_cases hv : source.get_col_index "user" ≥ 0 ∧ source.get_col_index "host" ≥ 0
      ∧ source.get_col_index grant_col_name ≥ 0
  · rw [if_pos hv, map_builder_rows_lookup]
    simp [hv]
  · rw [if_neg hv]
    simp [hv]

lemma user_host_key_unique (u1 h1 u2 h2 : String) (hh1 : '@' ∉ h1.data) (hh2 : '@' ∉ h2.data)
    (hkey : u1 ++ "@" ++ h1 = u2 ++ "@" ++ h2) : u1 = u2 ∧ h1 = h2 := by
  have hdata : u1.data ++ '@' :: h1.data = u2.data ++ '@' :: h2.data := by
    have := congrArg String.data hkey
    simpa [String.data_append] using this
  have hlen : u1.data.length + 1 = u2.data.length + 1 := by
    rw [← after_last_of_append u1.data h1.data '@' hh1,
      ← after_last_of_append u2.data h2.data '@' hh2, hdata]
  have hsplit := List.append_inj hdata (by omega)
  constructor
  · exact String.ext hsplit.1
  · have := hsplit.2
    simp only [List.cons.injEq, true_and] at this
    exact String.ext this

/-- C38: in a database whose grant map was built by `read_dbs_and_roles` from the rows of
`dbs`, an entry without the global privilege and without default role passes
`check_database_access` for a non-empty `db` under case-sensitive comparison exactly when
the result has the columns user, host and db and holds a row with the user name and the
host pattern of the entry and with `db`: no row of another pair gives access. This rests on
the assumption that no row of another pair yields the key of the entry, user + "@" + host;
it is met whenever the host texts hold no `@`. -/
theorem grant_isolation (dbs : QResult) (roles : Option QResult) (output : UserDatabase)
    (e : UserEntry) (db : String)
    (hpriv : e.global_db_priv = false) (hrole : e.default_role = "") (hdb : db ≠ "")
    (hkey : ∀ row ∈ dbs.rows,
      row (dbs.get_col_index "user") ++ "@" ++ row (dbs.get_col_index "host")
          = e.username ++ "@" ++ e.host_pattern →
        row (dbs.get_col_index "user") = e.username
          ∧ row (dbs.get_col_index "host") = e.host_pattern) :
    (check_database_access (read_dbs_and_roles dbs roles output) e db true = true
        ↔ (dbs.get_col_index "user" ≥ 0 ∧ dbs.get_col_index "host" ≥ 0
            ∧ dbs.get_col_index "db" ≥ 0)
          ∧ ∃ row ∈ dbs.rows, row (dbs.get_col_index "user") = e.username
              ∧ row (dbs.get_col_index "host") = e.host_pattern
              ∧ row (dbs.get_col_index "db") = db)
      ∧ ((∀ row ∈ dbs.rows, '@' ∉ (row (dbs.get_col_index "host")).data) →
          '@' ∉ e.host_pattern.data →
          ∀ row ∈ dbs.rows,
            row (dbs.get_col_index "user") ++ "@" ++ row (dbs.get_col_index "host")
                = e.username ++ "@" ++ e.host_pattern →
              row (dbs.get_col_index "user") = e.username
                ∧ row (dbs.get_col_index "host") = e.host_pattern) := by
  constructor
  · have hcheck : check_database_access (read_dbs_and_roles dbs roles output) e db true
        = user_can_access_db (read_dbs_and_roles dbs roles output) e.username
            e.host_pattern db true := by
      unfold check_database_access
      simp [hpriv, hrole, hdb]
    rw [hcheck, user_can_access_db_iff]
    have hmap : (read_dbs_and_roles dbs roles output).m_database_grants
        = map_builder "db" dbs := rfl
    rw [hmap]
    have hg : ∀ s : StringSet, grant_set_contains s db true ↔ db ∈ s := by
      intro s
      unfold grant_set_contains
      simp
    simp only [hg]
    rw [map_builder_lookup]
    constructor
    · rintro ⟨hv, row, hr, h1, h2⟩
      obtain ⟨hu, hh⟩ := hkey row hr h1
      exact ⟨hv, row, hr, hu, hh, h2⟩
    · rintro ⟨hv, row, hr, hu, hh, h2⟩
      exact ⟨hv, row, hr, by rw [hu, hh], h2⟩
  · intro hrows hhost row hr hk
    exact user_host_key_unique _ _ _ _ (hrows row hr) hhost hk

/-- Scenario of C38: with the rows ("erin", "%", "Sales") and ("frank", "%", "Hr") the
entry "erin"@"%" may use "Sales" and may not use "Hr", the schema granted to "frank". -/
theorem grant_isolation_witness :
    check_database_access (read_dbs_and_roles dbs_two_rows none {}) erin "Sales" true = true
      ∧ check_database_access (read_dbs_and_roles dbs_two_rows none {}) erin "Hr" true = false
      ∧ (check_database_access (read_dbs_and_roles dbs_two_rows none {}) erin "Hr" true = true
        ↔ (dbs_two_rows.get_col_index "user" ≥ 0 ∧ dbs_two_rows.get_col_index "host" ≥ 0
            ∧ dbs_two_rows.get_col_index "db" ≥ 0)
          ∧ ∃ row ∈ dbs_two_rows.rows, row (dbs_two_rows.get_col_index "user") = erin.username
              ∧ row (dbs_two_rows.get_col_index "host") = erin.host_pattern
              ∧ row (dbs_two_rows.get_col_index "db") = "Hr") :=
  ⟨by decide, by decide,
    (grant_isolation dbs_two_rows none {} erin "Hr" (by decide) (by decide) (by decide)
      (by decide)).1⟩

/-- Without the assumption of C38 the keys collide: the single grant row
("a", "b@c", "x") lets the entry with user name "a@b" and host pattern "c" use the schema
"x". -/
lemma grant_key_collision :
    check_database_access (read_dbs_and_roles dbs_collision none {})
        { username := "a@b", host_pattern := "c" } "x" true = true := by
  decide

/-! ## Authenticator options -/

lemma str_find_char_not_mem_take (l : List Char) (c : Char) (d : Nat)
    (h : str_find_char l c = some d) : c ∉ l.take d := by
  induction l generalizing d with
  | nil => simp [str_find_char] at h
  | cons x xs ih =>
    unfold str_find_char at h
    by_cases hx : x = c
    · rw [if_pos hx] at h
      simp only [Option.some.injEq] at h
      rw [← h]
      simp
    · rw [if_neg hx] at h
      cases hrec : str_find_char xs c with
      | none => rw [hrec] at h; cases h
      | some j =>
        rw [hrec] at h
        simp only [Option.map_some', Option.some.injEq] at h
        rw [← h, List.take_succ_cons, List.mem_cons, not_or]
        exact ⟨fun he => hx he.symm, ih j hrec⟩

lemma str_find_char_append (pre suf : List Char) (c : Char) (h : c ∉ pre) :
    str_find_char (pre ++ c :: suf) c = some pre.length := by
  induction pre with
  | nil => simp [str_find_char]
  | cons x xs ih =>
    have hx : x ≠ c := fun he => h (he ▸ List.mem_cons_self _ _)
    have hxs : c ∉ xs := fun hm => h (List.mem_cons_of_mem _ hm)
    simp [str_find_char, hx, ih hxs]

lemma str_find_char_lt (l : List Char) (c : Char) (d : Nat)
    (h : str_find_char l c = some d) : d < l.length := by
  have hsplit := str_find_char_split l c d h
  by_contra hge
  have h1 : l.take d = l := List.take_of_length_le (by omega)
  have h2 : l.drop (d + 1) = [] := List.drop_of_length_le (by omega)
  rw [h1, h2] at hsplit
  have := congrArg List.length hsplit
  simp at this

lemma parse_authenticator_opt_error (env : OptsEnv) (opt : String)
    (st : Bool × UserSearchSettings) :
    (parse_authenticator_opt env opt st).1 = true ↔ st.1 = true ∨ ¬ option_well_formed env opt := by
  unfold parse_authenticator_opt
  cases hf : str_find_char opt.data '=' with
  | none =>
    simp only [true_iff]
    right
    rintro ⟨key, value, hopt, hkey, _, _, _⟩
    rw [hopt] at hf
    have : (key ++ "=" ++ value).data = key.data ++ '=' :: value.data := by
      simp [String.data_append]
    rw [this, str_find_char_append _ _ _ hkey] at hf
    cases hf
  | some pos =>
    have hsplit := str_find_char_split opt.data '=' pos hf
    have hnot := str_find_char_not_mem_take opt.data '=' pos hf
    have hlt := str_find_char_lt opt.data '=' pos hf
    have hwf : option_well_formed env opt
        ↔ (pos > 0 ∧ opt.length > pos + 1)
          ∧ env.trim (substr_to opt pos) ∈ authenticator_option_names := by
      constructor
      · rintro ⟨key, value, hopt, hkey, hkne, hvne, hname⟩
        have hdata : opt.data = key.data ++ '=' :: value.data := by
          rw [hopt]
          simp [String.data_append]
        have hpos : pos = key.data.length := by
          rw [hdata, str_find_char_append _ _ _ hkey] at hf
          simpa using hf.symm
        have hklen : 0 < key.data.length := by
          rcases hk : key.data with _ | ⟨a, as⟩
          · exact absurd (String.ext hk) hkne
          · simp
        have hvlen : 0 < value.data.length := by
          rcases hv : value.data with _ | ⟨a, as⟩
          · exact absurd (String.ext hv) hvne
          · simp
        have hlen : opt.length = key.data.length + 1 + value.data.length := by
          show opt.data.length = _
          rw [hdata]
          simp
          omega
        have hsub : substr_to opt pos = key := by
          unfold substr_to
          apply String.ext
          simp only
          rw [hdata, hpos, List.take_left]
        refine ⟨⟨by omega, by omega⟩, ?_⟩
        rw [hsub]
        exact hname
      · rintro ⟨⟨hp, hl⟩, hname⟩
        refine ⟨substr_to opt pos, substr_from opt (pos + 1), ?_, hnot, ?_, ?_, hname⟩
        · apply String.ext
          have : (substr_to opt pos ++ "=" ++ substr_from opt (pos + 1)).data
              = opt.data.take pos ++ '=' :: opt.data.drop (pos + 1) := by
            simp [String.data_append, substr_to, substr_from]
          rw [this]
          exact hsplit
        · intro he
          have := congrArg String.length he
          simp only [substr_to, String.length, List.length_take] at this
          have h0 : ("" : String).data.length = 0 := rfl
          rw [h0] at this
          omega
        · intro he
          have := congrArg String.length he
          simp only [substr_from, String.length, List.length_drop] at this
          have h0 : ("" : String).data.length = 0 := rfl
          rw [h0] at this
          have hl2 : opt.data.length > pos + 1 := hl
          omega
    rw [hwf]
    simp only
    by_cases hc : pos > 0 ∧ opt.length > pos + 1
    · rw [if_pos hc]
      simp only [hc, true_and, authenticator_option_names, List.mem_cons, List.mem_singleton,
        List.not_mem_nil, or_false]
      by_cases h1 : env.trim (substr_to opt pos) = "cache_dir"
      · simp [h1]
      · by_cases h2 : env.trim (substr_to opt pos) = "inject_service_user"
        · simp [h2]
        · by_cases h3 : env.trim (substr_to opt pos) = "skip_authentication"
          · simp [h3]
          · by_cases h4 : env.trim (substr_to opt pos) = "lower_case_table_names"
            · simp [h4]
            · simp [h1, h2, h3, h4]
    · rw [if_neg hc]
      simp [hc]

lemma parse_authenticator_opt_list_error (env : OptsEnv) (items : List String) :
    ∀ st : Bool × UserSearchSettings,
      (parse_authenticator_opt_list env items st).1 = false
        ↔ st.1 = false ∧ ∀ opt ∈ items, option_well_formed env opt := by
  induction items with
  | nil =>
    intro st
    simp [parse_authenticator_opt_list]
  | cons opt rest ih =>
    intro st
    unfold parse_authenticator_opt_list
    rw [ih]
    have hb : (parse_authenticator_opt env opt st).1 = false
        ↔ st.1 = false ∧ option_well_formed env opt := by
      have := parse_authenticator_opt_error env opt st
      constructor
      · intro h
        by_contra hcon
        have hor : st.1 = true ∨ ¬ option_well_formed env opt := by
          by_cases hs : st.1 = true
          · exact Or.inl hs
          · right
            intro hw
            exact hcon ⟨by simpa using hs, hw⟩
        rw [this.mpr hor] at h
        cases h
      · rintro ⟨hs, hw⟩
        by_contra hcon
        have ht : (parse_authenticator_opt env opt st).1 = true := by simpa using hcon
        rcases this.mp ht with h | h
        · rw [hs] at h; cases h
        · exact h hw
    rw [hb]
    simp only [List.mem_cons, forall_eq_or_imp]
    tauto

/-- C33: `parse_authenticator_opts` returns true if and only if every item of the list
that `mxb::strtok(opts, ",")` yields has the form key=value, split at its first `=`, with a
non-empty key, a non-empty value and a trimmed key that is one of cache_dir,
inject_service_user, skip_authentication, lower_case_table_names. An item without `=`,
with its first `=` as first or as last character, or with another key makes it return
false. An option string for which `mxb::strtok` yields no item, as it does for the empty
string, is accepted. -/
theorem parse_authenticator_opts_valid (env : OptsEnv) (m_authenticators : List Nat)
    (sett : UserSearchSettings) (opts : String) :
    ((parse_authenticator_opts env m_authenticators sett opts).1 = true
        ↔ ∀ opt ∈ env.strtok opts ",", option_well_formed env opt)
      ∧ (∀ opt ∈ env.strtok opts ",",
          (str_find_char opt.data '=' = none ∨ str_find_char opt.data '=' = some 0
            ∨ str_find_char opt.data '=' = some (opt.length - 1)
            ∨ ∃ pos, str_find_char opt.data '=' = some pos
                ∧ env.trim (substr_to opt pos) ∉ authenticator_option_names) →
          (parse_authenticator_opts env m_authenticators sett opts).1 = false)
      ∧ (env.strtok opts "," = [] →
          (parse_authenticator_opts env m_authenticators sett opts).1 = true) := by
  have hiff : (parse_authenticator_opts env m_authenticators sett opts).1 = true
      ↔ ∀ opt ∈ env.strtok opts ",", option_well_formed env opt := by
    unfold parse_authenticator_opts
    simp only [Bool.not_eq_true', parse_authenticator_opt_list_error, true_and]
  refine ⟨hiff, ?_, ?_⟩
  · intro opt hopt hbad
    have hnot : ¬ (parse_authenticator_opts env m_authenticators sett opts).1 = true := by
      rw [hiff]
      intro hall
      obtain ⟨key, value, hform, hkey, hkne, hvne, hname⟩ := hall opt hopt
      have hdata : opt.data = key.data ++ '=' :: value.data := by
        rw [hform]
        simp [String.data_append]
      have hfind : str_find_char opt.data '=' = some key.data.length := by
        rw [hdata, str_find_char_append _ _ _ hkey]
      have hklen : 0 < key.data.length := by
        rcases hk : key.data with _ | ⟨a, as⟩
        · exact absurd (String.ext hk) hkne
        · simp
      have hvlen : 0 < value.data.length := by
        rcases hv : value.data with _ | ⟨a, as⟩
        · exact absurd (String.ext hv) hvne
        · simp
      have hlen : opt.length = key.data.length + 1 + value.data.length := by
        show opt.data.length = _
        rw [hdata]
        simp
        omega
      rcases hbad with h | h | h | ⟨pos, h, hn⟩
      · rw [hfind] at h; cases h
      · rw [hfind] at h
        simp only [Option.some.injEq] at h
        omega
      · rw [hfind] at h
        simp only [Option.some.injEq] at h
        omega
      · rw [hfind] at h
        simp only [Option.some.injEq] at h
        apply hn
        have hsub : substr_to opt pos = key := by
          unfold substr_to
          apply String.ext
          simp only
          rw [hdata, ← h, List.take_left]
        rw [hsub]
        exact hname
    simpa using hnot
  · intro hempty
    rw [hiff, hempty]
    intro opt hopt
    simp at hopt

/-- Scenario of C33: a list of three well-formed options and the empty string are
accepted; an item without `=`, one with `=` first, one with `=` last and one with an
unknown key are each refused. -/
theorem parse_authenticator_opts_valid_witness :
    (parse_authenticator_opts spec_opts [] sett_default
        "skip_authentication=true,cache_dir=/tmp,lower_case_table_names=1").1 = true
      ∧ (parse_authenticator_opts spec_opts [] sett_default "").1 = true
      ∧ (parse_authenticator_opts spec_opts [] sett_default "skip_authentication").1 = false
      ∧ (parse_authenticator_opts spec_opts [] sett_default "=true").1 = false
      ∧ (parse_authenticator_opts spec_opts [] sett_default "cache_dir=").1 = false
      ∧ (parse_authenticator_opts spec_opts [] sett_default "verbose=true").1 = false :=
  ⟨by decide,
    (parse_authenticator_opts_valid spec_opts [] sett_default "").2.2 (by decide),
    by decide, by decide, by decide, by decide⟩

lemma parse_authenticator_opt_frame (env : OptsEnv) (opt : String)
    (st : Bool × UserSearchSettings) :
    (parse_authenticator_opt env opt st).2.allow_root_user = st.2.allow_root_user
      ∧ (parse_authenticator_opt env opt st).2.allow_anon_user = st.2.allow_anon_user
      ∧ ((parse_authenticator_opt env opt st).2.match_host_pattern = st.2.match_host_pattern
        ∨ ∃ pos, str_find_char opt.data '=' = some pos ∧ 0 < pos ∧ pos + 1 < opt.length
            ∧ env.trim (substr_to opt pos) = "skip_authentication"
            ∧ (parse_authenticator_opt env opt st).2.match_host_pattern
              = decide (env.config_truth_value (env.trim (substr_from opt (pos + 1))) = 0)) := by
  unfold parse_authenticator_opt
  cases hf : str_find_char opt.data '=' with
  | none => exact ⟨rfl, rfl, Or.inl rfl⟩
  | some pos =>
    simp only
    by_cases hc : pos > 0 ∧ opt.length > pos + 1
    · rw [if_pos hc]
      by_cases h1 : env.trim (substr_to opt pos) = "cache_dir"
      · rw [if_pos h1]
        exact ⟨rfl, rfl, Or.inl rfl⟩
      · rw [if_neg h1]
        by_cases h2 : env.trim (substr_to opt pos) = "inject_service_user"
        · rw [if_pos h2]
          exact ⟨rfl, rfl, Or.inl rfl⟩
        · rw [if_neg h2]
          by_cases h3 : env.trim (substr_to opt pos) = "skip_authentication"
          · rw [if_pos h3]
            exact ⟨rfl, rfl, Or.inr ⟨pos, rfl, hc.1, hc.2, h3, rfl⟩⟩
          · rw [if_neg h3]
            by_cases h4 : env.trim (substr_to opt pos) = "lower_case_table_names"
            · rw [if_pos h4]
              exact ⟨rfl, rfl, Or.inl rfl⟩
            · rw [if_neg h4]
              exact ⟨rfl, rfl, Or.inl rfl⟩
    · rw [if_neg hc]
      exact ⟨rfl, rfl, Or.inl rfl⟩

lemma parse_authenticator_opt_list_frame (env : OptsEnv) (items : List String) :
    ∀ st : Bool × UserSearchSettings,
      (parse_authenticator_opt_list env items st).2.allow_root_user = st.2.allow_root_user
        ∧ (parse_authenticator_opt_list env items st).2.allow_anon_user = st.2.allow_anon_user
        ∧ ((parse_authenticator_opt_list env items st).2.match_host_pattern = false →
            st.2.match_host_pattern = false
              ∨ ∃ opt ∈ items, ∃ pos, str_find_char opt.data '=' = some pos ∧ 0 < pos
                  ∧ pos + 1 < opt.length
                  ∧ env.trim (substr_to opt pos) = "skip_authentication"
                  ∧ env.config_truth_value (env.trim (substr_from opt (pos + 1))) ≠ 0) := by
  induction items with
  | nil =>
    intro st
    exact ⟨rfl, rfl, fun h => Or.inl h⟩
  | cons opt rest ih =>
    intro st
    unfold parse_authenticator_opt_list
    obtain ⟨i1, i2, i3⟩ := ih (parse_authenticator_opt env opt st)
    obtain ⟨f1, f2, f3⟩ := parse_authenticator_opt_frame env opt st
    refine ⟨i1.trans f1, i2.trans f2, ?_⟩
    intro hfalse
    rcases i3 hfalse with h | ⟨o, ho, pos, hp⟩
    · rcases f3 with h3 | ⟨pos, hfind, hp0, hp1, hname, hval⟩
      · left
        rw [← h3]
        exact h
      · right
        refine ⟨opt, List.mem_cons_self _ _, pos, hfind, hp0, hp1, hname, ?_⟩
        rw [hval] at h
        simpa using h
    · exact Or.inr ⟨o, List.mem_cons_of_mem _ ho, pos, hp⟩

/-- The effect of one well-formed item `name=value` on the search settings. For cache_dir
nothing changes, whatever the value. For a value whose truth value is that of the boolean
`v` (1 for true, 0 for false): skip_authentication sets `match_host_pattern` to `!v`,
lower_case_table_names sets `case_sensitive_db` to `!v`, inject_service_user sets
`allow_service_user` to `v`, and each leaves the error flag and all other settings as they
were. Over a whole option string, `allow_root_user` does not change, and
`match_host_pattern` is false afterwards only if it was false before or some item is
skip_authentication with a value whose truth value is not 0. -/
lemma authenticator_option_effect (env : OptsEnv) :
    (∀ (opt : String) (st : Bool × UserSearchSettings) (pos : Nat),
        str_find_char opt.data '=' = some pos → 0 < pos → pos + 1 < opt.length →
        (env.trim (substr_to opt pos) = "cache_dir" → parse_authenticator_opt env opt st = st)
          ∧ ∀ v : Bool,
              env.config_truth_value (env.trim (substr_from opt (pos + 1)))
                  = (if v then 1 else 0) →
              (env.trim (substr_to opt pos) = "skip_authentication" →
                  parse_authenticator_opt env opt st
                    = (st.1, { st.2 with match_host_pattern := !v }))
                ∧ (env.trim (substr_to opt pos) = "lower_case_table_names" →
                  parse_authenticator_opt env opt st
                    = (st.1, { st.2 with case_sensitive_db := !v }))
                ∧ (env.trim (substr_to opt pos) = "inject_service_user" →
                  parse_authenticator_opt env opt st
                    = (st.1, { st.2 with allow_service_user := v })))
      ∧ (∀ (m_authenticators : List Nat) (sett : UserSearchSettings) (opts : String),
          (parse_authenticator_opts env m_authenticators sett opts).2.allow_root_user
              = sett.allow_root_user
            ∧ ((parse_authenticator_opts env m_authenticators sett opts).2.match_host_pattern
                = false →
              sett.match_host_pattern = false
                ∨ ∃ opt ∈ env.strtok opts ",", ∃ pos,
                    str_find_char opt.data '=' = some pos ∧ 0 < pos ∧ pos + 1 < opt.length
                      ∧ env.trim (substr_to opt pos) = "skip_authentication"
                      ∧ env.config_truth_value (env.trim (substr_from opt (pos + 1)))
                        ≠ 0)) := by
  constructor
  · intro opt st pos hfind hp0 hp1
    have hc : pos > 0 ∧ opt.length > pos + 1 := ⟨hp0, hp1⟩
    constructor
    · intro hname
      unfold parse_authenticator_opt
      simp only [hfind, hc, and_self, if_true, hname]
    · intro v hval
      have hv0 : decide (env.config_truth_value (env.trim (substr_from opt (pos + 1))) = 0)
          = !v := by
        rw [hval]
        cases v <;> simp
      have hv1 : decide (env.config_truth_value (env.trim (substr_from opt (pos + 1))) ≠ 0)
          = v := by
        rw [hval]
        cases v <;> simp
      refine ⟨?_, ?_, ?_⟩
      · intro hname
        unfold parse_authenticator_opt
        simp only [hfind, hc, and_self, if_true, hname, hv0]
        simp
      · intro hname
        unfold parse_authenticator_opt
        simp only [hfind, hc, and_self, if_true, hname, hv0]
        simp
      · intro hname
        unfold parse_authenticator_opt
        simp only [hfind, hc, and_self, if_true, hname, hv1]
        simp
  · intro auths sett opts
    unfold parse_authenticator_opts
    simp only
    obtain ⟨f1, _, f3⟩ := parse_authenticator_opt_list_frame env (env.strtok opts ",")
      (false,
        if auths.any (fun caps => decide (caps &&& env.CAP_ANON_USER ≠ 0)) then
          { sett with allow_anon_user := true }
        else sett)
    constructor
    · rw [f1]
      split_ifs <;> rfl
    · intro h
      rcases f3 h with h0 | h0
      · left
        simp only at h0
        split_ifs at h0 <;> exact h0
      · exact Or.inr h0

/-- With boolean values: skip_authentication=true switches the matching of host patterns
off and changes nothing else; lower_case_table_names=1 and inject_service_user=yes act on
their own settings only, and cache_dir changes nothing. -/
lemma authenticator_option_effect_boolean :
    parse_authenticator_opts spec_opts [] sett_default "skip_authentication=true"
        = (true, { sett_default with match_host_pattern := false })
      ∧ parse_authenticator_opts spec_opts [] sett_default "skip_authentication=false"
        = (true, sett_default)
      ∧ parse_authenticator_opts spec_opts [] sett_default
          "lower_case_table_names=1, inject_service_user = yes,cache_dir=/tmp"
        = (true, { sett_default with case_sensitive_db := false, allow_service_user := true })
      ∧ parse_authenticator_opt spec_opts "skip_authentication=true" (false, sett_default)
        = (false, { sett_default with match_host_pattern := !true }) :=
  ⟨by decide, by decide, by decide,
    (((authenticator_option_effect spec_opts).1 "skip_authentication=true"
      (false, sett_default) 19 (by decide) (by decide) (by decide)).2 true (by decide)).1
      (by decide)⟩

lemma skip_authentication_nonzero (env : OptsEnv) (opt : String)
    (st : Bool × UserSearchSettings) (pos : Nat)
    (hfind : str_find_char opt.data '=' = some pos) (hp0 : 0 < pos)
    (hp1 : pos + 1 < opt.length)
    (hname : env.trim (substr_to opt pos) = "skip_authentication")
    (hval : env.config_truth_value (env.trim (substr_from opt (pos + 1))) ≠ 0) :
    parse_authenticator_opt env opt st = (st.1, { st.2 with match_host_pattern := false }) := by
  have hc : pos > 0 ∧ opt.length > pos + 1 := ⟨hp0, hp1⟩
  unfold parse_authenticator_opt
  simp only [hfind, hc, and_self, if_true, hname]
  simp [hval]

/-- C34 at the failing input: the option string `skip_authentication=banana`, whose value
is no boolean (its truth value is -1, neither that of true nor that of false), is accepted
and switches the matching of host patterns off; `skip_authentication=flase` does the same,
and `inject_service_user=banana` switches the service user on. With the boolean values
true and false the option does what its name says. -/
theorem skip_authentication_invalid_value :
    spec_opts.config_truth_value "banana" = -1
      ∧ sett_default.match_host_pattern = true
      ∧ parse_authenticator_opts spec_opts [] sett_default "skip_authentication=banana"
        = (true, { sett_default with match_host_pattern := false })
      ∧ parse_authenticator_opts spec_opts [] sett_default "skip_authentication=flase"
        = (true, { sett_default with match_host_pattern := false })
      ∧ parse_authenticator_opts spec_opts [] sett_default "inject_service_user=banana"
        = (true, { sett_default with allow_service_user := true })
      ∧ parse_authenticator_opts spec_opts [] sett_default "skip_authentication=true"
        = (true, { sett_default with match_host_pattern := false })
      ∧ parse_authenticator_opts spec_opts [] sett_default "skip_authentication=false"
        = (true, sett_default) := by
  refine ⟨by decide, by decide, by decide, by decide, by decide, by decide, by decide⟩

/-! ## The texts converted in the matching of base/netmask patterns -/

end MaxScale
